import Mathlib

/-!
# Estate agent app: the search engine of `src/utils/searchLogic.js`

A shallow embedding of `searchProperties` and of the JavaScript built-ins it calls.

* JavaScript values are the primitives `undefined`, `null`, booleans, numbers and strings.
  Objects and arrays as field values are outside the embedding.
* A number is `NaN`, an infinity or an exact rational (the value a double stands for); `+0` and
  `-0` are one value. Numeric text is read at its exact decimal value: rounding of a parsed
  literal to the nearest double is not modelled.
* Built-in behaviour that is not spelled out here (case mapping of non-ASCII text, date text that
  is not a calendar date `YYYY-MM-DD`, `ToNumber` on strings, `parseInt` on numbers printed in
  exponent notation) is a field of `Host`; every theorem holds for every host unless it names one.
-/

namespace EstateApp

/-! ## JavaScript values -/

/-- A JavaScript number. -/
inductive JSNum where
  | nan
  | posInf
  | negInf
  | fin (q : ℚ)
  deriving DecidableEq

/-- A JavaScript primitive value. -/
inductive JSVal where
  | undefined
  | null
  | bool (b : Bool)
  | num (n : JSNum)
  | str (s : String)
  deriving DecidableEq

/-- The only exception the search engine can raise: a `TypeError` from a method call on a value
that has no such method. -/
inductive JSError where
  | typeError
  deriving DecidableEq

/-- Built-in behaviour taken as given. -/
structure Host where
  /-- `String.prototype.toUpperCase` on a string with a non-ASCII character. -/
  toUpperCaseOther : String → String
  /-- `String.prototype.toLowerCase` on a string with a non-ASCII character. -/
  toLowerCaseOther : String → String
  /-- `Date.parse` on a string that is not a calendar date written `YYYY-MM-DD`. -/
  dateParseOther : String → JSNum
  /-- `ToNumber` on a string. -/
  stringToNumber : String → JSNum
  /-- The value of `parseInt(x)` for a number `x` that `ToString` prints in exponent notation
  with more than one significant digit, or with a negative exponent. -/
  parseIntOther : ℚ → JSNum
  /-- The text `toLocaleString('en-GB')` prints for a price of `2 ^ 53` or more, where the
  number holding the price may differ from the price and prints with its shortest digits. -/
  toLocaleStringOther : Nat → String

namespace JSNum

/-- The test `isNaN(x)` on a number. -/
def isNaN : JSNum → Bool
  | nan => true
  | _ => false

/-- The comparison `x < y` on numbers: false as soon as an operand is `NaN`. -/
def lt : JSNum → JSNum → Bool
  | nan, _ => false
  | _, nan => false
  | posInf, _ => false
  | _, negInf => false
  | negInf, _ => true
  | _, posInf => true
  | fin a, fin b => decide (a < b)

/-- The comparison `x <= y` on numbers: false as soon as an operand is `NaN`. -/
def le : JSNum → JSNum → Bool
  | nan, _ => false
  | _, nan => false
  | negInf, _ => true
  | _, posInf => true
  | posInf, _ => false
  | _, negInf => false
  | fin a, fin b => decide (a ≤ b)

end JSNum

open JSNum JSVal

/-- The conversion `ToBoolean`: what `if (v)` tests. -/
def truthy : JSVal → Bool
  | undefined => false
  | null => false
  | .bool b => b
  | num nan => false
  | num (fin q) => decide (q ≠ 0)
  | num _ => true
  | str s => decide (s ≠ "")

/-- The comparison `a === b` on primitives: same type and same value, `NaN` equal to nothing. -/
def strictEq : JSVal → JSVal → Bool
  | num nan, _ => false
  | _, num nan => false
  | a, b => decide (a = b)

/-- The conversion `ToNumber`. -/
def toNumber (h : Host) : JSVal → JSNum
  | undefined => nan
  | null => fin 0
  | .bool b => fin (if b then 1 else 0)
  | num n => n
  | str s => h.stringToNumber s

/-! ## Strings -/

/-- The characters `String.prototype.trim`, `parseFloat` and `parseInt` skip: the white space
and line terminator code points of ECMAScript. -/
def isJSWhiteSpace (c : Char) : Bool :=
  c.toNat ∈ [9, 10, 11, 12, 13, 32, 160, 5760, 8232, 8233, 8239, 8287, 12288, 65279]
    || (8192 ≤ c.toNat && c.toNat ≤ 8202)

/-- The method `String.prototype.trim`. -/
def trim (s : String) : String :=
  ⟨((s.data.dropWhile isJSWhiteSpace).reverse.dropWhile isJSWhiteSpace).reverse⟩

/-- Whether every character of the string is ASCII. -/
def isAsciiString (s : String) : Bool :=
  s.data.all (fun c => decide (c.toNat < 128))

/-- The method `String.prototype.toUpperCase`. -/
def toUpperCase (h : Host) (s : String) : String :=
  if isAsciiString s then ⟨s.data.map Char.toUpper⟩ else h.toUpperCaseOther s

/-- The method `String.prototype.toLowerCase`. -/
def toLowerCase (h : Host) (s : String) : String :=
  if isAsciiString s then ⟨s.data.map Char.toLower⟩ else h.toLowerCaseOther s

/-- The method `String.prototype.startsWith` with one argument. -/
def startsWith (s search : String) : Bool :=
  search.data.isPrefixOf s.data

/-- The call `v.toUpperCase()` on an arbitrary value: a `TypeError` unless `v` is a string. -/
def callToUpperCase (h : Host) : JSVal → Except JSError String
  | str s => .ok (toUpperCase h s)
  | _ => .error .typeError

/-! ## Numeric parsing -/

/-- The value of a run of decimal digits. -/
def digitsToNat (ds : List Char) : Nat :=
  ds.foldl (fun a c => 10 * a + (c.toNat - 48)) 0

/-- Whether the character is a hexadecimal digit. -/
def isHexDigit (c : Char) : Bool :=
  c.isDigit || (97 ≤ c.toNat && c.toNat ≤ 102) || (65 ≤ c.toNat && c.toNat ≤ 70)

/-- The value of one hexadecimal digit. -/
def hexDigitVal (c : Char) : Nat :=
  if c.isDigit then c.toNat - 48
  else if 97 ≤ c.toNat then c.toNat - 87
  else c.toNat - 55

/-- The value of a run of hexadecimal digits. -/
def hexToNat (ds : List Char) : Nat :=
  ds.foldl (fun a c => 16 * a + hexDigitVal c) 0

/-- Splits an optional leading sign off: the sign as a factor and the rest. -/
def splitSign : List Char → Int × List Char
  | '-' :: r => (-1, r)
  | '+' :: r => (1, r)
  | l => (1, l)

/-- The exponent part `e±ddd` at the head of the text, 0 when there is none. -/
def exponentPart : List Char → Int
  | c :: r =>
    if c = 'e' ∨ c = 'E' then
      let (sg, r') := splitSign r
      let ds := r'.takeWhile Char.isDigit
      if ds = [] then 0 else sg * (digitsToNat ds : Int)
    else 0
  | [] => 0

/-- The function `parseFloat` on a string: leading white space is skipped and the longest
leading decimal literal is read; `NaN` when there is none. -/
def parseFloatStr (s : String) : JSNum :=
  let l := s.data.dropWhile isJSWhiteSpace
  let (sg, l1) := splitSign l
  if "Infinity".data.isPrefixOf l1 then (if sg < 0 then negInf else posInf)
  else
    let ip := l1.takeWhile Char.isDigit
    let r1 := l1.dropWhile Char.isDigit
    let fp := match r1 with
      | '.' :: r => r.takeWhile Char.isDigit
      | _ => []
    let r2 := match r1 with
      | '.' :: r => r.dropWhile Char.isDigit
      | _ => r1
    if ip = [] ∧ fp = [] then nan
    else fin ((sg : ℚ) * ((digitsToNat (ip ++ fp) : ℚ) / (10 : ℚ) ^ fp.length)
            * (10 : ℚ) ^ exponentPart r2)

/-- The function `parseFloat`: the argument is converted to a string and parsed. A number prints
to text that parses back to the same number; the texts `undefined`, `null`, `true` and `false`
hold no number. -/
def parseFloat : JSVal → JSNum
  | num n => n
  | str s => parseFloatStr s
  | _ => nan

/-- The double nearest to a non-negative integer, ties going to the even mantissa; `none` when
the integer rounds to `Infinity`. Every integer below `2 ^ 53` is a double; from there on the
integer is cut to its 53 leading binary digits and rounded on the rest. -/
def toDouble (n : Nat) : Option Nat :=
  if n < 9007199254740992 then some n
  else
    let shift := Nat.log 2 n - 52
    let m := n / 2 ^ shift
    let r := n % 2 ^ shift
    let m1 := if 2 ^ (shift - 1) < r ∨ (r = 2 ^ (shift - 1) ∧ m % 2 = 1) then m + 1 else m
    if 2 ^ 1024 ≤ m1 * 2 ^ shift then none else some (m1 * 2 ^ shift)

/-- The number value of `sign * mathInt`: the integer read, rounded to a double, with its
sign. -/
def signedDouble (sg : Int) (n : Nat) : JSNum :=
  match toDouble n with
  | some m => fin ((sg * (m : Int) : Int) : ℚ)
  | none => if sg < 0 then negInf else posInf

/-- The function `parseInt` on a string with no radix argument: leading white space and a sign
are skipped, `0x` selects radix 16, and the longest run of digits is read; `NaN` when it is
empty. The integer read is returned as a number, that is, rounded to the nearest double. -/
def parseIntStr (s : String) : JSNum :=
  let l := s.data.dropWhile isJSWhiteSpace
  let (sg, l1) := splitSign l
  match l1 with
  | '0' :: 'x' :: r | '0' :: 'X' :: r =>
    let ds := r.takeWhile isHexDigit
    if ds = [] then nan else signedDouble sg (hexToNat ds)
  | _ =>
    let ds := l1.takeWhile Char.isDigit
    if ds = [] then nan else signedDouble sg (digitsToNat ds)

/-- The function `parseInt` on a finite number. `ToString` prints a number of magnitude in
`[1e-6, 1e21)` in plain decimal notation, and the integer part is read back (truncation);
a number of magnitude at least `1e21` prints in exponent notation, `d.ddde+n`, of which only
the leading digit is read: when the number is a single digit times a power of ten that digit is
`d`, otherwise the host supplies the result. -/
def parseIntFin (h : Host) (q : ℚ) : JSNum :=
  if q = 0 then fin 0
  else if |q| < 1 / 1000000 then h.parseIntOther q
  else if |q| < 10 ^ 21 then fin (Int.tdiv q.num q.den : Int)
  else
    let n := q.num.natAbs
    let k := Nat.log 10 n
    if q.den = 1 ∧ n % 10 ^ k = 0 then fin ((q.num.sign * (n / 10 ^ k : Nat) : Int) : ℚ)
    else h.parseIntOther q

/-- The function `parseInt` with no radix argument. -/
def parseInt (h : Host) : JSVal → JSNum
  | num (fin q) => parseIntFin h q
  | str s => parseIntStr s
  | _ => nan

/-! ## Dates -/

/-- A calendar date, as written `YYYY-MM-DD`. -/
structure IsoDate where
  year : Nat
  month : Nat
  day : Nat
  deriving DecidableEq

/-- Leap years of the Gregorian calendar. -/
def isLeapYear (y : Nat) : Bool :=
  decide ((y % 4 = 0 ∧ y % 100 ≠ 0) ∨ y % 400 = 0)

/-- The number of days of month `m` (1 to 12) in year `y`. -/
def daysInMonth (y m : Nat) : Nat :=
  if m = 2 then (if isLeapYear y then 29 else 28)
  else if m = 4 ∨ m = 6 ∨ m = 9 ∨ m = 11 then 30
  else 31

/-- A date of the calendar: month 1 to 12 and a day the month has. -/
def IsoDate.valid (d : IsoDate) : Bool :=
  decide (1 ≤ d.month ∧ d.month ≤ 12 ∧ 1 ≤ d.day ∧ d.day ≤ daysInMonth d.year d.month)

/-- Chronological order of calendar dates: by year, then month, then day. -/
def IsoDate.le (a b : IsoDate) : Bool :=
  decide (a.year < b.year ∨ (a.year = b.year ∧
    (a.month < b.month ∨ (a.month = b.month ∧ a.day ≤ b.day))))

/-- The day number of 1 January of year `y`, counted from 1 January 1970 (`DayFromYear`). -/
def dayFromYear (y : Int) : Int :=
  365 * (y - 1970) + (y - 1969) / 4 - (y - 1901) / 100 + (y - 1601) / 400

/-- The number of days of year `y` before the first of month `m`. -/
def daysBeforeMonth (y m : Nat) : Nat :=
  let leap := if isLeapYear y then 1 else 0
  match m with
  | 1 => 0
  | 2 => 31
  | 3 => 59 + leap
  | 4 => 90 + leap
  | 5 => 120 + leap
  | 6 => 151 + leap
  | 7 => 181 + leap
  | 8 => 212 + leap
  | 9 => 243 + leap
  | 10 => 273 + leap
  | 11 => 304 + leap
  | _ => 334 + leap

/-- The time value of midnight UTC of the date, in milliseconds since 1 January 1970
(`MakeDate(MakeDay(year, month - 1, day), 0)`). -/
def IsoDate.toTime (d : IsoDate) : Int :=
  (dayFromYear d.year + daysBeforeMonth d.year d.month + ((d.day : Int) - 1)) * 86400000

/-- Reads a calendar date written `YYYY-MM-DD`; `none` for any other text. -/
def parseIsoDate (s : String) : Option IsoDate :=
  match s.data with
  | [y1, y2, y3, y4, '-', m1, m2, '-', d1, d2] =>
    if [y1, y2, y3, y4, m1, m2, d1, d2].all Char.isDigit then
      let d : IsoDate :=
        ⟨digitsToNat [y1, y2, y3, y4], digitsToNat [m1, m2], digitsToNat [d1, d2]⟩
      if d.valid then some d else none
    else none
  | _ => none

/-- The function `Date.parse`: a date-only ISO string is midnight UTC of that day. -/
def dateParse (h : Host) (s : String) : JSNum :=
  match parseIsoDate s with
  | some d => fin (d.toTime : ℚ)
  | none => h.dateParseOther s

/-- The operation `TimeClip`: a time value is an integer of magnitude at most 8.64e15. -/
def timeClip : JSNum → JSNum
  | fin q => if |q| > 8640000000000000 then nan else fin (Int.tdiv q.num q.den : Int)
  | _ => nan

/-- The time value of `new Date(v)`, which is what `<` and `>` compare two `Date` objects by:
a string is parsed, any other value is converted to a number and clipped. -/
def newDate (h : Host) : JSVal → JSNum
  | str s => dateParse h s
  | v => timeClip (toNumber h v)

/-! ## The data model -/

/-- A property record, with the fields the engine reads. A field the record lacks reads as
`undefined`. -/
structure Property where
  id : JSVal := .undefined
  type : JSVal := .undefined
  price : JSVal := .undefined
  bedrooms : JSVal := .undefined
  dateAdded : JSVal := .undefined
  postcode : JSVal := .undefined
  deriving DecidableEq

/-- A criteria object. A key the object lacks reads as `undefined`. -/
structure Criteria where
  type : JSVal := .undefined
  minPrice : JSVal := .undefined
  maxPrice : JSVal := .undefined
  minBedrooms : JSVal := .undefined
  maxBedrooms : JSVal := .undefined
  dateAddedAfter : JSVal := .undefined
  dateAddedFrom : JSVal := .undefined
  dateAddedTo : JSVal := .undefined
  postcode : JSVal := .undefined
  deriving DecidableEq

/-! ## The search engine -/

/-- The method `Array.prototype.filter` with a callback that may throw: the elements are visited
in order and the first exception ends the call. -/
def filterE {α : Type} (f : α → Except JSError Bool) : List α → Except JSError (List α)
  | [] => .ok []
  | x :: xs =>
    match f x with
    | .error e => .error e
    | .ok b =>
      match filterE f xs with
      | .error e => .error e
      | .ok r => .ok (if b then x :: r else r)

/-- The callback of `searchProperties`: one block per criterion, in the order of the source. -/
def searchCallback (h : Host) (criteria : Criteria) (property : Property) :
    Except JSError Bool := do
  -- Type filter
  if truthy criteria.type && !strictEq criteria.type (str "any") then
    if !strictEq property.type criteria.type then
      return false
  -- Min price filter
  if truthy criteria.minPrice then
    let minPrice := parseFloat criteria.minPrice
    if !minPrice.isNaN && (toNumber h property.price).lt minPrice then
      return false
  -- Max price filter
  if truthy criteria.maxPrice then
    let maxPrice := parseFloat criteria.maxPrice
    if !maxPrice.isNaN && maxPrice.lt (toNumber h property.price) then
      return false
  -- Min bedrooms filter
  if truthy criteria.minBedrooms then
    let minBeds := parseInt h criteria.minBedrooms
    if !minBeds.isNaN && (toNumber h property.bedrooms).lt minBeds then
      return false
  -- Max bedrooms filter
  if truthy criteria.maxBedrooms then
    let maxBeds := parseInt h criteria.maxBedrooms
    if !maxBeds.isNaN && maxBeds.lt (toNumber h property.bedrooms) then
      return false
  -- Date filter - after specified date
  if truthy criteria.dateAddedAfter then
    let afterDate := newDate h criteria.dateAddedAfter
    let propertyDate := newDate h property.dateAdded
    if propertyDate.lt afterDate then
      return false
  -- Date filter - between two dates
  if truthy criteria.dateAddedFrom && truthy criteria.dateAddedTo then
    let fromDate := newDate h criteria.dateAddedFrom
    let toDate := newDate h criteria.dateAddedTo
    let propertyDate := newDate h property.dateAdded
    if propertyDate.lt fromDate || toDate.lt propertyDate then
      return false
  -- Postcode filter
  if truthy criteria.postcode then
    let searchPostcode := trim (← callToUpperCase h criteria.postcode)
    let propertyPostcode ← callToUpperCase h property.postcode
    if !startsWith propertyPostcode searchPostcode then
      return false
  return true

/-- The function `searchProperties(properties, criteria)`. -/
def searchProperties (h : Host) (properties : List Property) (criteria : Criteria) :
    Except JSError (List Property) :=
  filterE (searchCallback h criteria) properties

/-! ## The callback, block by block

Each block of the callback either sends the property away (`return false`) or falls through to
the next one; `searchCallback_eq` below shows the callback is the chain of these blocks. -/

/-- The type block returns `false`. -/
def typeRejects (C : Criteria) (p : Property) : Bool :=
  truthy C.type && !strictEq C.type (str "any") && !strictEq p.type C.type

/-- The min price block returns `false`. -/
def minPriceRejects (h : Host) (C : Criteria) (p : Property) : Bool :=
  truthy C.minPrice && !(parseFloat C.minPrice).isNaN
    && (toNumber h p.price).lt (parseFloat C.minPrice)

/-- The max price block returns `false`. -/
def maxPriceRejects (h : Host) (C : Criteria) (p : Property) : Bool :=
  truthy C.maxPrice && !(parseFloat C.maxPrice).isNaN
    && (parseFloat C.maxPrice).lt (toNumber h p.price)

/-- The min bedrooms block returns `false`. -/
def minBedroomsRejects (h : Host) (C : Criteria) (p : Property) : Bool :=
  truthy C.minBedrooms && !(parseInt h C.minBedrooms).isNaN
    && (toNumber h p.bedrooms).lt (parseInt h C.minBedrooms)

/-- The max bedrooms block returns `false`. -/
def maxBedroomsRejects (h : Host) (C : Criteria) (p : Property) : Bool :=
  truthy C.maxBedrooms && !(parseInt h C.maxBedrooms).isNaN
    && (parseInt h C.maxBedrooms).lt (toNumber h p.bedrooms)

/-- The date-after block returns `false`. -/
def dateAfterRejects (h : Host) (C : Criteria) (p : Property) : Bool :=
  truthy C.dateAddedAfter && (newDate h p.dateAdded).lt (newDate h C.dateAddedAfter)

/-- The between-dates block returns `false`. -/
def dateBetweenRejects (h : Host) (C : Criteria) (p : Property) : Bool :=
  truthy C.dateAddedFrom && truthy C.dateAddedTo
    && ((newDate h p.dateAdded).lt (newDate h C.dateAddedFrom)
      || (newDate h C.dateAddedTo).lt (newDate h p.dateAdded))

/-- The postcode block followed by the final `return true`. -/
def postcodeBlock (h : Host) (C : Criteria) (p : Property) : Except JSError Bool :=
  if truthy C.postcode then
    match callToUpperCase h C.postcode, callToUpperCase h p.postcode with
    | .ok s, .ok t => .ok (startsWith t (trim s))
    | _, _ => .error .typeError
  else .ok true

/-! ## Shapes of values -/

/-- The value is a string. -/
def isStr : JSVal → Bool
  | str _ => true
  | _ => false

/-- The value is a number other than `NaN`. -/
def isNumeric : JSVal → Bool
  | num n => !n.isNaN
  | _ => false

/-- The value is an integer number. -/
def isInteger : JSVal → Bool
  | num (fin q) => decide (q.den = 1)
  | _ => false

/-- The calendar date a value holds, when it is a string `YYYY-MM-DD` naming one. -/
def isoOf : JSVal → Option IsoDate
  | str s => parseIsoDate s
  | _ => none

/-- The value is a valid ISO date. -/
def isIsoDate (v : JSVal) : Bool :=
  (isoOf v).isSome

/-- The number a numeric field holds. -/
def numOf : JSVal → JSNum
  | num n => n
  | _ => nan

/-- The text a string field holds. -/
def strOf : JSVal → String
  | str s => s
  | _ => ""

/-- A well-formed property: string type and postcode, numeric price and bedrooms, valid ISO
`dateAdded`. -/
def Property.wellFormed (p : Property) : Bool :=
  isStr p.type && isStr p.postcode && isNumeric p.price && isNumeric p.bedrooms
    && isIsoDate p.dateAdded

/-- A date criterion that is absent (falsy) or a valid ISO date. -/
def dateCriterionOk (v : JSVal) : Bool :=
  !truthy v || isIsoDate v

/-- A criteria object whose postcode is absent (falsy) or a string and whose date criteria are
absent or valid ISO dates. The type and the four numeric bounds are unconstrained. -/
def Criteria.wellTyped (C : Criteria) : Bool :=
  (!truthy C.postcode || isStr C.postcode) && dateCriterionOk C.dateAddedAfter
    && dateCriterionOk C.dateAddedFrom && dateCriterionOk C.dateAddedTo

/-! ## The criterion tests, as the specification words them -/

/-- Chronological `a <= b` on the dates two values hold. -/
def dateLe (a b : JSVal) : Bool :=
  match isoOf a, isoOf b with
  | some x, some y => x.le y
  | _, _ => false

/-- Specification, `type`: `property.type === criteria.type`, skipped when the criterion is
absent or is the sentinel `any`. -/
def passesType (C : Criteria) (p : Property) : Bool :=
  !truthy C.type || decide (C.type = str "any") || strictEq p.type C.type

/-- Specification, `minPrice`: `property.price >= minPrice`, ignored when the value is falsy
or fails the numeric parse. -/
def passesMinPrice (C : Criteria) (p : Property) : Bool :=
  !truthy C.minPrice || (parseFloat C.minPrice).isNaN
    || (parseFloat C.minPrice).le (numOf p.price)

/-- Specification, `maxPrice`: `property.price <= maxPrice`, same exemption. -/
def passesMaxPrice (C : Criteria) (p : Property) : Bool :=
  !truthy C.maxPrice || (parseFloat C.maxPrice).isNaN
    || (numOf p.price).le (parseFloat C.maxPrice)

/-- Specification, `minBedrooms`: `property.bedrooms >= minBedrooms`, integer parse, same
exemption. -/
def passesMinBedrooms (h : Host) (C : Criteria) (p : Property) : Bool :=
  !truthy C.minBedrooms || (parseInt h C.minBedrooms).isNaN
    || (parseInt h C.minBedrooms).le (numOf p.bedrooms)

/-- Specification, `maxBedrooms`: `property.bedrooms <= maxBedrooms`, integer parse, same
exemption. -/
def passesMaxBedrooms (h : Host) (C : Criteria) (p : Property) : Bool :=
  !truthy C.maxBedrooms || (parseInt h C.maxBedrooms).isNaN
    || (numOf p.bedrooms).le (parseInt h C.maxBedrooms)

/-- Specification, `dateAddedAfter`: `property.dateAdded >= dateAddedAfter`, chronological and
inclusive. -/
def passesDateAfter (C : Criteria) (p : Property) : Bool :=
  !truthy C.dateAddedAfter || dateLe C.dateAddedAfter p.dateAdded

/-- Specification, `dateAddedFrom` with `dateAddedTo`: active only when both are present;
`dateAddedFrom <= property.dateAdded <= dateAddedTo`, inclusive. -/
def passesDateBetween (C : Criteria) (p : Property) : Bool :=
  !(truthy C.dateAddedFrom && truthy C.dateAddedTo)
    || (dateLe C.dateAddedFrom p.dateAdded && dateLe p.dateAdded C.dateAddedTo)

/-- Specification, `postcode`: the upper-cased, trimmed criterion is a leading segment of the
upper-cased property postcode; an empty or absent criterion imposes no constraint. -/
def passesPostcode (h : Host) (C : Criteria) (p : Property) : Bool :=
  !truthy C.postcode
    || decide ((trim (toUpperCase h (strOf C.postcode))).data
        <+: (toUpperCase h (strOf p.postcode)).data)

/-- Specification: the property passes every criterion test. -/
def passesAll (h : Host) (C : Criteria) (p : Property) : Bool :=
  passesType C p && passesMinPrice C p && passesMaxPrice C p && passesMinBedrooms h C p
    && passesMaxBedrooms h C p && passesDateAfter C p && passesDateBetween C p
    && passesPostcode h C p

/-! ## Single criteria -/

/-- The criteria of the engine, the pair of between-dates keys counting as one. -/
inductive CriterionKey where
  | type
  | minPrice
  | maxPrice
  | minBedrooms
  | maxBedrooms
  | dateAddedAfter
  | dateBetween
  | postcode
  deriving DecidableEq

/-- The criteria object that keeps only criterion `k` of `C`. -/
def Criteria.only (C : Criteria) : CriterionKey → Criteria
  | .type => { type := C.type }
  | .minPrice => { minPrice := C.minPrice }
  | .maxPrice => { maxPrice := C.maxPrice }
  | .minBedrooms => { minBedrooms := C.minBedrooms }
  | .maxBedrooms => { maxBedrooms := C.maxBedrooms }
  | .dateAddedAfter => { dateAddedAfter := C.dateAddedAfter }
  | .dateBetween => { dateAddedFrom := C.dateAddedFrom, dateAddedTo := C.dateAddedTo }
  | .postcode => { postcode := C.postcode }

/-! ## Sample data -/

/-- A host for the worked examples. ASCII letters and the Kelvin sign U+212A are case-mapped as
Unicode does (the Kelvin sign is its own upper case and has lower case `k`). The examples
consult the host on such text only; its other answers are placeholders that no example reads. -/
def sampleHost : Host where
  toUpperCaseOther := fun s => ⟨s.data.map Char.toUpper⟩
  toLowerCaseOther := fun s =>
    ⟨s.data.map (fun c => if c.toNat = 8490 then 'k' else Char.toLower c)⟩
  dateParseOther := fun _ => nan
  stringToNumber := fun _ => nan
  parseIntOther := fun _ => nan
  toLocaleStringOther := fun _ => ""

/-- The four properties of `src/tests/searchLogic.test.js`. -/
def testProperties : List Property :=
  [ { id := num (fin 1), type := str "house", price := num (fin 450000),
      bedrooms := num (fin 3), dateAdded := str "2024-10-15", postcode := str "BR1" },
    { id := num (fin 2), type := str "flat", price := num (fin 280000),
      bedrooms := num (fin 2), dateAdded := str "2024-11-01", postcode := str "NW1" },
    { id := num (fin 3), type := str "house", price := num (fin 675000),
      bedrooms := num (fin 4), dateAdded := str "2024-09-20", postcode := str "SE1" },
    { id := num (fin 4), type := str "flat", price := num (fin 195000),
      bedrooms := num (fin 1), dateAdded := str "2024-11-10", postcode := str "E1" } ]

/-! ## Auxiliary quantities -/

/-- The extra day of a leap year. -/
def leapDay (y : Nat) : Nat := if isLeapYear y then 1 else 0

/-- The number of days of the year before the date. -/
def dayInYear (d : IsoDate) : Nat := daysBeforeMonth d.year d.month + (d.day - 1)

instance decEqExcept {ε α : Type} [DecidableEq ε] [DecidableEq α] :
    DecidableEq (Except ε α)
  | .ok a, .ok b =>
    if hab : a = b then isTrue (by rw [hab]) else isFalse (fun hc => hab (Except.ok.inj hc))
  | .error a, .error b =>
    if hab : a = b then isTrue (by rw [hab])
    else isFalse (fun hc => hab (Except.error.inj hc))
  | .ok _, .error _ => isFalse (fun hc => Except.noConfusion hc)
  | .error _, .ok _ => isFalse (fun hc => Except.noConfusion hc)

/-- The callback's verdict when it does not throw: no block rejects and the postcode matches. -/
def accepts (h : Host) (C : Criteria) (p : Property) : Bool :=
  !typeRejects C p && !minPriceRejects h C p && !maxPriceRejects h C p
    && !minBedroomsRejects h C p && !maxBedroomsRejects h C p
    && !dateAfterRejects h C p && !dateBetweenRejects h C p && passesPostcode h C p

/-- The postcode block cannot throw: the criterion is absent or empty, or the criterion and
the property postcode are both strings. -/
def postcodeSafe (C : Criteria) (p : Property) : Bool :=
  !truthy C.postcode || (isStr C.postcode && isStr p.postcode)

/-- A house with postcode `BR1` and a flat whose record has no postcode. -/
def houseAndBareFlat : List Property :=
  [ { id := num (fin 1), type := str "house", postcode := str "BR1" },
    { id := num (fin 2), type := str "flat" } ]

/-- Criteria with a type, a minimum price and a postcode. -/
def houseCriteria : Criteria :=
  { type := str "house", minPrice := num (fin 400000), postcode := str "br" }

/-- The criteria `{type: "house", postcode: "BR"}`. -/
def housePostcodeCriteria : Criteria :=
  { type := str "house", postcode := str "BR" }

/-! ## Decimal numerals -/

/-- The value of one decimal digit. -/
def digitValue (c : Char) : Nat := c.toNat - 48

/-- The string is a non-empty run of decimal digits that denotes `n`. -/
def isDecimalNumeral (s : String) (n : Nat) : Prop :=
  s.data ≠ [] ∧ (∀ c ∈ s.data, c.isDigit = true)
    ∧ Nat.ofDigits 10 ((s.data.map digitValue).reverse) = n

/-- A bedroom bound that stands for the integer `n`: the number `n`, below `1e21`, or a
decimal-digit string denoting `n`, below `2 ^ 53`. -/
def boundDenotes (v : JSVal) (n : Nat) : Prop :=
  (v = num (fin (n : ℚ)) ∧ n < 10 ^ 21) ∨ ∃ s, v = str s ∧ isDecimalNumeral s n ∧ n < 2 ^ 53

/-- A property with three bedrooms. -/
def threeBed : Property := { id := num (fin 1), bedrooms := num (fin 3) }

/-- The criteria `{minBedrooms: 1e21}`. -/
def minBedrooms1e21 : Criteria := { minBedrooms := num (fin 1000000000000000000000) }

/-- A property with `2 ^ 53` bedrooms. -/
def bedrooms2p53 : Property := { id := num (fin 1), bedrooms := num (fin 9007199254740992) }

/-- The criteria `{minBedrooms: "9007199254740993"}`, the digits of `2 ^ 53 + 1`. -/
def minBedroomsLong : Criteria := { minBedrooms := str "9007199254740993" }

/-- The property with the letter case of its postcode changed by `f`; a property whose postcode
is not a string is left as it is. -/
def recasePostcode (f : String → String) (p : Property) : Property :=
  match p.postcode with
  | str s => { p with postcode := str (f s) }
  | _ => p

/-- The postcode of the property is not a string, or is an ASCII string. -/
def asciiPostcode (p : Property) : Bool :=
  match p.postcode with
  | str s => isAsciiString s
  | _ => true

/-- The Kelvin sign, U+212A. -/
def kelvinSign : String := ⟨[Char.ofNat 8490]⟩

/-- A property whose postcode is `K1`, with the ASCII letter `K`. -/
def k1Property : Property := { id := num (fin 1), postcode := str "K1" }

/-! ## Numeric criterion keys -/

/-- The four numeric criterion keys. -/
inductive NumericKey where
  | minPrice
  | maxPrice
  | minBedrooms
  | maxBedrooms
  deriving DecidableEq

/-- The value of a numeric criterion. -/
def Criteria.numeric (C : Criteria) : NumericKey → JSVal
  | .minPrice => C.minPrice
  | .maxPrice => C.maxPrice
  | .minBedrooms => C.minBedrooms
  | .maxBedrooms => C.maxBedrooms

/-- The criteria object with the numeric key removed. -/
def Criteria.removeNumeric (C : Criteria) : NumericKey → Criteria
  | .minPrice => { C with minPrice := undefined }
  | .maxPrice => { C with maxPrice := undefined }
  | .minBedrooms => { C with minBedrooms := undefined }
  | .maxBedrooms => { C with maxBedrooms := undefined }

/-- The numeric parse the engine applies to the key: `parseFloat` for the prices, `parseInt`
for the bedrooms. -/
def parseNumeric (h : Host) : NumericKey → JSVal → JSNum
  | .minPrice, v => parseFloat v
  | .maxPrice, v => parseFloat v
  | .minBedrooms, v => parseInt h v
  | .maxBedrooms, v => parseInt h v

/-- The criteria `{minPrice: "abc", maxPrice: 0, postcode: 5}`. -/
def badNumericAndPostcode : Criteria :=
  { minPrice := str "abc", maxPrice := num (fin 0), postcode := num (fin 5) }

/-- A property record with no field at all. -/
def bareProperty : Property := {}

/-- A property priced 100. -/
def priced100 : Property := { id := num (fin 1), price := num (fin 100) }

/-! ## `src/utils/security.js` -/

/-- The character class `[A-Z]` under the flag `i` (without the flag `u`): the ASCII letters of
either case. -/
def isAsciiLetter (c : Char) : Bool :=
  (65 ≤ c.toNat && c.toNat ≤ 90) || (97 ≤ c.toNat && c.toNat ≤ 122)

/-- Whether the whole text matches a sequence of character classes, each repeated between `lo`
and `lo + extra` times: a regular expression `^C1{..}C2{..}...$`. Every split is tried. -/
def matchAnchored : List ((Char → Bool) × Nat × Nat) → List Char → Bool
  | [], l => l.isEmpty
  | (c, lo, extra) :: rest, l =>
    (List.range (extra + 1)).any (fun i =>
      decide (lo + i ≤ l.length) && (l.take (lo + i)).all c
        && matchAnchored rest (l.drop (lo + i)))

/-- The regular expression `/^[A-Z]{1,2}[0-9]{1,2}$/i`. -/
def postcodeRegex : List ((Char → Bool) × Nat × Nat) :=
  [(isAsciiLetter, 1, 1), (Char.isDigit, 1, 1)]

/-- The function `validatePostcode`: a falsy value is valid; otherwise the trimmed value is
tested against the regular expression. A truthy value that is not a string has no `trim`
method. -/
def validatePostcode : JSVal → Except JSError Bool
  | str s => if s = "" then .ok true else .ok (matchAnchored postcodeRegex (trim s).data)
  | v => if truthy v then .error .typeError else .ok true

/-- The function `validatePrice`. -/
def validatePrice (price : JSVal) : Bool :=
  if !truthy price then true
  else
    let priceNum := parseFloat price
    !priceNum.isNaN && (fin 0).le priceNum

/-- The function `validateBedrooms`. -/
def validateBedrooms (h : Host) (bedrooms : JSVal) : Bool :=
  if !truthy bedrooms then true
  else
    let bedroomsNum := parseInt h bedrooms
    !bedroomsNum.isNaN && (fin 0).le bedroomsNum && bedroomsNum.le (fin 20)

/-- The replacement `input.replace(/<[^>]*>/g, '')`, scanning from the left. Outside a match a
`<` that has a `>` somewhere after it starts a match; inside a match everything up to and
including the first `>` is dropped. -/
def stripTags : Bool → List Char → List Char
  | _, [] => []
  | true, c :: r => if c = '>' then stripTags false r else stripTags true r
  | false, c :: r =>
    if c = '<' ∧ '>' ∈ r then stripTags true r else c :: stripTags false r

/-- The function `sanitizeInput`: the empty string for a value that is not a string. -/
def sanitizeInput : JSVal → String
  | str s => ⟨stripTags false s.data⟩
  | _ => ""

/-- The text contains a `<` that is followed somewhere later by a `>`. -/
def hasTag : List Char → Bool
  | [] => false
  | c :: r => (decide (c = '<') && decide ('>' ∈ r)) || hasTag r

/-! ## Formatters of `src/utils/searchLogic.js` -/

/-- The method `toLocaleString('en-GB')` on the decimal digits of a non-negative integer: a
comma before every group of three digits counted from the right. -/
def groupThousands (ds : List Char) : List Char :=
  ds.enum.flatMap (fun ic =>
    if ic.1 ≠ 0 ∧ (ds.length - ic.1) % 3 = 0 then [',', ic.2] else [ic.2])

/-- The function `formatPrice` on a non-negative integer. The template literal of the source
file starts with the two characters U+00C2 and U+00A3. An integer below `2 ^ 53` is a number
and prints with all its digits, grouped; for a larger price the host supplies the text. -/
def formatPrice (h : Host) (price : Nat) : String :=
  ⟨Char.ofNat 194 :: Char.ofNat 163 ::
    (if price < 9007199254740992 then groupThousands (Nat.repr price).data
      else (h.toLocaleStringOther price).data)⟩

/-! ## `formatDate` -/

/-- The year of a day number: the largest `y` with `DayFromYear(y) <= n` (`YearFromTime`),
searched downwards from a year that is surely not before it. -/
def yearFromDay (n : Int) : Nat :=
  Nat.findGreatest (fun y => dayFromYear y ≤ n) (n / 365 + 1973).toNat

/-- The month of a day within its year (`MonthFromTime`), `L` being 1 in a leap year. -/
def monthFromDayInYear (k L : Int) : Nat :=
  if k < 31 then 1
  else if k < 59 + L then 2
  else if k < 90 + L then 3
  else if k < 120 + L then 4
  else if k < 151 + L then 5
  else if k < 181 + L then 6
  else if k < 212 + L then 7
  else if k < 243 + L then 8
  else if k < 273 + L then 9
  else if k < 304 + L then 10
  else if k < 334 + L then 11
  else 12

/-- The calendar date of a day number (`YearFromTime`, `MonthFromTime`, `DateFromTime`). -/
def civilFromDay (n : Int) : IsoDate :=
  let y := yearFromDay n
  let k := n - dayFromYear y
  let m := monthFromDayInYear k (leapDay y)
  ⟨y, m, (k - daysBeforeMonth y m + 1).toNat⟩

/-- The full English month names. -/
def monthName : Nat → String
  | 1 => "January"
  | 2 => "February"
  | 3 => "March"
  | 4 => "April"
  | 5 => "May"
  | 6 => "June"
  | 7 => "July"
  | 8 => "August"
  | 9 => "September"
  | 10 => "October"
  | 11 => "November"
  | _ => "December"

/-- The text `<day> <month name> <year>` of a calendar date. -/
def renderDate (d : IsoDate) : String :=
  toString d.day ++ " " ++ monthName d.month ++ " " ++ toString d.year

/-- The calendar day before a date: the day before in the month, else the last day of the month
before, else 31 December of the year before. -/
def previousDay (d : IsoDate) : IsoDate :=
  if 1 < d.day then ⟨d.year, d.month, d.day - 1⟩
  else if 1 < d.month then ⟨d.year, d.month - 1, daysInMonth d.year (d.month - 1)⟩
  else ⟨d.year - 1, 12, 31⟩

/-- The function `formatDate`. The method `toLocaleDateString` formats the date in the local
time zone of the host: `offsetMinutes` is the offset of local time from UTC in force at that
instant, in minutes, positive east of Greenwich. An invalid date prints as `Invalid Date`. -/
def formatDate (h : Host) (offsetMinutes : Int) (dateString : JSVal) : String :=
  match newDate h dateString with
  | fin t => renderDate (civilFromDay ((⌊t⌋ + offsetMinutes * 60000) / 86400000))
  | _ => "Invalid Date"

/-! ## Favourites (`src/App.js`, `src/components/FavouritesList.jsx`) -/

/-- The test `favourites.some(fav => fav.id === id)`. -/
def idPresent (id : JSVal) (favourites : List Property) : Bool :=
  favourites.any (fun fav => strictEq fav.id id)

/-- The state update of `addToFavourites(property)`. -/
def addToFavourites (property : Property) (prevFavourites : List Property) : List Property :=
  if prevFavourites.any (fun fav => strictEq fav.id property.id) then
    prevFavourites.filter (fun fav => !strictEq fav.id property.id)
  else prevFavourites ++ [property]

/-- The state update of `removeFavourite(propertyId)`. -/
def removeFavourite (propertyId : JSVal) (prevFavourites : List Property) : List Property :=
  prevFavourites.filter (fun fav => !strictEq fav.id propertyId)

/-- The state update of `clearFavourites()`; `confirmed` is the answer of `window.confirm`. -/
def clearFavourites (confirmed : Bool) (prevFavourites : List Property) : List Property :=
  if confirmed then [] else prevFavourites

/-- An operation on the favourites list. -/
inductive FavouritesOp where
  | add (property : Property)
  | remove (propertyId : JSVal)
  | clear (confirmed : Bool)

/-- The effect of one operation. -/
def applyOp (favourites : List Property) : FavouritesOp → List Property
  | .add property => addToFavourites property favourites
  | .remove propertyId => removeFavourite propertyId favourites
  | .clear confirmed => clearFavourites confirmed favourites

/-- No two entries of the list have the same id. -/
def distinctIds (favourites : List Property) : Prop :=
  favourites.Pairwise (fun a b => strictEq a.id b.id = false)

/-- The handler `handleDrop` of the favourites panel: the detail of the event it dispatches,
if any. `propertyData` is the dragged record, `none` when the drag carries no parseable data. -/
def handleDrop (favourites : List Property) (propertyData : Option Property) :
    Option Property :=
  match propertyData with
  | none => none
  | some property =>
    if favourites.any (fun fav => strictEq fav.id property.id) then none else some property

/-- The listener `handleAddToFavourites` of the App. -/
def handleAddToFavourites (detail : Option Property) (favourites : List Property) :
    List Property :=
  match detail with
  | some property => addToFavourites property favourites
  | none => favourites

/-- A drop on the favourites zone: the drop handler followed by the App's listener. -/
def dropOnFavourites (favourites : List Property) (property : Property) : List Property :=
  handleAddToFavourites (handleDrop favourites (some property)) favourites

/-- Two favourites, with ids 1 and 2. -/
def twoFavourites : List Property :=
  [ { id := num (fin 1), price := num (fin 300000) },
    { id := num (fin 2), price := num (fin 400000) } ]

/-- A property with id 1. -/
def favouriteOne : Property := { id := num (fin 1), price := num (fin 300000) }

/-- A property with id 3. -/
def favouriteThree : Property := { id := num (fin 3), price := num (fin 500000) }

/-! ## Image gallery (`src/components/ImageGallery.jsx`) -/

/-- The state update of `goToPrevious`, `n` being `images.length`. Indices are natural numbers,
which is exact for a list of at least one image (with no image the source gives `-1`). -/
def goToPrevious (n prevIndex : Nat) : Nat :=
  if prevIndex = 0 then n - 1 else prevIndex - 1

/-- The state update of `goToNext`, `n` being `images.length`, at least 1. -/
def goToNext (n prevIndex : Nat) : Nat :=
  if prevIndex = n - 1 then 0 else prevIndex + 1

/-- A navigation step of the gallery. -/
inductive GalleryStep where
  | next
  | previous

/-- The effect of one navigation step. -/
def galleryStep (n i : Nat) : GalleryStep → Nat
  | .next => goToNext n i
  | .previous => goToPrevious n i

/-! ## `src/components/SearchForm.jsx` -/

/-- The state of the search form. The select widget holds `null` or an option, of which only
`value` is read; each slider holds a pair of values; a date picker holds `null` or a date, kept
as the date part of its `toISOString()` text; the text field holds a string. -/
structure FormState where
  propertyType : Option String
  priceRange : JSVal × JSVal
  bedroomRange : JSVal × JSVal
  dateMode : String
  dateAfter : Option String
  dateFrom : Option String
  dateTo : Option String
  postcode : String

/-- The object `errors`, a message per offending field. -/
structure FormErrors where
  postcode : Option String := none
  price : Option String := none
  bedrooms : Option String := none
  deriving DecidableEq

/-- The form state of the `useState` calls. -/
def initialForm : FormState :=
  { propertyType := none
    priceRange := (num (fin 0), num (fin 1000000))
    bedroomRange := (num (fin 1), num (fin 5))
    dateMode := "after"
    dateAfter := none
    dateFrom := none
    dateTo := none
    postcode := "" }

/-- The function `validateForm`: the errors it records with `setErrors`, and its verdict. -/
def validateForm (h : Host) (st : FormState) : Except JSError (FormErrors × Bool) := do
  let mut newErrors : FormErrors := {}
  if truthy (str st.postcode) then
    let valid ← validatePostcode (str st.postcode)
    if !valid then
      newErrors := { newErrors with postcode := some "Invalid postcode format (e.g., BR1, NW1)" }
  if !validatePrice st.priceRange.1 || !validatePrice st.priceRange.2 then
    newErrors := { newErrors with price := some "Invalid price range" }
  if !validateBedrooms h st.bedroomRange.1 || !validateBedrooms h st.bedroomRange.2 then
    newErrors := { newErrors with bedrooms := some "Invalid bedroom range" }
  return (newErrors, decide (newErrors = {}))

/-- The function `handleSubmit`: the recorded errors, and the argument of `onSearch` when it is
called. -/
def handleSubmit (h : Host) (st : FormState) :
    Except JSError (FormErrors × Option Criteria) := do
  let (errors, valid) ← validateForm h st
  if !valid then
    return (errors, none)
  let criteria : Criteria :=
    { type := match st.propertyType with
        | some value => str value
        | none => undefined
      minPrice := st.priceRange.1
      maxPrice := st.priceRange.2
      minBedrooms := st.bedroomRange.1
      maxBedrooms := st.bedroomRange.2
      postcode := str (trim st.postcode) }
  match st.dateMode == "after", st.dateAfter with
  | true, some dateAfter =>
    return (errors, some { criteria with dateAddedAfter := str dateAfter })
  | _, _ =>
    match st.dateMode == "between", st.dateFrom, st.dateTo with
    | true, some dateFrom, some dateTo =>
      return (errors,
        some { criteria with dateAddedFrom := str dateFrom, dateAddedTo := str dateTo })
    | _, _, _ => return (errors, some criteria)

/-- The function `handleReset`: the argument of `onSearch`. -/
def handleReset : Criteria := {}

/-- The postcode field passes the form's check. -/
def postcodeFieldOk (st : FormState) : Bool :=
  !truthy (str st.postcode) || decide (validatePostcode (str st.postcode) = .ok true)

/-- Both price bounds pass `validatePrice`. -/
def priceFieldOk (st : FormState) : Bool :=
  validatePrice st.priceRange.1 && validatePrice st.priceRange.2

/-- Both bedroom bounds pass `validateBedrooms`. -/
def bedroomsFieldOk (h : Host) (st : FormState) : Bool :=
  validateBedrooms h st.bedroomRange.1 && validateBedrooms h st.bedroomRange.2

/-- A property priced above the default maximum of the form. -/
def mansion : Property :=
  { id := num (fin 9), price := num (fin 2000000), bedrooms := num (fin 4) }

/-- The criteria the claim lists for the untouched form. -/
def untouchedCriteria : Criteria :=
  { type := undefined
    minPrice := num (fin 0)
    maxPrice := num (fin 1000000)
    minBedrooms := num (fin 1)
    maxBedrooms := num (fin 5)
    postcode := str "" }

/-- Price at most 1,000,000 and between 1 and 5 bedrooms. -/
def withinDefaults (p : Property) : Bool :=
  (numOf p.price).le (fin 1000000) && (fin 1).le (numOf p.bedrooms)
    && (numOf p.bedrooms).le (fin 5)

/-! ## The callback as a chain of blocks -/

/-- One block of the callback: an `if` that may `return false`, followed by the rest. -/
theorem block_if (c d : Bool) (k : PUnit → Except JSError Bool) :
    (if c = true then (if d = true then (pure false : Except JSError Bool)
        else (pure PUnit.unit >>= fun y => k y))
      else (pure PUnit.unit >>= fun y => k y))
      = if (c && d) = true then Except.ok false else k PUnit.unit := by
  cases c <;> cases d <;> rfl

/-- The callback returns `false` at the first block that rejects, and otherwise what the postcode
block gives. -/
theorem searchCallback_eq (h : Host) (C : Criteria) (p : Property) :
    searchCallback h C p =
      if typeRejects C p then .ok false
      else if minPriceRejects h C p then .ok false
      else if maxPriceRejects h C p then .ok false
      else if minBedroomsRejects h C p then .ok false
      else if maxBedroomsRejects h C p then .ok false
      else if dateAfterRejects h C p then .ok false
      else if dateBetweenRejects h C p then .ok false
      else postcodeBlock h C p := by
  unfold searchCallback typeRejects minPriceRejects maxPriceRejects minBedroomsRejects
    maxBedroomsRejects dateAfterRejects dateBetweenRejects postcodeBlock
  simp only [block_if, Bool.and_assoc]
  cases callToUpperCase h C.postcode <;> cases callToUpperCase h p.postcode <;>
    simp only [bind, Except.bind, pure, Except.pure] <;>
    first | rfl | (cases startsWith _ _ <;> rfl)

/-- Filtering with a callback that never throws is `List.filter`. -/
theorem filterE_ok {α : Type} (f : α → Except JSError Bool) (g : α → Bool) (l : List α)
    (hf : ∀ x ∈ l, f x = .ok (g x)) : filterE f l = .ok (l.filter g) := by
  induction l with
  | nil => rfl
  | cons x xs ih =>
    have hx := hf x (List.mem_cons_self x xs)
    have hxs := ih (fun y hy => hf y (List.mem_cons_of_mem x hy))
    cases hgx : g x <;> simp [filterE, hx, hxs, hgx]

/-- Filtering depends on the callback only through its values on the list. -/
theorem filterE_congr {α : Type} (f g : α → Except JSError Bool) (l : List α)
    (hfg : ∀ x ∈ l, f x = g x) : filterE f l = filterE g l := by
  induction l with
  | nil => rfl
  | cons x xs ih =>
    have hx := hfg x (List.mem_cons_self x xs)
    have hxs := ih (fun y hy => hfg y (List.mem_cons_of_mem x hy))
    simp only [filterE, hx, hxs]

/-! ## Numbers and dates -/

theorem JSNum.lt_eq_not_le (a b : JSNum) (ha : a.isNaN = false) (hb : b.isNaN = false) :
    a.lt b = !(b.le a) := by
  cases a <;> cases b <;> simp_all [JSNum.lt, JSNum.le, JSNum.isNaN]
  rw [← decide_not]
  exact decide_eq_decide.mpr not_le.symm

theorem leapDay_le (y : Nat) : leapDay y ≤ 1 := by
  unfold leapDay; split <;> omega

theorem dayFromYear_succ (y : Nat) :
    dayFromYear ((y : Int) + 1) = dayFromYear y + 365 + leapDay y := by
  unfold dayFromYear leapDay isLeapYear
  split_ifs with hl <;> simp at hl <;> omega

theorem dayFromYear_mono (y y2 : Nat) (hy : y ≤ y2) :
    dayFromYear y ≤ dayFromYear y2 := by
  induction y2, hy using Nat.le_induction with
  | base => exact le_refl _
  | succ k _ ih =>
    have hs := dayFromYear_succ k
    push_cast
    omega

theorem month_facts (y m : Nat) (h1 : 1 ≤ m) (h2 : m ≤ 12) :
    (m = 1 ∧ daysBeforeMonth y m = 0 ∧ daysInMonth y m = 31)
    ∨ (m = 2 ∧ daysBeforeMonth y m = 31 ∧ daysInMonth y m = 28 + leapDay y)
    ∨ (m = 3 ∧ daysBeforeMonth y m = 59 + leapDay y ∧ daysInMonth y m = 31)
    ∨ (m = 4 ∧ daysBeforeMonth y m = 90 + leapDay y ∧ daysInMonth y m = 30)
    ∨ (m = 5 ∧ daysBeforeMonth y m = 120 + leapDay y ∧ daysInMonth y m = 31)
    ∨ (m = 6 ∧ daysBeforeMonth y m = 151 + leapDay y ∧ daysInMonth y m = 30)
    ∨ (m = 7 ∧ daysBeforeMonth y m = 181 + leapDay y ∧ daysInMonth y m = 31)
    ∨ (m = 8 ∧ daysBeforeMonth y m = 212 + leapDay y ∧ daysInMonth y m = 31)
    ∨ (m = 9 ∧ daysBeforeMonth y m = 243 + leapDay y ∧ daysInMonth y m = 30)
    ∨ (m = 10 ∧ daysBeforeMonth y m = 273 + leapDay y ∧ daysInMonth y m = 31)
    ∨ (m = 11 ∧ daysBeforeMonth y m = 304 + leapDay y ∧ daysInMonth y m = 30)
    ∨ (m = 12 ∧ daysBeforeMonth y m = 334 + leapDay y ∧ daysInMonth y m = 31) := by
  interval_cases m <;> simp [daysBeforeMonth, daysInMonth, leapDay] <;> split <;> rfl

theorem dayInYear_lt (d : IsoDate) (hd : d.valid = true) :
    dayInYear d < 365 + leapDay d.year := by
  simp only [IsoDate.valid, decide_eq_true_eq] at hd
  obtain ⟨h1, h2, h3, h4⟩ := hd
  have hm := month_facts d.year d.month h1 h2
  have hl := leapDay_le d.year
  unfold dayInYear
  omega

theorem dayInYear_lt_iff (y m1 d1 m2 d2 : Nat) (h1 : IsoDate.valid ⟨y, m1, d1⟩ = true)
    (h2 : IsoDate.valid ⟨y, m2, d2⟩ = true) :
    dayInYear ⟨y, m1, d1⟩ < dayInYear ⟨y, m2, d2⟩ ↔ (m1 < m2 ∨ (m1 = m2 ∧ d1 < d2)) := by
  simp only [IsoDate.valid, decide_eq_true_eq] at h1 h2
  obtain ⟨a1, a2, a3, a4⟩ := h1
  obtain ⟨b1, b2, b3, b4⟩ := h2
  have hm1 := month_facts y m1 a1 a2
  have hm2 := month_facts y m2 b1 b2
  have hl := leapDay_le y
  simp only [dayInYear]
  omega

/-- The time value is the day number times the milliseconds of a day. -/
theorem toTime_eq (d : IsoDate) (hd : d.valid = true) :
    d.toTime = (dayFromYear d.year + (dayInYear d : Int)) * 86400000 := by
  simp only [IsoDate.valid, decide_eq_true_eq] at hd
  unfold IsoDate.toTime dayInYear
  have h3 : 1 ≤ d.day := hd.2.2.1
  push_cast [Nat.cast_sub h3]
  ring

/-- Days before the first of a later year come before it. -/
theorem day_lt_of_year_lt (a b : IsoDate) (ha : a.valid = true) (hy : a.year < b.year) :
    dayFromYear a.year + (dayInYear a : Int) < dayFromYear b.year + (dayInYear b : Int) := by
  have h1 := dayInYear_lt a ha
  have h2 := dayFromYear_succ a.year
  have h3 := dayFromYear_mono (a.year + 1) b.year hy
  push_cast at h3
  omega

/-- Time values of calendar dates are ordered as the dates are. -/
theorem toTime_lt_iff (a b : IsoDate) (ha : a.valid = true) (hb : b.valid = true) :
    a.toTime < b.toTime ↔ b.le a = false := by
  rw [toTime_eq a ha, toTime_eq b hb]
  obtain ⟨ya, ma, da⟩ := a
  obtain ⟨yb, mb, db⟩ := b
  simp only [IsoDate.le, decide_eq_false_iff_not]
  rcases Nat.lt_trichotomy ya yb with hlt | heq | hgt
  · have := day_lt_of_year_lt ⟨ya, ma, da⟩ ⟨yb, mb, db⟩ ha hlt
    simp only at this
    constructor
    · intro _; omega
    · intro _; omega
  · subst heq
    have := dayInYear_lt_iff ya ma da mb db ha hb
    constructor
    · intro hh
      have h2 : dayInYear ⟨ya, ma, da⟩ < dayInYear ⟨ya, mb, db⟩ := by omega
      have h3 := this.mp h2
      omega
    · intro hh
      have h3 : dayInYear ⟨ya, ma, da⟩ < dayInYear ⟨ya, mb, db⟩ := this.mpr (by omega)
      omega
  · have := day_lt_of_year_lt ⟨yb, mb, db⟩ ⟨ya, ma, da⟩ hb hgt
    simp only at this
    constructor
    · intro _; omega
    · intro hh; omega

/-! ## Each block against its specification -/

theorem strictEq_str (a : JSVal) (s : String) : strictEq a (str s) = decide (a = str s) := by
  cases a with
  | num n => cases n <;> simp [strictEq]
  | _ => simp [strictEq]

theorem parseIsoDate_valid (s : String) (d : IsoDate) (hs : parseIsoDate s = some d) :
    d.valid = true := by
  unfold parseIsoDate at hs
  split at hs
  · split at hs
    · simp only at hs
      split at hs
      · rename_i hv
        cases hs
        exact hv
      · cases hs
    · cases hs
  · cases hs

theorem newDate_iso (h : Host) (v : JSVal) (d : IsoDate) (hv : isoOf v = some d) :
    newDate h v = fin (d.toTime : ℚ) := by
  cases v <;> simp only [isoOf] at hv <;> try cases hv
  simp only [newDate, dateParse, hv]

theorem isoOf_valid (v : JSVal) (d : IsoDate) (hv : isoOf v = some d) : d.valid = true := by
  cases v <;> simp only [isoOf] at hv <;> try cases hv
  exact parseIsoDate_valid _ d hv

/-- On calendar dates the comparison of time values is the chronological order. -/
theorem newDate_lt (h : Host) (a b : JSVal) (x y : IsoDate) (ha : isoOf a = some x)
    (hb : isoOf b = some y) : (newDate h a).lt (newDate h b) = !dateLe b a := by
  rw [newDate_iso h a x ha, newDate_iso h b y hb]
  simp only [JSNum.lt, dateLe, ha, hb, Int.cast_lt]
  have := toTime_lt_iff x y (isoOf_valid a x ha) (isoOf_valid b y hb)
  cases hle : y.le x
  · simp [this.mpr hle]
  · have hn : ¬ x.toTime < y.toTime := fun hc => by
      rw [this.mp hc] at hle; cases hle
    simp [hn]

theorem typeRejects_eq (C : Criteria) (p : Property) :
    typeRejects C p = !passesType C p := by
  simp only [typeRejects, passesType, strictEq_str]
  cases truthy C.type <;> cases decide (C.type = str "any") <;> cases strictEq p.type C.type <;> rfl

theorem toNumber_numeric (h : Host) (v : JSVal) (hv : isNumeric v = true) :
    toNumber h v = numOf v ∧ (numOf v).isNaN = false := by
  cases v <;> simp_all [isNumeric, toNumber, numOf]

theorem minRejects_eq (h : Host) (c v : JSVal) (m : JSNum) (hv : isNumeric v = true) :
    (truthy c && !m.isNaN && (toNumber h v).lt m) = !(!truthy c || m.isNaN || m.le (numOf v)) := by
  obtain ⟨h1, h2⟩ := toNumber_numeric h v hv
  rw [h1]
  cases hm : m.isNaN
  · rw [JSNum.lt_eq_not_le _ _ h2 hm]
    cases truthy c <;> cases m.le (numOf v) <;> rfl
  · cases truthy c <;> simp

theorem maxRejects_eq (h : Host) (c v : JSVal) (m : JSNum) (hv : isNumeric v = true) :
    (truthy c && !m.isNaN && m.lt (toNumber h v)) = !(!truthy c || m.isNaN || (numOf v).le m) := by
  obtain ⟨h1, h2⟩ := toNumber_numeric h v hv
  rw [h1]
  cases hm : m.isNaN
  · rw [JSNum.lt_eq_not_le _ _ hm h2]
    cases truthy c <;> cases (numOf v).le m <;> rfl
  · cases truthy c <;> simp

theorem isIsoDate_iff (v : JSVal) : isIsoDate v = true ↔ ∃ d, isoOf v = some d := by
  simp [isIsoDate, Option.isSome_iff_exists]

theorem dateAfterRejects_eq (h : Host) (C : Criteria) (p : Property)
    (hp : isIsoDate p.dateAdded = true) (hc : dateCriterionOk C.dateAddedAfter = true) :
    dateAfterRejects h C p = !passesDateAfter C p := by
  simp only [dateAfterRejects, passesDateAfter]
  cases ht : truthy C.dateAddedAfter
  · rfl
  · simp only [dateCriterionOk, ht, Bool.not_true, Bool.false_or] at hc
    obtain ⟨x, hx⟩ := (isIsoDate_iff _).mp hp
    obtain ⟨y, hy⟩ := (isIsoDate_iff _).mp hc
    rw [newDate_lt h _ _ x y hx hy]
    simp

theorem dateBetweenRejects_eq (h : Host) (C : Criteria) (p : Property)
    (hp : isIsoDate p.dateAdded = true) (hf : dateCriterionOk C.dateAddedFrom = true)
    (ht : dateCriterionOk C.dateAddedTo = true) :
    dateBetweenRejects h C p = !passesDateBetween C p := by
  simp only [dateBetweenRejects, passesDateBetween]
  cases h1 : truthy C.dateAddedFrom
  · rfl
  · cases h2 : truthy C.dateAddedTo
    · rfl
    · simp only [dateCriterionOk, h1, h2, Bool.not_true, Bool.false_or] at hf ht
      obtain ⟨x, hx⟩ := (isIsoDate_iff _).mp hp
      obtain ⟨y, hy⟩ := (isIsoDate_iff _).mp hf
      obtain ⟨z, hz⟩ := (isIsoDate_iff _).mp ht
      rw [newDate_lt h _ _ x y hx hy, newDate_lt h _ _ z x hz hx]
      cases dateLe C.dateAddedFrom p.dateAdded <;> cases dateLe p.dateAdded C.dateAddedTo <;> rfl

theorem startsWith_eq (s t : String) : startsWith s t = decide (t.data <+: s.data) := by
  unfold startsWith
  cases hb : t.data.isPrefixOf s.data
  · have : ¬ t.data <+: s.data := fun hc => by
      rw [List.isPrefixOf_iff_prefix.mpr hc] at hb; cases hb
    simp [this]
  · simp [List.isPrefixOf_iff_prefix.mp hb]

theorem isStr_iff (v : JSVal) : isStr v = true ↔ ∃ s, v = str s := by
  cases v <;> simp [isStr]

theorem postcodeBlock_eq (h : Host) (C : Criteria) (p : Property)
    (hp : isStr p.postcode = true) (hc : (!truthy C.postcode || isStr C.postcode) = true) :
    postcodeBlock h C p = .ok (passesPostcode h C p) := by
  simp only [postcodeBlock, passesPostcode]
  cases ht : truthy C.postcode
  · simp
  · simp only [ht, Bool.not_true, Bool.false_or] at hc
    obtain ⟨s, hs⟩ := (isStr_iff _).mp hp
    obtain ⟨q, hq⟩ := (isStr_iff _).mp hc
    simp [hs, hq, callToUpperCase, strOf, startsWith_eq]

/-! ## C1, C2: the engine as a filter -/

/-- On a well-formed property and well-typed criteria the callback returns the conjunction of
the criterion tests. -/
theorem searchCallback_spec (h : Host) (C : Criteria) (p : Property)
    (hp : p.wellFormed = true) (hC : C.wellTyped = true) :
    searchCallback h C p = .ok (passesAll h C p) := by
  simp only [Property.wellFormed, Criteria.wellTyped, Bool.and_eq_true] at hp hC
  obtain ⟨⟨⟨⟨_, hpc⟩, hpr⟩, hbd⟩, hdt⟩ := hp
  obtain ⟨⟨⟨hcp, hca⟩, hcf⟩, hct⟩ := hC
  have e1 : minPriceRejects h C p = !passesMinPrice C p := minRejects_eq h _ _ _ hpr
  have e2 : maxPriceRejects h C p = !passesMaxPrice C p := maxRejects_eq h _ _ _ hpr
  have e3 : minBedroomsRejects h C p = !passesMinBedrooms h C p := minRejects_eq h _ _ _ hbd
  have e4 : maxBedroomsRejects h C p = !passesMaxBedrooms h C p := maxRejects_eq h _ _ _ hbd
  rw [searchCallback_eq, typeRejects_eq, dateAfterRejects_eq h C p hdt hca,
    dateBetweenRejects_eq h C p hdt hcf hct, postcodeBlock_eq h C p hpc hcp, e1, e2, e3, e4,
    passesAll]
  cases passesType C p <;> cases passesMinPrice C p <;> cases passesMaxPrice C p <;>
    cases passesMinBedrooms h C p <;> cases passesMaxBedrooms h C p <;>
    cases passesDateAfter C p <;> cases passesDateBetween C p <;> rfl

/-- C1 (amended). For every list of well-formed properties and every criteria object whose
postcode is absent, empty or a string and whose date criteria are absent or valid ISO dates,
`searchProperties` returns exactly the properties that pass every criterion test, in the
original order and with nothing added or duplicated. -/
theorem searchProperties_spec (h : Host) (P : List Property) (C : Criteria)
    (hP : ∀ p ∈ P, p.wellFormed = true) (hC : C.wellTyped = true) :
    searchProperties h P C = .ok (P.filter (passesAll h C))
      ∧ (P.filter (passesAll h C)).Sublist P
      ∧ ∀ p, p ∈ P.filter (passesAll h C) ↔ p ∈ P ∧ passesAll h C p = true :=
  ⟨filterE_ok _ _ P (fun p hp => searchCallback_spec h C p (hP p hp) hC),
    List.filter_sublist P, fun _ => List.mem_filter⟩

/-- C1, witness: the amended statement on the test data with the criteria `{type: "house"}`. -/
theorem searchProperties_spec_witness :
    (∀ p ∈ testProperties, p.wellFormed = true)
      ∧ searchProperties sampleHost testProperties { type := str "house" }
        = .ok (testProperties.filter (passesAll sampleHost { type := str "house" })) :=
  ⟨by decide,
    (searchProperties_spec sampleHost testProperties { type := str "house" }
      (by decide) (by decide)).1⟩

/-- C1, counterexample: on the well-formed test data the criteria `{postcode: 5}` make the call
raise a `TypeError` instead of returning a sublist. -/
theorem searchProperties_postcode_number_throws :
    testProperties.all Property.wellFormed = true
      ∧ searchProperties sampleHost testProperties { postcode := num (fin 5) }
        = .error .typeError := by
  decide

theorem searchCallback_empty (h : Host) (p : Property) :
    searchCallback h {} p = .ok true := by
  simp [searchCallback_eq, typeRejects, minPriceRejects, maxPriceRejects, minBedroomsRejects,
    maxBedroomsRejects, dateAfterRejects, dateBetweenRejects, postcodeBlock, truthy]

/-- C2. With the empty criteria object the engine returns the list it was given: same
elements, same order, same length. -/
theorem searchProperties_empty_criteria (h : Host) (P : List Property) :
    searchProperties h P {} = .ok P := by
  unfold searchProperties
  rw [filterE_ok _ (fun _ => true) P (fun p _ => searchCallback_empty h p)]
  simp

/-! ## The callback when the postcode block cannot throw -/

theorem postcodeBlock_safe (h : Host) (C : Criteria) (p : Property)
    (hs : postcodeSafe C p = true) : postcodeBlock h C p = .ok (passesPostcode h C p) := by
  simp only [postcodeBlock, passesPostcode]
  cases ht : truthy C.postcode
  · simp
  · simp only [postcodeSafe, ht, Bool.not_true, Bool.false_or, Bool.and_eq_true] at hs
    obtain ⟨s, hs1⟩ := (isStr_iff _).mp hs.2
    obtain ⟨q, hq⟩ := (isStr_iff _).mp hs.1
    simp [hs1, hq, callToUpperCase, strOf, startsWith_eq]

theorem searchCallback_accepts (h : Host) (C : Criteria) (p : Property)
    (hs : postcodeSafe C p = true) : searchCallback h C p = .ok (accepts h C p) := by
  rw [searchCallback_eq, postcodeBlock_safe h C p hs, accepts]
  cases typeRejects C p <;> cases minPriceRejects h C p <;> cases maxPriceRejects h C p <;>
    cases minBedroomsRejects h C p <;> cases maxBedroomsRejects h C p <;>
    cases dateAfterRejects h C p <;> cases dateBetweenRejects h C p <;> rfl

theorem searchProperties_accepts (h : Host) (P : List Property) (C : Criteria)
    (hs : ∀ p ∈ P, postcodeSafe C p = true) :
    searchProperties h P C = .ok (P.filter (accepts h C)) :=
  filterE_ok _ _ P (fun p hp => searchCallback_accepts h C p (hs p hp))

theorem truthy_num (n : JSNum) (hn : n.isNaN = false) (h0 : n ≠ fin 0) :
    truthy (num n) = true := by
  cases n with
  | fin q =>
    have : q ≠ 0 := fun hq => h0 (by rw [hq])
    simp [truthy, this]
  | nan => cases hn
  | _ => rfl

theorem truthy_str (s : String) (hs : s ≠ "") : truthy (str s) = true := by
  simp [truthy, hs]

/-! ## C3: conjunction -/

theorem postcodeSafe_only (C : Criteria) (k : CriterionKey) (p : Property)
    (hs : postcodeSafe C p = true) : postcodeSafe (C.only k) p = true := by
  cases k <;> first | exact hs | simp [postcodeSafe, Criteria.only, truthy]

theorem truthy_undefined : truthy undefined = false := rfl

theorem accepts_only (h : Host) (C : Criteria) (k : CriterionKey) (p : Property)
    (ha : accepts h C p = true) : accepts h (C.only k) p = true := by
  simp only [accepts, typeRejects, minPriceRejects, maxPriceRejects,
    minBedroomsRejects, maxBedroomsRejects, dateAfterRejects, dateBetweenRejects,
    passesPostcode, Bool.and_eq_true] at ha
  obtain ⟨⟨⟨⟨⟨⟨⟨a1, a2⟩, a3⟩, a4⟩, a5⟩, a6⟩, a7⟩, a8⟩ := ha
  cases k <;>
    simp only [accepts, Criteria.only, typeRejects, minPriceRejects, maxPriceRejects,
      minBedroomsRejects, maxBedroomsRejects, dateAfterRejects, dateBetweenRejects,
      passesPostcode, truthy_undefined, Bool.false_and, Bool.not_false, Bool.true_and,
      Bool.and_true, Bool.true_or, Bool.and_self] <;>
    first | rfl | assumption

/-- C3 (amended). For every property list whose properties have string postcodes and every
criteria object whose postcode is absent, empty or a string, the combined search returns, every
single-criterion search returns, and the combined result is a sublist of each single-criterion
result: a property failing any single active test is excluded. -/
theorem searchProperties_conjunction (h : Host) (P : List Property) (C : Criteria)
    (hP : ∀ p ∈ P, isStr p.postcode = true)
    (hC : (!truthy C.postcode || isStr C.postcode) = true) :
    ∃ r, searchProperties h P C = .ok r ∧
      ∀ k : CriterionKey, ∃ rk, searchProperties h P (C.only k) = .ok rk
        ∧ r.Sublist rk ∧ ∀ p ∈ r, p ∈ rk := by
  have hs : ∀ p ∈ P, postcodeSafe C p = true := fun p hp => by
    have h1 := hP p hp
    cases ht : truthy C.postcode
    · simp [postcodeSafe, ht]
    · simp only [ht, Bool.not_true, Bool.false_or] at hC
      simp [postcodeSafe, hC, h1]
  refine ⟨P.filter (accepts h C), searchProperties_accepts h P C hs, fun k => ?_⟩
  have hsub : (P.filter (accepts h C)).Sublist (P.filter (accepts h (C.only k))) :=
    List.monotone_filter_right P (fun p hp => accepts_only h C k p hp)
  exact ⟨P.filter (accepts h (C.only k)),
    searchProperties_accepts h P (C.only k) (fun p hp => postcodeSafe_only C k p (hs p hp)),
    hsub, fun p hp => hsub.subset hp⟩

/-- C3, witness: the test data with a criteria object of three criteria. -/
theorem searchProperties_conjunction_witness :
    ∃ r, searchProperties sampleHost testProperties houseCriteria = .ok r ∧
      ∀ k : CriterionKey, ∃ rk,
        searchProperties sampleHost testProperties (houseCriteria.only k) = .ok rk
        ∧ r.Sublist rk ∧ ∀ p ∈ r, p ∈ rk :=
  searchProperties_conjunction sampleHost testProperties houseCriteria (by decide) (by decide)

/-- C3, counterexample: with a flat that has no postcode in the list, the combined search
`{type: "house", postcode: "BR"}` returns the house, while the search on the postcode
criterion alone raises a `TypeError`, so the house is in no single-criterion result. -/
theorem searchProperties_single_postcode_throws :
    searchProperties sampleHost houseAndBareFlat housePostcodeCriteria
        = .ok (houseAndBareFlat.take 1)
      ∧ searchProperties sampleHost houseAndBareFlat
          (housePostcodeCriteria.only CriterionKey.postcode)
        = .error .typeError := by
  decide

/-! ## C4: the type criterion -/

theorem searchCallback_type_any (h : Host) (C : Criteria) (p : Property)
    (hany : C.type = str "any") :
    searchCallback h C p = searchCallback h { C with type := undefined } p := by
  have e1 : typeRejects C p = false := by
    simp [typeRejects, hany, strictEq]
  have e2 : typeRejects { C with type := undefined } p = false := by
    simp [typeRejects, truthy]
  rw [searchCallback_eq, searchCallback_eq, e1, e2]
  rfl

theorem accepts_type_only (h : Host) (t : String) (ht : t ≠ "") (hany : t ≠ "any")
    (p : Property) : accepts h { type := str t } p = decide (p.type = str t) := by
  have hne : (str t = str "any") = False := by
    simp [hany]
  simp [accepts, typeRejects, minPriceRejects, maxPriceRejects, minBedroomsRejects,
    maxBedroomsRejects, dateAfterRejects, dateBetweenRejects, passesPostcode,
    truthy_undefined, truthy_str t ht, strictEq_str, hne]

/-- C4. Type criterion: the sentinel `"any"` behaves as an absent type key, and any other
non-empty type string `t` alone selects exactly the properties whose type is identical to `t`,
compared case-sensitively (`"House"` does not select a property of type `"house"`). -/
theorem searchProperties_type (h : Host) (P : List Property) :
    (∀ C : Criteria, C.type = str "any" →
        searchProperties h P C = searchProperties h P { C with type := undefined })
      ∧ (∀ t : String, t ≠ "" → t ≠ "any" →
        searchProperties h P { type := str t } = .ok (P.filter (fun p => decide (p.type = str t))))
      ∧ searchProperties h [{ type := str "house" }] { type := str "House" } = .ok [] := by
  refine ⟨fun C hany => ?_, fun t ht hany => ?_, ?_⟩
  · exact filterE_congr _ _ P (fun p _ => searchCallback_type_any h C p hany)
  · rw [searchProperties_accepts h P _ (fun p _ => by simp [postcodeSafe, truthy_undefined])]
    congr 1
    exact List.filter_congr (fun p _ => accepts_type_only h t ht hany p)
  · rw [searchProperties_accepts h _ _ (fun p _ => by simp [postcodeSafe, truthy_undefined])]
    rw [List.filter_congr (fun p _ => accepts_type_only h "House" (by decide) (by decide) p)]
    decide

/-- C4, witness: on the test data, `"any"` next to a price bound changes nothing, and
`{type: "house"}` selects the two houses. -/
theorem searchProperties_type_witness :
    searchProperties sampleHost testProperties { type := str "any", maxPrice := num (fin 300000) }
        = searchProperties sampleHost testProperties { maxPrice := num (fin 300000) }
      ∧ searchProperties sampleHost testProperties { type := str "house" }
        = .ok (testProperties.filter (fun p => decide (p.type = str "house"))) :=
  ⟨(searchProperties_type sampleHost testProperties).1
      { type := str "any", maxPrice := num (fin 300000) } rfl,
    (searchProperties_type sampleHost testProperties).2.1 "house" (by decide) (by decide)⟩

/-! ## C5: the price range -/

theorem accepts_price_range (h : Host) (lo hi : JSNum) (hlo : lo.isNaN = false)
    (hlo0 : lo ≠ fin 0) (hhi : hi.isNaN = false) (hhi0 : hi ≠ fin 0) (p : Property)
    (hp : isNumeric p.price = true) :
    accepts h { minPrice := num lo, maxPrice := num hi } p
      = (lo.le (numOf p.price) && (numOf p.price).le hi) := by
  have e1 := minRejects_eq h (num lo) p.price lo hp
  have e2 := maxRejects_eq h (num hi) p.price hi hp
  simp only [truthy_num lo hlo hlo0, truthy_num hi hhi hhi0, hlo, hhi, Bool.not_true,
    Bool.not_false, Bool.true_and, Bool.false_or] at e1 e2
  simp [accepts, typeRejects, minPriceRejects, maxPriceRejects, minBedroomsRejects,
    maxBedroomsRejects, dateAfterRejects, dateBetweenRejects, passesPostcode,
    truthy_undefined, truthy_num lo hlo hlo0, truthy_num hi hhi hhi0, parseFloat, hlo, hhi,
    e1, e2]

theorem accepts_max_price (h : Host) (hi : JSNum) (hhi : hi.isNaN = false) (hhi0 : hi ≠ fin 0)
    (p : Property) (hp : isNumeric p.price = true) :
    accepts h { maxPrice := num hi } p = (numOf p.price).le hi := by
  have e2 := maxRejects_eq h (num hi) p.price hi hp
  simp only [truthy_num hi hhi hhi0, hhi, Bool.not_true,
    Bool.not_false, Bool.true_and, Bool.false_or] at e2
  simp [accepts, typeRejects, minPriceRejects, maxPriceRejects, minBedroomsRejects,
    maxBedroomsRejects, dateAfterRejects, dateBetweenRejects, passesPostcode,
    truthy_undefined, truthy_num hi hhi hhi0, parseFloat, hhi, e2]

theorem postcodeSafe_of_absent (C : Criteria) (p : Property) (hc : C.postcode = undefined) :
    postcodeSafe C p = true := by
  simp [postcodeSafe, hc, truthy_undefined]

/-- C5. Price range: for properties with numeric prices and non-zero numeric bounds `lo` and
`hi`, the criteria `{minPrice: lo, maxPrice: hi}` select exactly the properties with
`lo <= price <= hi`, both bounds inclusive; `{maxPrice: hi}` alone selects exactly those with
`price <= hi`; and the result is empty when no property lies in the range. -/
theorem searchProperties_price_range (h : Host) (P : List Property) (lo hi : JSNum)
    (hP : ∀ p ∈ P, isNumeric p.price = true)
    (hlo : lo.isNaN = false) (hlo0 : lo ≠ fin 0) (hhi : hi.isNaN = false) (hhi0 : hi ≠ fin 0) :
    searchProperties h P { minPrice := num lo, maxPrice := num hi }
        = .ok (P.filter (fun p => lo.le (numOf p.price) && (numOf p.price).le hi))
      ∧ searchProperties h P { maxPrice := num hi }
        = .ok (P.filter (fun p => (numOf p.price).le hi))
      ∧ ((∀ p ∈ P, (lo.le (numOf p.price) && (numOf p.price).le hi) = false) →
        searchProperties h P { minPrice := num lo, maxPrice := num hi } = .ok []) := by
  have e1 : searchProperties h P { minPrice := num lo, maxPrice := num hi }
      = .ok (P.filter (fun p => lo.le (numOf p.price) && (numOf p.price).le hi)) := by
    rw [searchProperties_accepts h P _ (fun p _ => postcodeSafe_of_absent _ p rfl)]
    congr 1
    exact List.filter_congr
      (fun p hp => accepts_price_range h lo hi hlo hlo0 hhi hhi0 p (hP p hp))
  refine ⟨e1, ?_, fun hnone => ?_⟩
  · rw [searchProperties_accepts h P _ (fun p _ => postcodeSafe_of_absent _ p rfl)]
    congr 1
    exact List.filter_congr (fun p hp => accepts_max_price h hi hhi hhi0 p (hP p hp))
  · rw [e1]
    congr 1
    exact List.filter_eq_nil_iff.mpr (fun p hp => by simp [hnone p hp])

/-- C5, witness: the price-range test of the test file, whose bounds coincide with no price,
and a range whose bounds are the prices of two properties, which are both included. -/
theorem searchProperties_price_range_witness :
    searchProperties sampleHost testProperties
        { minPrice := num (fin 280000), maxPrice := num (fin 450000) }
      = .ok (testProperties.filter (fun p =>
          (fin 280000).le (numOf p.price) && (numOf p.price).le (fin 450000)))
    ∧ testProperties.filter (fun p =>
          (fin 280000).le (numOf p.price) && (numOf p.price).le (fin 450000))
      = testProperties.take 2 :=
  ⟨(searchProperties_price_range sampleHost testProperties (fin 280000) (fin 450000)
      (by decide) rfl (by decide) rfl (by decide)).1, by decide⟩

/-! ## C6: the bedroom range -/

theorem digitsToNat_append (ds : List Char) (c : Char) :
    digitsToNat (ds ++ [c]) = 10 * digitsToNat ds + digitValue c := by
  simp [digitsToNat, List.foldl_append, digitValue]

theorem digitsToNat_eq (ds : List Char) :
    digitsToNat ds = Nat.ofDigits 10 ((ds.map digitValue).reverse) := by
  induction ds using List.reverseRecOn with
  | nil => rfl
  | append_singleton ds c ih =>
    rw [digitsToNat_append, ih]
    simp [Nat.ofDigits_cons, Nat.add_comm]

theorem isDigit_not_ws (c : Char) (hc : c.isDigit = true) : isJSWhiteSpace c = false := by
  simp only [Char.isDigit, Bool.and_eq_true, decide_eq_true_eq] at hc
  have h1 : 48 ≤ c.toNat := hc.1
  have h2 : c.toNat ≤ 57 := hc.2
  simp only [isJSWhiteSpace, Bool.or_eq_false_iff, decide_eq_false_iff_not,
    Bool.and_eq_false_imp, decide_eq_true_eq, List.mem_cons, List.mem_singleton,
    List.not_mem_nil, or_false, not_or, not_le]
  refine ⟨?_, ?_⟩ <;> omega

theorem signedDouble_small (n : Nat) (hn : n < 2 ^ 53) :
    signedDouble 1 n = fin ((n : Nat) : ℚ) := by
  have hn2 : n < 9007199254740992 := by
    have e : (2 : Nat) ^ 53 = 9007199254740992 := by norm_num
    omega
  simp [signedDouble, toDouble, hn2]

theorem signedDouble_integer (sg : Int) (n : Nat) (q : ℚ) (hq : signedDouble sg n = fin q) :
    q.den = 1 := by
  unfold signedDouble at hq
  split at hq
  · exact (JSNum.fin.inj hq) ▸ Rat.den_intCast _
  · split at hq <;> cases hq

/-- A non-empty run of decimal digits is read whole, and rounded to a double. -/
theorem parseIntStr_digits_rounded (s : String) (hne : s.data ≠ [])
    (hall : ∀ c ∈ s.data, c.isDigit = true) :
    parseIntStr s = signedDouble 1 (digitsToNat s.data) := by
  obtain ⟨c, r, hcr⟩ := List.exists_cons_of_ne_nil hne
  have hc : c.isDigit = true := hall c (by rw [hcr]; exact List.mem_cons_self c r)
  have hdrop : s.data.dropWhile isJSWhiteSpace = s.data := by
    rw [hcr, List.dropWhile_cons_of_neg (by simp [isDigit_not_ws c hc])]
  have hsign : splitSign s.data = (1, s.data) := by
    rw [hcr]
    unfold splitSign
    split
    · rename_i heq
      have : c = '-' := (List.cons.inj heq).1
      rw [this] at hc; exact absurd hc (by decide)
    · rename_i heq
      have : c = '+' := (List.cons.inj heq).1
      rw [this] at hc; exact absurd hc (by decide)
    · rfl
  have htake : s.data.takeWhile Char.isDigit = s.data :=
    List.takeWhile_eq_self_iff.mpr hall
  unfold parseIntStr
  simp only [hdrop, hsign]
  split
  · rename_i r' heq
    have hx : 'x' ∈ s.data := by rw [heq]; simp
    exact absurd (hall _ hx) (by decide)
  · rename_i r' heq
    have hx : 'X' ∈ s.data := by rw [heq]; simp
    exact absurd (hall _ hx) (by decide)
  · simp only [htake, hne, if_false]

/-- A run of decimal digits of value below `2 ^ 53` is read at its value. -/
theorem parseIntStr_digits (s : String) (hne : s.data ≠ [])
    (hall : ∀ c ∈ s.data, c.isDigit = true) (hlt : digitsToNat s.data < 2 ^ 53) :
    parseIntStr s = fin ((digitsToNat s.data : Nat) : ℚ) := by
  rw [parseIntStr_digits_rounded s hne hall]
  exact signedDouble_small _ hlt

/-- The integer `2 ^ 53 + 1` lies halfway between two doubles and rounds to the even one. -/
theorem toDouble_tie : toDouble 9007199254740993 = some 9007199254740992 := by
  have l : Nat.log 2 9007199254740993 = 53 := by
    rw [Nat.log_eq_iff (Or.inl (by norm_num))]
    norm_num
  unfold toDouble
  rw [if_neg (by norm_num), l]
  norm_num

theorem signedDouble_of_some (sg : Int) (n m : Nat) (hm : toDouble n = some m) :
    signedDouble sg n = fin ((sg * (m : Int) : Int) : ℚ) := by
  unfold signedDouble
  rw [hm]

/-- The digit string of `2 ^ 53 + 1` is read as `2 ^ 53`, the nearest double. -/
theorem parseInt_long (h : Host) :
    parseInt h (str "9007199254740993") = fin 9007199254740992 := by
  have e : digitsToNat "9007199254740993".data = 9007199254740993 := by
    simp [digitsToNat]
  have hne : "9007199254740993".data ≠ [] := by simp
  have hall : ∀ c ∈ "9007199254740993".data, c.isDigit = true := by decide
  simp only [parseInt]
  rw [parseIntStr_digits_rounded _ hne hall, e, signedDouble_of_some 1 _ _ toDouble_tie]
  norm_num

theorem parseIntFin_nat (h : Host) (n : Nat) (h0 : 0 < n) (h1 : n < 10 ^ 21) :
    parseIntFin h (n : ℚ) = fin (n : ℚ) := by
  unfold parseIntFin
  have hq : (n : ℚ) ≠ 0 := by exact_mod_cast h0.ne'
  have habs : |(n : ℚ)| = n := abs_of_nonneg (by positivity)
  have h2 : ¬ ((n : ℚ) < 1 / 1000000) := by
    have : (1 : ℚ) ≤ n := by exact_mod_cast h0
    intro hc; linarith
  have h3 : (n : ℚ) < 10 ^ 21 := by exact_mod_cast h1
  rw [if_neg hq, habs, if_neg h2, if_pos h3]
  simp

/-- A number `d * 10 ^ k` with one digit `d` and `k >= 21` prints as `de+k`, and `parseInt`
reads the digit. -/
theorem parseIntFin_digit_pow (h : Host) (d k : Nat) (hd : 1 ≤ d) (hd9 : d ≤ 9) (hk : 21 ≤ k) :
    parseIntFin h ((d * 10 ^ k : Nat) : ℚ) = fin (d : ℚ) := by
  have hpos : 0 < 10 ^ k := Nat.pos_of_ne_zero (pow_ne_zero _ (by norm_num))
  have hn : 0 < d * 10 ^ k := Nat.mul_pos hd hpos
  have hge : 10 ^ 21 ≤ d * 10 ^ k :=
    le_trans (Nat.pow_le_pow_right (by norm_num) hk) (Nat.le_mul_of_pos_left _ hd)
  unfold parseIntFin
  have hq : ((d * 10 ^ k : Nat) : ℚ) ≠ 0 := by exact_mod_cast hn.ne'
  have habs : |((d * 10 ^ k : Nat) : ℚ)| = ((d * 10 ^ k : Nat) : ℚ) :=
    abs_of_nonneg (Nat.cast_nonneg _)
  have h3 : ¬ (((d * 10 ^ k : Nat) : ℚ) < 10 ^ 21) := by
    have : ((10 ^ 21 : Nat) : ℚ) ≤ ((d * 10 ^ k : Nat) : ℚ) := Nat.cast_le.mpr hge
    push_cast at this ⊢
    linarith
  have h2 : ¬ (((d * 10 ^ k : Nat) : ℚ) < 1 / 1000000) := by
    have : (1 : ℚ) ≤ ((d * 10 ^ k : Nat) : ℚ) := by exact_mod_cast hn
    intro hc; linarith
  have hlog : Nat.log 10 (d * 10 ^ k) = k := by
    rw [Nat.log_eq_iff (Or.inl (by omega))]
    refine ⟨Nat.le_mul_of_pos_left _ hd, ?_⟩
    rw [pow_succ, Nat.mul_comm (10 ^ k) 10]
    exact Nat.mul_lt_mul_of_pos_right (by omega) hpos
  rw [if_neg hq, habs, if_neg h2, if_neg h3]
  simp only [Rat.num_natCast, Rat.den_natCast, Int.natAbs_ofNat, hlog,
    Nat.mul_mod_left, and_self, if_true, Nat.mul_div_cancel _ hpos]
  rw [Int.sign_eq_one_of_pos (by exact_mod_cast hn)]
  simp

theorem parseIntFin_1e21 (h : Host) : parseIntFin h (1000000000000000000000 : ℚ) = fin 1 := by
  have e : (1000000000000000000000 : ℚ) = ((1 * 10 ^ 21 : Nat) : ℚ) := by norm_num
  rw [e, parseIntFin_digit_pow h 1 21 (le_refl 1) (by norm_num) (le_refl 21)]
  simp

theorem isNumeric_of_isInteger (v : JSVal) (hv : isInteger v = true) : isNumeric v = true := by
  cases v with
  | num n => cases n <;> simp_all [isInteger, isNumeric, JSNum.isNaN]
  | _ => simp [isInteger] at hv

/-- A value that stands for a positive integer is truthy and parses to that integer. -/
theorem boundDenotes_parse (h : Host) (v : JSVal) (n : Nat) (hn : 0 < n)
    (hv : boundDenotes v n) : truthy v = true ∧ parseInt h v = fin (n : ℚ) := by
  rcases hv with ⟨rfl, hlt⟩ | ⟨s, rfl, ⟨hne, hall, hval⟩, hlt⟩
  · refine ⟨?_, parseIntFin_nat h n hn hlt⟩
    have : (n : ℚ) ≠ 0 := by exact_mod_cast hn.ne'
    simp [truthy, this]
  · refine ⟨?_, ?_⟩
    · have : s ≠ "" := fun hc => hne (by rw [hc])
      simp [truthy, this]
    · simp only [parseInt]
      rw [parseIntStr_digits s hne hall (by rw [digitsToNat_eq, hval]; exact hlt),
        digitsToNat_eq, hval]

theorem accepts_min_bedrooms (h : Host) (blo : JSVal) (lo : Nat) (hlo : 0 < lo)
    (dlo : boundDenotes blo lo) (p : Property) (hp : isInteger p.bedrooms = true) :
    accepts h { minBedrooms := blo } p = (fin (lo : ℚ)).le (numOf p.bedrooms) := by
  obtain ⟨ht, hpar⟩ := boundDenotes_parse h blo lo hlo dlo
  have e1 := minRejects_eq h blo p.bedrooms (fin lo) (isNumeric_of_isInteger _ hp)
  simp only [ht, JSNum.isNaN, Bool.not_true, Bool.not_false, Bool.true_and,
    Bool.false_or] at e1
  simp [accepts, typeRejects, minPriceRejects, maxPriceRejects, minBedroomsRejects,
    maxBedroomsRejects, dateAfterRejects, dateBetweenRejects, passesPostcode,
    truthy_undefined, ht, hpar, JSNum.isNaN, e1]

theorem accepts_bedroom_range (h : Host) (blo bhi : JSVal) (lo hi : Nat) (hlo : 0 < lo)
    (hhi : 0 < hi) (dlo : boundDenotes blo lo) (dhi : boundDenotes bhi hi) (p : Property)
    (hp : isInteger p.bedrooms = true) :
    accepts h { minBedrooms := blo, maxBedrooms := bhi } p
      = ((fin (lo : ℚ)).le (numOf p.bedrooms) && (numOf p.bedrooms).le (fin (hi : ℚ))) := by
  obtain ⟨ht, hpar⟩ := boundDenotes_parse h blo lo hlo dlo
  obtain ⟨ht2, hpar2⟩ := boundDenotes_parse h bhi hi hhi dhi
  have e1 := minRejects_eq h blo p.bedrooms (fin lo) (isNumeric_of_isInteger _ hp)
  have e2 := maxRejects_eq h bhi p.bedrooms (fin hi) (isNumeric_of_isInteger _ hp)
  simp only [ht, ht2, JSNum.isNaN, Bool.not_true, Bool.not_false, Bool.true_and,
    Bool.false_or] at e1 e2
  simp [accepts, typeRejects, minPriceRejects, maxPriceRejects, minBedroomsRejects,
    maxBedroomsRejects, dateAfterRejects, dateBetweenRejects, passesPostcode,
    truthy_undefined, ht, hpar, ht2, hpar2, JSNum.isNaN, e1, e2]

/-- C6 (amended). Bedroom range: for properties with integer bedroom counts and positive
integer bounds `lo` and `hi`, given as numbers below `1e21` or as decimal-digit strings of
value below `2 ^ 53`, the bound is read by integer parse to `lo` (to `hi`), `{minBedrooms: lo}`
selects exactly the properties with `bedrooms >= lo`, and `{minBedrooms: lo, maxBedrooms: hi}`
exactly those with `lo <= bedrooms <= hi`, bounds inclusive. -/
theorem searchProperties_bedroom_range (h : Host) (P : List Property) (blo bhi : JSVal)
    (lo hi : Nat) (hP : ∀ p ∈ P, isInteger p.bedrooms = true) (hlo : 0 < lo) (hhi : 0 < hi)
    (dlo : boundDenotes blo lo) (dhi : boundDenotes bhi hi) :
    parseInt h blo = fin (lo : ℚ) ∧ parseInt h bhi = fin (hi : ℚ)
      ∧ searchProperties h P { minBedrooms := blo }
        = .ok (P.filter (fun p => (fin (lo : ℚ)).le (numOf p.bedrooms)))
      ∧ searchProperties h P { minBedrooms := blo, maxBedrooms := bhi }
        = .ok (P.filter (fun p =>
            (fin (lo : ℚ)).le (numOf p.bedrooms) && (numOf p.bedrooms).le (fin (hi : ℚ)))) := by
  refine ⟨(boundDenotes_parse h blo lo hlo dlo).2, (boundDenotes_parse h bhi hi hhi dhi).2,
    ?_, ?_⟩
  · rw [searchProperties_accepts h P _ (fun p _ => postcodeSafe_of_absent _ p rfl)]
    congr 1
    exact List.filter_congr (fun p hp => accepts_min_bedrooms h blo lo hlo dlo p (hP p hp))
  · rw [searchProperties_accepts h P _ (fun p _ => postcodeSafe_of_absent _ p rfl)]
    congr 1
    exact List.filter_congr
      (fun p hp => accepts_bedroom_range h blo bhi lo hi hlo hhi dlo dhi p (hP p hp))

/-- C6, witness: the bedroom-range test of the test file, the lower bound given as the number
2 and the upper bound as the string `"3"`. -/
theorem searchProperties_bedroom_range_witness :
    (∀ p ∈ testProperties, isInteger p.bedrooms = true)
      ∧ searchProperties sampleHost testProperties
          { minBedrooms := num (fin ((2 : Nat) : ℚ)), maxBedrooms := str "3" }
        = .ok (testProperties.filter (fun p =>
            (fin ((2 : Nat) : ℚ)).le (numOf p.bedrooms)
              && (numOf p.bedrooms).le (fin ((3 : Nat) : ℚ)))) :=
  ⟨by decide,
    (searchProperties_bedroom_range sampleHost testProperties (num (fin ((2 : Nat) : ℚ)))
      (str "3") 2 3 (by decide) (by decide) (by decide)
      (Or.inl ⟨rfl, by norm_num⟩)
      (Or.inr ⟨"3", rfl, ⟨by decide, by decide, by decide⟩, by norm_num⟩)).2.2.2⟩

theorem accepts_minBedrooms1e21 (h : Host) : accepts h minBedrooms1e21 threeBed = true := by
  have hlt : (fin 3).lt (fin 1) = false := by
    simp only [JSNum.lt]
    norm_num
  have e1 : minBedroomsRejects h minBedrooms1e21 threeBed = false := by
    simp only [minBedroomsRejects, minBedrooms1e21, threeBed, parseInt, parseIntFin_1e21,
      toNumber, hlt, Bool.and_false]
  simp only [accepts, e1]
  simp only [typeRejects, minPriceRejects, maxPriceRejects,
      maxBedroomsRejects, dateAfterRejects, dateBetweenRejects, passesPostcode,
      minBedrooms1e21, truthy_undefined]
  rfl

/-- Beyond `2 ^ 53` a digit string is read with rounding: `{minBedrooms: "9007199254740993"}`
keeps a property with 9007199254740992 bedrooms, one less than the digits say. -/
theorem searchProperties_minBedrooms_long (h : Host) :
    searchProperties h [bedrooms2p53] minBedroomsLong = .ok [bedrooms2p53] := by
  have hlt : (fin 9007199254740992).lt (fin 9007199254740992) = false := by
    simp only [JSNum.lt]
    norm_num
  have e1 : minBedroomsRejects h minBedroomsLong bedrooms2p53 = false := by
    simp only [minBedroomsRejects, minBedroomsLong, bedrooms2p53, parseInt_long,
      toNumber, hlt, Bool.and_false]
  have ha : accepts h minBedroomsLong bedrooms2p53 = true := by
    simp only [accepts, e1]
    simp only [typeRejects, minPriceRejects, maxPriceRejects,
      maxBedroomsRejects, dateAfterRejects, dateBetweenRejects, passesPostcode,
      minBedroomsLong, truthy_undefined]
    rfl
  rw [searchProperties_accepts _ _ _ (fun p _ => postcodeSafe_of_absent _ p rfl),
    List.filter_cons_of_pos ha]
  rfl

/-- C6, counterexample: the bound `1e21`, a positive integer, is printed `1e+21` and read by
`parseInt` as 1, so `{minBedrooms: 1e21}` keeps a property of three bedrooms although
`3 >= 1e21` is false. -/
theorem searchProperties_minBedrooms_1e21 :
    searchProperties sampleHost [threeBed] minBedrooms1e21 = .ok [threeBed]
      ∧ (fin 1000000000000000000000).le (numOf threeBed.bedrooms) = false := by
  refine ⟨?_, ?_⟩
  · rw [searchProperties_accepts _ _ _ (fun p _ => postcodeSafe_of_absent _ p rfl),
      List.filter_cons_of_pos (accepts_minBedrooms1e21 sampleHost)]
    rfl
  · simp only [threeBed, numOf, JSNum.le]
    norm_num

/-! ## C7: the postcode criterion -/

theorem accepts_postcode_only (h : Host) (v : JSVal) (p : Property) :
    accepts h { postcode := v } p = passesPostcode h { postcode := v } p := by
  simp [accepts, typeRejects, minPriceRejects, maxPriceRejects, minBedroomsRejects,
    maxBedroomsRejects, dateAfterRejects, dateBetweenRejects, truthy_undefined]

/-- C7. Postcode criterion: for properties with string postcodes and a non-empty query `q`,
`{postcode: q}` selects exactly the properties whose upper-cased postcode starts with the
upper-cased, trimmed `q`; a property whose upper-cased postcode is shorter than the upper-cased,
trimmed query is never selected; and the empty postcode imposes no constraint. -/
theorem searchProperties_postcode (h : Host) (P : List Property) (q : String)
    (hP : ∀ p ∈ P, isStr p.postcode = true) (hq : q ≠ "") :
    searchProperties h P { postcode := str q }
        = .ok (P.filter (fun p => decide
            ((trim (toUpperCase h q)).data <+: (toUpperCase h (strOf p.postcode)).data)))
      ∧ (∀ p ∈ P, (toUpperCase h (strOf p.postcode)).length < (trim (toUpperCase h q)).length →
          p ∉ P.filter (fun p => decide
            ((trim (toUpperCase h q)).data <+: (toUpperCase h (strOf p.postcode)).data)))
      ∧ searchProperties h P { postcode := str "" } = .ok P := by
  refine ⟨?_, fun p _ hlen hmem => ?_, ?_⟩
  · rw [searchProperties_accepts h P _ (fun p hp => by
      have h1 : isStr (str q) = true := rfl
      simp [postcodeSafe, h1, hP p hp])]
    congr 1
    refine List.filter_congr (fun p _ => ?_)
    rw [accepts_postcode_only]
    simp [passesPostcode, truthy_str q hq, strOf]
  · have hpre := of_decide_eq_true (List.mem_filter.mp hmem).2
    have := hpre.length_le
    simp only [String.length] at hlen
    omega
  · rw [searchProperties_accepts h P _ (fun p _ => by simp [postcodeSafe, truthy])]
    have : ∀ p ∈ P, accepts h { postcode := str "" } p = true := fun p _ => by
      rw [accepts_postcode_only]
      simp [passesPostcode, truthy]
    rw [List.filter_eq_self.mpr this]

/-- C7, witness: the postcode tests of the test file: `"NW"` selects the `NW1` property and
`"BR1"` the `BR1` property. -/
theorem searchProperties_postcode_witness :
    searchProperties sampleHost testProperties { postcode := str "NW" }
        = .ok (testProperties.filter (fun p => decide
            ((trim (toUpperCase sampleHost "NW")).data
              <+: (toUpperCase sampleHost (strOf p.postcode)).data)))
      ∧ testProperties.filter (fun p => decide
            ((trim (toUpperCase sampleHost "NW")).data
              <+: (toUpperCase sampleHost (strOf p.postcode)).data))
        = (testProperties.drop 1).take 1
      ∧ searchProperties sampleHost testProperties { postcode := str "BR1" }
        = .ok (testProperties.take 1) :=
  ⟨(searchProperties_postcode sampleHost testProperties "NW" (by decide) (by decide)).1,
    by decide, by decide⟩

/-! ## C8: letter case of postcodes -/

theorem ascii_case_table : ∀ n, n < 128 →
    (Char.ofNat n).toLower.toUpper = (Char.ofNat n).toUpper
      ∧ (Char.ofNat n).toUpper.toUpper = (Char.ofNat n).toUpper
      ∧ (Char.ofNat n).toUpper.toNat < 128 ∧ (Char.ofNat n).toLower.toNat < 128 := by
  decide

theorem ascii_case (c : Char) (hc : c.toNat < 128) :
    c.toLower.toUpper = c.toUpper ∧ c.toUpper.toUpper = c.toUpper
      ∧ c.toUpper.toNat < 128 ∧ c.toLower.toNat < 128 := by
  have := ascii_case_table c.toNat hc
  rwa [Char.ofNat_toNat] at this

theorem isAsciiString_iff (s : String) :
    isAsciiString s = true ↔ ∀ c ∈ s.data, c.toNat < 128 := by
  simp [isAsciiString, List.all_eq_true]

theorem toUpperCase_ascii (h : Host) (s : String) (hs : isAsciiString s = true) :
    toUpperCase h s = ⟨s.data.map Char.toUpper⟩ := by
  simp [toUpperCase, hs]

theorem toLowerCase_ascii (h : Host) (s : String) (hs : isAsciiString s = true) :
    toLowerCase h s = ⟨s.data.map Char.toLower⟩ := by
  simp [toLowerCase, hs]

theorem isAscii_upper (s : String) (hs : isAsciiString s = true) :
    isAsciiString ⟨s.data.map Char.toUpper⟩ = true := by
  rw [isAsciiString_iff] at hs ⊢
  intro c hc
  obtain ⟨d, hd, rfl⟩ := List.mem_map.mp hc
  exact (ascii_case d (hs d hd)).2.2.1

theorem isAscii_lower (s : String) (hs : isAsciiString s = true) :
    isAsciiString ⟨s.data.map Char.toLower⟩ = true := by
  rw [isAsciiString_iff] at hs ⊢
  intro c hc
  obtain ⟨d, hd, rfl⟩ := List.mem_map.mp hc
  exact (ascii_case d (hs d hd)).2.2.2

/-- Upper-casing forgets an earlier lower-casing of ASCII text. -/
theorem toUpperCase_toLowerCase (h : Host) (s : String) (hs : isAsciiString s = true) :
    toUpperCase h (toLowerCase h s) = toUpperCase h s := by
  rw [toLowerCase_ascii h s hs, toUpperCase_ascii h _ (isAscii_lower s hs),
    toUpperCase_ascii h s hs]
  congr 1
  rw [List.map_map]
  exact List.map_congr_left
    (fun c hc => (ascii_case c ((isAsciiString_iff s).mp hs c hc)).1)

/-- Upper-casing ASCII text twice is upper-casing it once. -/
theorem toUpperCase_toUpperCase (h : Host) (s : String) (hs : isAsciiString s = true) :
    toUpperCase h (toUpperCase h s) = toUpperCase h s := by
  rw [toUpperCase_ascii h s hs, toUpperCase_ascii h _ (isAscii_upper s hs)]
  congr 1
  rw [List.map_map]
  exact List.map_congr_left
    (fun c hc => (ascii_case c ((isAsciiString_iff s).mp hs c hc)).2.1)

theorem truthy_recased (h : Host) (s : String) (hs : isAsciiString s = true) :
    truthy (str (toLowerCase h s)) = truthy (str (toUpperCase h s)) := by
  rw [toLowerCase_ascii h s hs, toUpperCase_ascii h s hs]
  cases hd : s.data with
  | nil => rfl
  | cons c r =>
    have e1 : (⟨(c :: r).map Char.toLower⟩ : String) ≠ "" := fun hc => by
      have := congrArg String.data hc
      simp at this
    have e2 : (⟨(c :: r).map Char.toUpper⟩ : String) ≠ "" := fun hc => by
      have := congrArg String.data hc
      simp at this
    rw [truthy_str _ e1, truthy_str _ e2]

theorem searchCallback_postcode_recased (h : Host) (q : String) (hq : isAsciiString q = true)
    (p : Property) :
    searchCallback h { postcode := str (toLowerCase h q) } p
      = searchCallback h { postcode := str (toUpperCase h q) } p := by
  simp only [searchCallback_eq, typeRejects, minPriceRejects, maxPriceRejects,
    minBedroomsRejects, maxBedroomsRejects, dateAfterRejects, dateBetweenRejects,
    truthy_undefined, Bool.false_and, postcodeBlock, truthy_recased h q hq, callToUpperCase,
    toUpperCase_toLowerCase h q hq, toUpperCase_toUpperCase h q hq]

theorem filterE_map {α : Type} (f : α → Except JSError Bool) (g : α → α) (l : List α)
    (hfg : ∀ x ∈ l, f (g x) = f x) :
    filterE f (l.map g) = (filterE f l).map (List.map g) := by
  induction l with
  | nil => rfl
  | cons x xs ih =>
    have hx := hfg x (List.mem_cons_self x xs)
    have hxs := ih (fun y hy => hfg y (List.mem_cons_of_mem x hy))
    simp only [List.map_cons, filterE, hx, hxs]
    cases f x with
    | error e => rfl
    | ok b =>
      cases filterE f xs with
      | error e => rfl
      | ok r => cases b <;> rfl

theorem searchCallback_recase (h : Host) (C : Criteria) (f : String → String) (p : Property)
    (hf : ∀ s, p.postcode = str s → toUpperCase h (f s) = toUpperCase h s) :
    searchCallback h C (recasePostcode f p) = searchCallback h C p := by
  unfold recasePostcode
  split
  · rename_i s hs
    simp only [searchCallback_eq, typeRejects, minPriceRejects, maxPriceRejects,
      minBedroomsRejects, maxBedroomsRejects, dateAfterRejects, dateBetweenRejects,
      postcodeBlock, callToUpperCase, hs, hf s hs]
  · rfl

theorem asciiPostcode_spec (p : Property) (hp : asciiPostcode p = true) (s : String)
    (hs : p.postcode = str s) : isAsciiString s = true := by
  simpa [asciiPostcode, hs] using hp

/-- C8 (amended). Postcode matching is case-insensitive on ASCII text: for every property list
and every ASCII query `q`, the lower-cased and the upper-cased query give the same result; and
for every criteria object, changing the postcodes of the properties to lower or to upper case,
when they are ASCII, changes nothing but those postcodes in the result. -/
theorem searchProperties_postcode_case (h : Host) (P : List Property) :
    (∀ q : String, isAsciiString q = true →
        searchProperties h P { postcode := str (toLowerCase h q) }
          = searchProperties h P { postcode := str (toUpperCase h q) })
      ∧ ((∀ p ∈ P, asciiPostcode p = true) → ∀ C : Criteria,
        searchProperties h (P.map (recasePostcode (toLowerCase h))) C
            = (searchProperties h P C).map (List.map (recasePostcode (toLowerCase h)))
          ∧ searchProperties h (P.map (recasePostcode (toUpperCase h))) C
            = (searchProperties h P C).map (List.map (recasePostcode (toUpperCase h)))) := by
  refine ⟨fun q hq => ?_, fun hP C => ⟨?_, ?_⟩⟩
  · exact filterE_congr _ _ P (fun p _ => searchCallback_postcode_recased h q hq p)
  · exact filterE_map _ _ P (fun p hp => searchCallback_recase h C _ p
      (fun s hs => toUpperCase_toLowerCase h s (asciiPostcode_spec p (hP p hp) s hs)))
  · exact filterE_map _ _ P (fun p hp => searchCallback_recase h C _ p
      (fun s hs => toUpperCase_toUpperCase h s (asciiPostcode_spec p (hP p hp) s hs)))

/-- C8, witness: the queries `"nw1"` and `"NW1"` of the test file give the same list, and the
test data with lower-cased postcodes is searched alike. -/
theorem searchProperties_postcode_case_witness :
    isAsciiString "nW1" = true
      ∧ searchProperties sampleHost testProperties { postcode := str (toLowerCase sampleHost "nW1") }
        = searchProperties sampleHost testProperties
            { postcode := str (toUpperCase sampleHost "nW1") }
      ∧ searchProperties sampleHost
          (testProperties.map (recasePostcode (toLowerCase sampleHost))) { postcode := str "Nw" }
        = (searchProperties sampleHost testProperties { postcode := str "Nw" }).map
            (List.map (recasePostcode (toLowerCase sampleHost))) :=
  ⟨by decide,
    (searchProperties_postcode_case sampleHost testProperties).1 "nW1" (by decide),
    ((searchProperties_postcode_case sampleHost testProperties).2 (by decide)
      { postcode := str "Nw" }).1⟩

/-- C8, counterexample: the Kelvin sign U+212A has lower case `k` and is its own upper case.
As a query, lower-cased it selects the property with postcode `K1`; upper-cased it selects
nothing. -/
theorem searchProperties_kelvin_query :
    searchProperties sampleHost [k1Property]
        { postcode := str (toLowerCase sampleHost kelvinSign) } = .ok [k1Property]
      ∧ searchProperties sampleHost [k1Property]
        { postcode := str (toUpperCase sampleHost kelvinSign) } = .ok [] := by
  decide

/-! ## C9, C10: the date criteria -/

theorem truthy_of_isIsoDate (v : JSVal) (hv : isIsoDate v = true) : truthy v = true := by
  cases v with
  | str s =>
    have : s ≠ "" := fun hc => by
      rw [hc] at hv
      exact absurd hv (by decide)
    exact truthy_str s this
  | _ => simp [isIsoDate, isoOf] at hv

theorem dateCriterionOk_of_iso (v : JSVal) (hv : isIsoDate v = true) :
    dateCriterionOk v = true := by
  simp [dateCriterionOk, hv]

theorem IsoDate.le_refl (d : IsoDate) : d.le d = true := by
  simp [IsoDate.le]

theorem dateLe_refl (v : JSVal) (hv : isIsoDate v = true) : dateLe v v = true := by
  obtain ⟨d, hd⟩ := (isIsoDate_iff v).mp hv
  simp [dateLe, hd, IsoDate.le_refl]

theorem accepts_date_after (h : Host) (d : JSVal) (hd : isIsoDate d = true) (p : Property)
    (hp : isIsoDate p.dateAdded = true) :
    accepts h { dateAddedAfter := d } p = dateLe d p.dateAdded := by
  have e := dateAfterRejects_eq h { dateAddedAfter := d } p hp (dateCriterionOk_of_iso d hd)
  simp only [passesDateAfter, truthy_of_isIsoDate d hd, Bool.not_true, Bool.false_or] at e
  simp [accepts, typeRejects, minPriceRejects, maxPriceRejects, minBedroomsRejects,
    maxBedroomsRejects, dateBetweenRejects, passesPostcode, truthy_undefined, e]

theorem accepts_date_between (h : Host) (f t : JSVal) (hf : isIsoDate f = true)
    (ht : isIsoDate t = true) (p : Property) (hp : isIsoDate p.dateAdded = true) :
    accepts h { dateAddedFrom := f, dateAddedTo := t } p
      = (dateLe f p.dateAdded && dateLe p.dateAdded t) := by
  have e := dateBetweenRejects_eq h { dateAddedFrom := f, dateAddedTo := t } p hp
    (dateCriterionOk_of_iso f hf) (dateCriterionOk_of_iso t ht)
  simp only [passesDateBetween, truthy_of_isIsoDate f hf, truthy_of_isIsoDate t ht,
    Bool.and_self, Bool.not_true, Bool.false_or] at e
  simp [accepts, typeRejects, minPriceRejects, maxPriceRejects, minBedroomsRejects,
    maxBedroomsRejects, dateAfterRejects, passesPostcode, truthy_undefined, e]

theorem accepts_date_all (h : Host) (d f t : JSVal) (hd : isIsoDate d = true)
    (hf : isIsoDate f = true) (ht : isIsoDate t = true) (p : Property)
    (hp : isIsoDate p.dateAdded = true) :
    accepts h { dateAddedAfter := d, dateAddedFrom := f, dateAddedTo := t } p
      = (dateLe d p.dateAdded && (dateLe f p.dateAdded && dateLe p.dateAdded t)) := by
  have e1 := dateAfterRejects_eq h { dateAddedAfter := d, dateAddedFrom := f, dateAddedTo := t }
    p hp (dateCriterionOk_of_iso d hd)
  have e2 := dateBetweenRejects_eq h
    { dateAddedAfter := d, dateAddedFrom := f, dateAddedTo := t } p hp
    (dateCriterionOk_of_iso f hf) (dateCriterionOk_of_iso t ht)
  simp only [passesDateAfter, passesDateBetween, truthy_of_isIsoDate d hd,
    truthy_of_isIsoDate f hf, truthy_of_isIsoDate t ht,
    Bool.and_self, Bool.not_true, Bool.false_or] at e1 e2
  simp [accepts, typeRejects, minPriceRejects, maxPriceRejects, minBedroomsRejects,
    maxBedroomsRejects, passesPostcode, truthy_undefined, e1, e2]

/-- C9. The criterion `dateAddedAfter`: for properties with valid ISO dates and a valid ISO date
`d`, `{dateAddedAfter: d}` selects exactly the properties added chronologically on or after
`d` (a property added exactly on `d` is selected); and next to valid `dateAddedFrom` and
`dateAddedTo` the test is applied in addition to the between-dates test. -/
theorem searchProperties_date_after (h : Host) (P : List Property) (d : JSVal)
    (hP : ∀ p ∈ P, isIsoDate p.dateAdded = true) (hd : isIsoDate d = true) :
    searchProperties h P { dateAddedAfter := d }
        = .ok (P.filter (fun p => dateLe d p.dateAdded))
      ∧ (∀ p ∈ P, p.dateAdded = d → p ∈ P.filter (fun p => dateLe d p.dateAdded))
      ∧ ∀ f t : JSVal, isIsoDate f = true → isIsoDate t = true →
        searchProperties h P { dateAddedAfter := d, dateAddedFrom := f, dateAddedTo := t }
          = .ok (P.filter (fun p =>
              dateLe d p.dateAdded && (dateLe f p.dateAdded && dateLe p.dateAdded t))) := by
  refine ⟨?_, fun p hp hpd => ?_, fun f t hf ht => ?_⟩
  · rw [searchProperties_accepts h P _ (fun p _ => postcodeSafe_of_absent _ p rfl)]
    congr 1
    exact List.filter_congr (fun p hp => accepts_date_after h d hd p (hP p hp))
  · exact List.mem_filter.mpr ⟨hp, by rw [hpd]; exact dateLe_refl d hd⟩
  · rw [searchProperties_accepts h P _ (fun p _ => postcodeSafe_of_absent _ p rfl)]
    congr 1
    exact List.filter_congr (fun p hp => accepts_date_all h d f t hd hf ht p (hP p hp))

/-- C9, witness: the date test of the test file, and the boundary date `2024-10-15`. -/
theorem searchProperties_date_after_witness :
    searchProperties sampleHost testProperties { dateAddedAfter := str "2024-10-01" }
        = .ok (testProperties.filter (fun p => dateLe (str "2024-10-01") p.dateAdded))
      ∧ (testProperties.filter (fun p => dateLe (str "2024-10-01") p.dateAdded)).length = 3
      ∧ searchProperties sampleHost testProperties { dateAddedAfter := str "2024-10-15" }
        = .ok (testProperties.filter (fun p => dateLe (str "2024-10-15") p.dateAdded)) :=
  ⟨(searchProperties_date_after sampleHost testProperties (str "2024-10-01")
      (by decide) (by decide)).1, by decide,
    (searchProperties_date_after sampleHost testProperties (str "2024-10-15")
      (by decide) (by decide)).1⟩

theorem searchCallback_lone_from (h : Host) (C : Criteria) (p : Property)
    (hto : C.dateAddedTo = undefined) :
    searchCallback h C p = searchCallback h { C with dateAddedFrom := undefined } p := by
  simp only [searchCallback_eq, typeRejects, minPriceRejects, maxPriceRejects,
    minBedroomsRejects, maxBedroomsRejects, dateAfterRejects, dateBetweenRejects,
    postcodeBlock, hto, truthy_undefined, Bool.and_false, Bool.false_and]

theorem searchCallback_lone_to (h : Host) (C : Criteria) (p : Property)
    (hfrom : C.dateAddedFrom = undefined) :
    searchCallback h C p = searchCallback h { C with dateAddedTo := undefined } p := by
  simp only [searchCallback_eq, typeRejects, minPriceRejects, maxPriceRejects,
    minBedroomsRejects, maxBedroomsRejects, dateAfterRejects, dateBetweenRejects,
    postcodeBlock, hfrom, truthy_undefined, Bool.and_false, Bool.false_and]

/-- C10. Between-dates criterion: for properties with valid ISO dates and valid ISO dates `f`
and `t`, `{dateAddedFrom: f, dateAddedTo: t}` selects exactly the properties with
`f <= dateAdded <= t`, both ends inclusive; and a criteria object with only one of the two
keys gives the same result as with that key removed. -/
theorem searchProperties_date_between (h : Host) (P : List Property) :
    (∀ f t : JSVal, (∀ p ∈ P, isIsoDate p.dateAdded = true) → isIsoDate f = true →
        isIsoDate t = true →
        searchProperties h P { dateAddedFrom := f, dateAddedTo := t }
            = .ok (P.filter (fun p => dateLe f p.dateAdded && dateLe p.dateAdded t))
          ∧ (dateLe f t = true → ∀ p ∈ P, p.dateAdded = f ∨ p.dateAdded = t →
            p ∈ P.filter (fun p => dateLe f p.dateAdded && dateLe p.dateAdded t)))
      ∧ (∀ C : Criteria, C.dateAddedTo = undefined →
        searchProperties h P C = searchProperties h P { C with dateAddedFrom := undefined })
      ∧ (∀ C : Criteria, C.dateAddedFrom = undefined →
        searchProperties h P C = searchProperties h P { C with dateAddedTo := undefined }) := by
  refine ⟨fun f t hP hf ht => ⟨?_, fun hft p hp hpd => ?_⟩, fun C hto => ?_, fun C hfrom => ?_⟩
  · rw [searchProperties_accepts h P _ (fun p _ => postcodeSafe_of_absent _ p rfl)]
    congr 1
    exact List.filter_congr (fun p hp => accepts_date_between h f t hf ht p (hP p hp))
  · refine List.mem_filter.mpr ⟨hp, ?_⟩
    rcases hpd with hpd | hpd <;> rw [hpd]
    · simp [dateLe_refl f hf, hft]
    · simp [dateLe_refl t ht, hft]
  · exact filterE_congr _ _ P (fun p _ => searchCallback_lone_from h C p hto)
  · exact filterE_congr _ _ P (fun p _ => searchCallback_lone_to h C p hfrom)

/-- C10, witness: the test data between the dates of two of its properties, both of which are
selected, and a lone `dateAddedFrom`, which is ignored. -/
theorem searchProperties_date_between_witness :
    searchProperties sampleHost testProperties
        { dateAddedFrom := str "2024-10-15", dateAddedTo := str "2024-11-01" }
        = .ok (testProperties.filter (fun p =>
            dateLe (str "2024-10-15") p.dateAdded && dateLe p.dateAdded (str "2024-11-01")))
      ∧ testProperties.filter (fun p =>
            dateLe (str "2024-10-15") p.dateAdded && dateLe p.dateAdded (str "2024-11-01"))
        = testProperties.take 2
      ∧ searchProperties sampleHost testProperties { dateAddedFrom := str "2024-10-15" }
        = searchProperties sampleHost testProperties {} :=
  ⟨((searchProperties_date_between sampleHost testProperties).1 (str "2024-10-15")
      (str "2024-11-01") (by decide) (by decide) (by decide)).1, by decide,
    (searchProperties_date_between sampleHost testProperties).2.1
      { dateAddedFrom := str "2024-10-15" } rfl⟩

/-! ## C11: falsy and unparseable numeric criteria -/

theorem searchCallback_removeNumeric (h : Host) (C : Criteria) (k : NumericKey) (p : Property)
    (hk : truthy (C.numeric k) = false ∨ (parseNumeric h k (C.numeric k)).isNaN = true) :
    searchCallback h C p = searchCallback h (C.removeNumeric k) p := by
  cases k <;>
    simp only [Criteria.numeric, parseNumeric] at hk <;>
    rcases hk with hk | hk <;>
    simp only [searchCallback_eq, Criteria.removeNumeric, typeRejects, minPriceRejects,
      maxPriceRejects, minBedroomsRejects, maxBedroomsRejects, dateAfterRejects,
      dateBetweenRejects, postcodeBlock, hk, truthy_undefined, Bool.false_and, Bool.not_true,
      Bool.and_false]

/-- C11 (amended). For every property list, criteria object and numeric key `k`: if `C[k]` is
falsy or its numeric parse fails, `searchProperties(P, C)` behaves exactly as with `k` removed
(the same result, or the same error); it raises no error when the postcode block cannot throw,
that is when `C.postcode` is absent or empty, or is a string and every property has a string
postcode. In particular `minPrice: 0` and `maxPrice: 0` behave as if absent. -/
theorem searchProperties_numeric_ignored (h : Host) (P : List Property) (C : Criteria)
    (k : NumericKey)
    (hk : truthy (C.numeric k) = false ∨ (parseNumeric h k (C.numeric k)).isNaN = true) :
    searchProperties h P C = searchProperties h P (C.removeNumeric k)
      ∧ ((∀ p ∈ P, postcodeSafe C p = true) → ∃ r, searchProperties h P C = .ok r)
      ∧ searchProperties h P { C with minPrice := num (fin 0) }
        = searchProperties h P { C with minPrice := undefined }
      ∧ searchProperties h P { C with maxPrice := num (fin 0) }
        = searchProperties h P { C with maxPrice := undefined } := by
  refine ⟨filterE_congr _ _ P (fun p _ => searchCallback_removeNumeric h C k p hk),
    fun hs => ⟨_, searchProperties_accepts h P C hs⟩, ?_, ?_⟩
  · exact filterE_congr _ _ P (fun p _ =>
      searchCallback_removeNumeric h { C with minPrice := num (fin 0) } .minPrice p
        (Or.inl (by simp [Criteria.numeric, truthy])))
  · exact filterE_congr _ _ P (fun p _ =>
      searchCallback_removeNumeric h { C with maxPrice := num (fin 0) } .maxPrice p
        (Or.inl (by simp [Criteria.numeric, truthy])))

/-- C11, witness: the string `"abc"` as `minBedrooms` next to a type criterion. -/
theorem searchProperties_numeric_ignored_witness :
    searchProperties sampleHost testProperties { type := str "flat", minBedrooms := str "abc" }
        = searchProperties sampleHost testProperties
            (Criteria.removeNumeric { type := str "flat", minBedrooms := str "abc" }
              NumericKey.minBedrooms)
      ∧ searchProperties sampleHost testProperties { type := str "flat", minBedrooms := str "abc" }
        = .ok [testProperties.get ⟨1, by decide⟩, testProperties.get ⟨3, by decide⟩] :=
  ⟨(searchProperties_numeric_ignored sampleHost testProperties
      { type := str "flat", minBedrooms := str "abc" } NumericKey.minBedrooms
      (Or.inr (by decide))).1, by decide⟩

/-- C11, counterexample: with `minPrice: "abc"` (parse fails) and `maxPrice: 0` (falsy) the call
still raises a `TypeError` when the criteria carry the postcode 5. -/
theorem searchProperties_numeric_ignored_throws :
    searchProperties sampleHost testProperties badNumericAndPostcode = .error .typeError := by
  decide

/-! ## C12: properties that lack a field -/

theorem lt_nan_left (n : JSNum) : nan.lt n = false := by
  cases n <;> rfl

theorem lt_nan_right (n : JSNum) : n.lt nan = false := by
  cases n <;> rfl

theorem strictEq_undefined_of_truthy (v : JSVal) (hv : truthy v = true) :
    strictEq undefined v = false := by
  cases v with
  | undefined => simp [truthy] at hv
  | num n => cases n <;> simp [strictEq]
  | _ => simp [strictEq]

/-- C12 (amended). A property that lacks `type` is excluded by an active type criterion, with
no error when the postcode block cannot throw. A property that lacks `price`, `bedrooms` or
`dateAdded` is not excluded by the criteria on that field: the comparisons with the missing
value are false, so no block rejects it, and alone in the list it is returned. -/
theorem searchProperties_missing_field (h : Host) (C : Criteria) (p : Property) :
    (truthy C.type = true → C.type ≠ str "any" → p.type = undefined →
        searchCallback h C p = .ok false
          ∧ ∀ P : List Property, (∀ x ∈ P, postcodeSafe C x = true) →
            ∃ r, searchProperties h P C = .ok r ∧ p ∉ r)
      ∧ (p.price = undefined → minPriceRejects h C p = false ∧ maxPriceRejects h C p = false
          ∧ searchProperties h [p] { minPrice := C.minPrice, maxPrice := C.maxPrice } = .ok [p])
      ∧ (p.bedrooms = undefined →
          minBedroomsRejects h C p = false ∧ maxBedroomsRejects h C p = false
          ∧ searchProperties h [p] { minBedrooms := C.minBedrooms, maxBedrooms := C.maxBedrooms }
            = .ok [p])
      ∧ (p.dateAdded = undefined →
          dateAfterRejects h C p = false ∧ dateBetweenRejects h C p = false
          ∧ searchProperties h [p]
              { dateAddedAfter := C.dateAddedAfter, dateAddedFrom := C.dateAddedFrom,
                dateAddedTo := C.dateAddedTo } = .ok [p]) := by
  refine ⟨fun ht hany hp => ?_, fun hp => ?_, fun hp => ?_, fun hp => ?_⟩
  · have hrej : typeRejects C p = true := by
      have : (C.type = str "any") = False := by simp [hany]
      simp [typeRejects, ht, strictEq_str, this, hp, strictEq_undefined_of_truthy C.type ht]
    refine ⟨by rw [searchCallback_eq, hrej]; rfl, fun P hs => ?_⟩
    refine ⟨_, searchProperties_accepts h P C hs, fun hmem => ?_⟩
    have := (List.mem_filter.mp hmem).2
    simp [accepts, hrej] at this
  · have e1 : minPriceRejects h C p = false := by
      simp [minPriceRejects, hp, toNumber, lt_nan_left]
    have e2 : maxPriceRejects h C p = false := by
      simp [maxPriceRejects, hp, toNumber, lt_nan_right]
    refine ⟨e1, e2, ?_⟩
    rw [searchProperties_accepts h _ _ (fun x _ => postcodeSafe_of_absent _ x rfl)]
    have : accepts h { minPrice := C.minPrice, maxPrice := C.maxPrice } p = true := by
      simp [accepts, typeRejects, minPriceRejects, maxPriceRejects, minBedroomsRejects,
        maxBedroomsRejects, dateAfterRejects, dateBetweenRejects, passesPostcode,
        truthy_undefined, hp, toNumber, lt_nan_left, lt_nan_right]
    rw [List.filter_cons_of_pos this]
    rfl
  · have e1 : minBedroomsRejects h C p = false := by
      simp [minBedroomsRejects, hp, toNumber, lt_nan_left]
    have e2 : maxBedroomsRejects h C p = false := by
      simp [maxBedroomsRejects, hp, toNumber, lt_nan_right]
    refine ⟨e1, e2, ?_⟩
    rw [searchProperties_accepts h _ _ (fun x _ => postcodeSafe_of_absent _ x rfl)]
    have : accepts h { minBedrooms := C.minBedrooms, maxBedrooms := C.maxBedrooms } p
        = true := by
      simp [accepts, typeRejects, minPriceRejects, maxPriceRejects, minBedroomsRejects,
        maxBedroomsRejects, dateAfterRejects, dateBetweenRejects, passesPostcode,
        truthy_undefined, hp, toNumber, lt_nan_left, lt_nan_right]
    rw [List.filter_cons_of_pos this]
    rfl
  · have hd : newDate h undefined = nan := rfl
    have e1 : dateAfterRejects h C p = false := by
      simp [dateAfterRejects, hp, hd, lt_nan_left]
    have e2 : dateBetweenRejects h C p = false := by
      simp [dateBetweenRejects, hp, hd, lt_nan_left, lt_nan_right]
    refine ⟨e1, e2, ?_⟩
    rw [searchProperties_accepts h _ _ (fun x _ => postcodeSafe_of_absent _ x rfl)]
    have : accepts h
        { dateAddedAfter := C.dateAddedAfter, dateAddedFrom := C.dateAddedFrom,
          dateAddedTo := C.dateAddedTo } p = true := by
      simp [accepts, typeRejects, minPriceRejects, maxPriceRejects, minBedroomsRejects,
        maxBedroomsRejects, dateAfterRejects, dateBetweenRejects, passesPostcode,
        truthy_undefined, hp, hd, lt_nan_left, lt_nan_right]
    rw [List.filter_cons_of_pos this]
    rfl

/-- C12, witness: a record with no field at all against `{type: "house", minPrice: 100000}`. -/
theorem searchProperties_missing_field_witness :
    searchCallback sampleHost { type := str "house", minPrice := num (fin 100000) } bareProperty
        = .ok false
      ∧ minPriceRejects sampleHost { type := str "house", minPrice := num (fin 100000) }
          bareProperty = false :=
  ⟨((searchProperties_missing_field sampleHost
      { type := str "house", minPrice := num (fin 100000) } bareProperty).1
      (by decide) (by decide) rfl).1,
    ((searchProperties_missing_field sampleHost
      { type := str "house", minPrice := num (fin 100000) } bareProperty).2.1 rfl).1⟩

/-- C12, counterexample: a record with no price is returned by `{minPrice: 100000}`, one with
no bedrooms by `{minBedrooms: "2"}`, one with no `dateAdded` by `{dateAddedAfter: "2024-10-01"}`,
and a record with no postcode makes `{postcode: "BR"}` raise a `TypeError`. -/
theorem searchProperties_missing_field_kept :
    searchProperties sampleHost [bareProperty] { minPrice := num (fin 100000) }
        = .ok [bareProperty]
      ∧ searchProperties sampleHost [bareProperty] { minBedrooms := str "2" }
        = .ok [bareProperty]
      ∧ searchProperties sampleHost [bareProperty] { dateAddedAfter := str "2024-10-01" }
        = .ok [bareProperty]
      ∧ searchProperties sampleHost [bareProperty] { postcode := str "BR" }
        = .error .typeError := by
  decide

/-! ## C13: idempotence -/

theorem filterE_idem {α : Type} (f : α → Except JSError Bool) (l : List α) :
    ∀ r, filterE f l = .ok r → filterE f r = .ok r := by
  induction l with
  | nil =>
    intro r hr
    cases hr
    rfl
  | cons x xs ih =>
    intro r hr
    simp only [filterE] at hr
    cases hfx : f x with
    | error e => rw [hfx] at hr; cases hr
    | ok b =>
      rw [hfx] at hr
      cases hxs : filterE f xs with
      | error e => rw [hxs] at hr; cases hr
      | ok r' =>
        rw [hxs] at hr
        simp only [Except.ok.injEq] at hr
        have h1 := ih r' hxs
        cases b
        · simp only [Bool.false_eq_true, if_false] at hr
          rw [← hr]; exact h1
        · simp only [if_true] at hr
          rw [← hr]
          simp only [filterE, hfx, h1, if_true]

/-- C13. Idempotence: filtering the result of `searchProperties(P, C)` again with the same
criteria gives the same result (and when the first call throws, so does the composition). -/
theorem searchProperties_idempotent (h : Host) (P : List Property) (C : Criteria) :
    (searchProperties h P C >>= fun r => searchProperties h r C) = searchProperties h P C := by
  cases hr : searchProperties h P C with
  | error e => rfl
  | ok r => exact filterE_idem _ P r hr

/-! ## C14, C15: monotonicity -/

theorem JSNum.lt_of_lt_of_le (a b c : JSNum) (hab : a.lt b = true) (hbc : b.le c = true) :
    a.lt c = true := by
  cases a <;> cases b <;> cases c <;> simp_all [JSNum.lt, JSNum.le]
  exact hab.trans_le hbc

theorem JSNum.lt_of_le_of_lt (a b c : JSNum) (hab : a.le b = true) (hbc : b.lt c = true) :
    a.lt c = true := by
  cases a <;> cases b <;> cases c <;> simp_all [JSNum.lt, JSNum.le]
  exact hab.trans_lt hbc

theorem JSNum.isNaN_of_lt_left (a b : JSNum) (hab : a.lt b = true) : a.isNaN = false := by
  cases a <;> simp_all [JSNum.lt, JSNum.isNaN]

theorem JSNum.isNaN_of_le_right (a b : JSNum) (hab : a.le b = true) : b.isNaN = false := by
  cases a <;> cases b <;> simp_all [JSNum.le, JSNum.isNaN]

theorem JSNum.isNaN_of_lt_right (a b : JSNum) (hab : a.lt b = true) : b.isNaN = false := by
  cases a <;> cases b <;> simp_all [JSNum.lt, JSNum.isNaN]

/-- When a narrower callback either agrees with the wider one or rejects, and the wider search
returns, the narrower search returns a sublist. -/
theorem filterE_sublist {α : Type} (f1 f2 : α → Except JSError Bool) (l : List α)
    (hf : ∀ x ∈ l, f2 x = f1 x ∨ f2 x = .ok false) :
    ∀ r1, filterE f1 l = .ok r1 → ∃ r2, filterE f2 l = .ok r2 ∧ r2.Sublist r1 := by
  induction l with
  | nil =>
    intro r1 hr
    cases hr
    exact ⟨[], rfl, List.Sublist.refl _⟩
  | cons x xs ih =>
    intro r1 hr
    simp only [filterE] at hr
    cases hfx : f1 x with
    | error e => rw [hfx] at hr; cases hr
    | ok b =>
      rw [hfx] at hr
      cases hxs : filterE f1 xs with
      | error e => rw [hxs] at hr; cases hr
      | ok r' =>
        rw [hxs] at hr
        simp only [Except.ok.injEq] at hr
        obtain ⟨r2, h2, hsub⟩ := ih (fun y hy => hf y (List.mem_cons_of_mem x hy)) r' hxs
        rcases hf x (List.mem_cons_self x xs) with hx | hx
        · refine ⟨if b then x :: r2 else r2, by simp only [filterE, hx, hfx, h2], ?_⟩
          rw [← hr]
          cases b
          · exact hsub
          · exact hsub.cons_cons x
        · refine ⟨r2, by simp [filterE, hx, h2], ?_⟩
          rw [← hr]
          cases b
          · exact hsub
          · exact hsub.cons x

theorem chain_step (a a2 : Bool) (x x2 : Except JSError Bool) (ha : a = true → a2 = true)
    (hx : x2 = x ∨ x2 = .ok false) :
    (if a2 = true then .ok false else x2) = (if a = true then Except.ok false else x)
      ∨ (if a2 = true then .ok false else x2) = Except.ok false := by
  cases a <;> cases a2 <;> simp_all

/-- A criteria object `N` narrows `W` when every block that rejects under `W` rejects under `N`
and the postcode blocks agree: then the callback under `N` agrees with the one under `W` or
rejects. -/
theorem searchCallback_narrow (h : Host) (W N : Criteria) (p : Property)
    (h1 : typeRejects W p = true → typeRejects N p = true)
    (h2 : minPriceRejects h W p = true → minPriceRejects h N p = true)
    (h3 : maxPriceRejects h W p = true → maxPriceRejects h N p = true)
    (h4 : minBedroomsRejects h W p = true → minBedroomsRejects h N p = true)
    (h5 : maxBedroomsRejects h W p = true → maxBedroomsRejects h N p = true)
    (h6 : dateAfterRejects h W p = true → dateAfterRejects h N p = true)
    (h7 : dateBetweenRejects h W p = true → dateBetweenRejects h N p = true)
    (h8 : postcodeBlock h N p = postcodeBlock h W p) :
    searchCallback h N p = searchCallback h W p ∨ searchCallback h N p = .ok false := by
  rw [searchCallback_eq, searchCallback_eq]
  exact chain_step _ _ _ _ h1 (chain_step _ _ _ _ h2 (chain_step _ _ _ _ h3
    (chain_step _ _ _ _ h4 (chain_step _ _ _ _ h5 (chain_step _ _ _ _ h6
      (chain_step _ _ _ _ h7 (Or.inl h8)))))))

theorem minPriceRejects_mono (h : Host) (C : Criteria) (m1 m2 : JSNum) (p : Property)
    (hp : isNumeric p.price = true ∧ (fin 0).le (numOf p.price) = true)
    (hm2 : m2.isNaN = false) (h12 : m1.le m2 = true)
    (hr : minPriceRejects h { C with minPrice := num m1 } p = true) :
    minPriceRejects h { C with minPrice := num m2 } p = true := by
  obtain ⟨hnum, hpos⟩ := hp
  obtain ⟨e1, _⟩ := toNumber_numeric h p.price hnum
  simp only [minPriceRejects, parseFloat, e1, Bool.and_eq_true, Bool.not_eq_true'] at hr ⊢
  obtain ⟨⟨_, _⟩, hlt⟩ := hr
  have hlt2 := JSNum.lt_of_lt_of_le _ _ _ hlt h12
  refine ⟨⟨?_, hm2⟩, hlt2⟩
  refine truthy_num m2 hm2 (fun h0 => ?_)
  rw [h0] at hlt2
  have := JSNum.lt_of_le_of_lt _ _ _ hpos hlt2
  simp [JSNum.lt] at this

/-- C14. Monotonicity in `minPrice`: for properties with non-negative numeric prices, every
criteria object and numeric values `m1 <= m2`, whenever the search with `minPrice = m1`
returns, the search with `minPrice = m2` returns a sublist of it, so raising `minPrice` never
increases the number of results; both return when the postcode block cannot throw. -/
theorem searchProperties_minPrice_mono (h : Host) (P : List Property) (C : Criteria)
    (m1 m2 : JSNum)
    (hP : ∀ p ∈ P, isNumeric p.price = true ∧ (fin 0).le (numOf p.price) = true)
    (h12 : m1.le m2 = true) :
    (∀ r1, searchProperties h P { C with minPrice := num m1 } = .ok r1 →
        ∃ r2, searchProperties h P { C with minPrice := num m2 } = .ok r2
          ∧ r2.Sublist r1 ∧ r2.length ≤ r1.length)
      ∧ ((∀ p ∈ P, postcodeSafe C p = true) →
        ∃ r1, searchProperties h P { C with minPrice := num m1 } = .ok r1) := by
  refine ⟨fun r1 hr1 => ?_, fun hs => ⟨_, searchProperties_accepts h P _ hs⟩⟩
  obtain ⟨r2, hr2, hsub⟩ := filterE_sublist
    (searchCallback h { C with minPrice := num m1 })
    (searchCallback h { C with minPrice := num m2 }) P
    (fun p hp => searchCallback_narrow h _ _ p id
      (minPriceRejects_mono h C m1 m2 p (hP p hp) (JSNum.isNaN_of_le_right m1 m2 h12) h12)
      id id id id id rfl) r1 hr1
  exact ⟨r2, hr2, hsub, hsub.length_le⟩

/-- C14, witness: the test data with `minPrice` raised from 250000 to 300000 next to a type
criterion: the wider search returns the two houses, the narrower one a sublist of them. -/
theorem searchProperties_minPrice_mono_witness :
    searchProperties sampleHost testProperties
        { type := str "house", minPrice := num (fin 250000) }
        = .ok [testProperties.get ⟨0, by decide⟩, testProperties.get ⟨2, by decide⟩]
      ∧ ∃ r2, searchProperties sampleHost testProperties
          { type := str "house", minPrice := num (fin 300000) } = .ok r2
        ∧ r2.Sublist [testProperties.get ⟨0, by decide⟩, testProperties.get ⟨2, by decide⟩]
        ∧ r2.length ≤ [testProperties.get ⟨0, by decide⟩,
            testProperties.get ⟨2, by decide⟩].length :=
  ⟨by decide,
    (searchProperties_minPrice_mono sampleHost testProperties { type := str "house" }
      (fin 250000) (fin 300000) (by decide) (by decide)).1 _ (by decide)⟩

theorem truthy_of_pos (m : JSNum) (hm : (fin 0).lt m = true) :
    truthy (num m) = true ∧ m.isNaN = false := by
  have hn := JSNum.isNaN_of_lt_right _ _ hm
  refine ⟨truthy_num m hn (fun h0 => ?_), hn⟩
  rw [h0] at hm
  simp [JSNum.lt] at hm

theorem maxPriceRejects_mono (h : Host) (C : Criteria) (M1 M2 : JSNum) (p : Property)
    (hpos : (fin 0).lt M2 = true) (h21 : M2.le M1 = true)
    (hr : maxPriceRejects h { C with maxPrice := num M1 } p = true) :
    maxPriceRejects h { C with maxPrice := num M2 } p = true := by
  simp only [maxPriceRejects, parseFloat, Bool.and_eq_true, Bool.not_eq_true'] at hr ⊢
  obtain ⟨⟨_, _⟩, hlt⟩ := hr
  obtain ⟨ht, hn⟩ := truthy_of_pos M2 hpos
  exact ⟨⟨ht, hn⟩, JSNum.lt_of_le_of_lt _ _ _ h21 hlt⟩

theorem maxBedroomsRejects_mono (h : Host) (C : Criteria) (n1 n2 : Nat) (p : Property)
    (hpos : 0 < n2) (h21 : n2 ≤ n1) (hlt1 : n1 < 10 ^ 21)
    (hr : maxBedroomsRejects h { C with maxBedrooms := num (fin (n1 : ℚ)) } p = true) :
    maxBedroomsRejects h { C with maxBedrooms := num (fin (n2 : ℚ)) } p = true := by
  have e1 : parseInt h (num (fin (n1 : ℚ))) = fin (n1 : ℚ) :=
    parseIntFin_nat h n1 (lt_of_lt_of_le hpos h21) hlt1
  have e2 : parseInt h (num (fin (n2 : ℚ))) = fin (n2 : ℚ) :=
    parseIntFin_nat h n2 hpos (lt_of_le_of_lt h21 hlt1)
  simp only [maxBedroomsRejects, e1, e2, Bool.and_eq_true, Bool.not_eq_true'] at hr ⊢
  obtain ⟨⟨_, _⟩, hlt⟩ := hr
  have hq : (fin 0).lt (fin (n2 : ℚ)) = true := by
    simp only [JSNum.lt, decide_eq_true_eq]
    exact_mod_cast hpos
  have hle : (fin (n2 : ℚ)).le (fin (n1 : ℚ)) = true := by
    simp only [JSNum.le, decide_eq_true_eq]
    exact_mod_cast h21
  obtain ⟨ht, hn⟩ := truthy_of_pos _ hq
  exact ⟨⟨ht, hn⟩, JSNum.lt_of_le_of_lt _ _ _ hle hlt⟩

/-- C15 (amended). Monotonicity in the upper bounds: for every property list and criteria
object and all positive numeric values `M2 <= M1`, whenever the search with `maxPrice = M1`
returns, the search with `maxPrice = M2` returns a sublist of it, so it has at most as many
results; likewise for `maxBedrooms` and positive integers `n2 <= n1` below `1e21`. -/
theorem searchProperties_max_mono (h : Host) (P : List Property) (C : Criteria) :
    (∀ M1 M2 : JSNum, (fin 0).lt M2 = true → M2.le M1 = true →
        ∀ r1, searchProperties h P { C with maxPrice := num M1 } = .ok r1 →
          ∃ r2, searchProperties h P { C with maxPrice := num M2 } = .ok r2
            ∧ r2.Sublist r1 ∧ r2.length ≤ r1.length)
      ∧ (∀ n1 n2 : Nat, 0 < n2 → n2 ≤ n1 → n1 < 10 ^ 21 →
        ∀ r1, searchProperties h P { C with maxBedrooms := num (fin (n1 : ℚ)) } = .ok r1 →
          ∃ r2, searchProperties h P { C with maxBedrooms := num (fin (n2 : ℚ)) } = .ok r2
            ∧ r2.Sublist r1 ∧ r2.length ≤ r1.length) := by
  refine ⟨fun M1 M2 hpos h21 r1 hr1 => ?_, fun n1 n2 hpos h21 hlt r1 hr1 => ?_⟩
  · obtain ⟨r2, hr2, hsub⟩ := filterE_sublist
      (searchCallback h { C with maxPrice := num M1 })
      (searchCallback h { C with maxPrice := num M2 }) P
      (fun p _ => searchCallback_narrow h _ _ p id id
        (maxPriceRejects_mono h C M1 M2 p hpos h21) id id id id rfl) r1 hr1
    exact ⟨r2, hr2, hsub, hsub.length_le⟩
  · obtain ⟨r2, hr2, hsub⟩ := filterE_sublist
      (searchCallback h { C with maxBedrooms := num (fin (n1 : ℚ)) })
      (searchCallback h { C with maxBedrooms := num (fin (n2 : ℚ)) }) P
      (fun p _ => searchCallback_narrow h _ _ p id id id id
        (maxBedroomsRejects_mono h C n1 n2 p hpos h21 hlt) id id rfl) r1 hr1
    exact ⟨r2, hr2, hsub, hsub.length_le⟩

/-- C15, witness: the test data with `maxPrice` lowered from 500000 to 300000. -/
theorem searchProperties_max_mono_witness :
    searchProperties sampleHost testProperties { maxPrice := num (fin 500000) }
        = .ok [testProperties.get ⟨0, by decide⟩, testProperties.get ⟨1, by decide⟩,
            testProperties.get ⟨3, by decide⟩]
      ∧ ∃ r2, searchProperties sampleHost testProperties { maxPrice := num (fin 300000) }
          = .ok r2
        ∧ r2.Sublist [testProperties.get ⟨0, by decide⟩, testProperties.get ⟨1, by decide⟩,
            testProperties.get ⟨3, by decide⟩]
        ∧ r2.length ≤ [testProperties.get ⟨0, by decide⟩, testProperties.get ⟨1, by decide⟩,
            testProperties.get ⟨3, by decide⟩].length :=
  ⟨by decide,
    (searchProperties_max_mono sampleHost testProperties {}).1 (fin 500000) (fin 300000)
      (by decide) (by decide) _ (by decide)⟩

/-- C15, counterexample: `maxPrice: 0` is ignored, so lowering `maxPrice` from 50 to 0 raises
the number of results for a property priced 100 from none to one. -/
theorem searchProperties_maxPrice_zero :
    searchProperties sampleHost [priced100] { maxPrice := num (fin 0) } = .ok [priced100]
      ∧ searchProperties sampleHost [priced100] { maxPrice := num (fin 50) } = .ok []
      ∧ (fin 0).le (fin 50) = true := by
  decide

/-! ## C16: `validatePostcode` -/

/-- The text is one or two ASCII letters followed by one or two decimal digits. -/
theorem matchAnchored_postcode (l : List Char) :
    matchAnchored postcodeRegex l = true ↔
      ∃ ls ds : List Char, l = ls ++ ds ∧ (ls.length = 1 ∨ ls.length = 2)
        ∧ (ds.length = 1 ∨ ds.length = 2)
        ∧ (∀ c ∈ ls, isAsciiLetter c = true) ∧ (∀ c ∈ ds, c.isDigit = true) := by
  constructor
  · intro hm
    simp only [matchAnchored, postcodeRegex, List.any_eq_true, List.mem_range,
      Bool.and_eq_true, decide_eq_true_eq, List.all_eq_true, List.isEmpty_iff] at hm
    obtain ⟨i, hi, ⟨hlen, hall⟩, j, hj, ⟨hlen2, hall2⟩, hnil⟩ := hm
    have hd : (l.drop (1 + i)).take (1 + j) = l.drop (1 + i) := by
      have := List.take_append_drop (1 + j) (l.drop (1 + i))
      rw [hnil, List.append_nil] at this
      exact this
    refine ⟨l.take (1 + i), l.drop (1 + i), (List.take_append_drop _ _).symm, ?_, ?_, hall, ?_⟩
    · rw [List.length_take, Nat.min_eq_left hlen]; omega
    · have h1 : (l.drop (1 + i)).length ≤ 1 + j := by
        rw [← hd, List.length_take]; exact Nat.min_le_left _ _
      omega
    · rw [← hd]; exact hall2
  · rintro ⟨ls, ds, rfl, hl, hd, hls, hds⟩
    simp only [matchAnchored, postcodeRegex, List.any_eq_true, List.mem_range,
      Bool.and_eq_true, decide_eq_true_eq, List.all_eq_true, List.isEmpty_iff]
    refine ⟨ls.length - 1, by omega, ⟨by simp; omega, ?_⟩, ds.length - 1, by omega, ⟨?_, ?_⟩, ?_⟩
    · have : 1 + (ls.length - 1) = ls.length := by omega
      rw [this, List.take_left']
      · exact hls
      · rfl
    · have : 1 + (ls.length - 1) = ls.length := by omega
      rw [this, List.drop_left']
      · omega
      · rfl
    · have : 1 + (ls.length - 1) = ls.length := by omega
      have h2 : 1 + (ds.length - 1) = ds.length := by omega
      rw [this, List.drop_left' rfl, h2, List.take_length]
      exact hds
    · have : 1 + (ls.length - 1) = ls.length := by omega
      have h2 : 1 + (ds.length - 1) = ds.length := by omega
      rw [this, List.drop_left' rfl, h2, List.drop_length]

/-- C16. For every string `s`, `validatePostcode(s)` returns, and returns true exactly when
`s` is empty or the trimmed `s` is one or two ASCII letters of either case followed by one or
two decimal digits and nothing else; an absent value is accepted; `"BR1"`, `"nw10"` and
`" E1 "` are accepted, `"NW"`, `"B123"`, `"BR1 1AA"` and a string of blanks are rejected. -/
theorem validatePostcode_spec :
    (∀ s : String, ∃ b, validatePostcode (str s) = .ok b ∧ (b = true ↔
        (s = "" ∨ ∃ ls ds : List Char, (trim s).data = ls ++ ds
          ∧ (ls.length = 1 ∨ ls.length = 2) ∧ (ds.length = 1 ∨ ds.length = 2)
          ∧ (∀ c ∈ ls, isAsciiLetter c = true) ∧ (∀ c ∈ ds, c.isDigit = true))))
      ∧ validatePostcode undefined = .ok true ∧ validatePostcode null = .ok true
      ∧ validatePostcode (str "BR1") = .ok true ∧ validatePostcode (str "nw10") = .ok true
      ∧ validatePostcode (str " E1 ") = .ok true ∧ validatePostcode (str "NW") = .ok false
      ∧ validatePostcode (str "B123") = .ok false
      ∧ validatePostcode (str "BR1 1AA") = .ok false
      ∧ validatePostcode (str "   ") = .ok false := by
  refine ⟨fun s => ?_, by decide, by decide, by decide, by decide, by decide, by decide,
    by decide, by decide, by decide⟩
  by_cases hs : s = ""
  · exact ⟨true, by simp [validatePostcode, hs], by simp [hs]⟩
  · refine ⟨matchAnchored postcodeRegex (trim s).data, by simp [validatePostcode, hs], ?_⟩
    rw [matchAnchored_postcode]
    simp [hs]

/-! ## C17, C18: `validatePrice`, `validateBedrooms` -/

theorem JSNum.zero_le_iff (n : JSNum) :
    (fin 0).le n = true ↔ n = posInf ∨ ∃ q : ℚ, 0 ≤ q ∧ n = fin q := by
  cases n <;> simp [JSNum.le]

/-- C17 (amended). For every input `v`, `validatePrice(v)` is true exactly when `v` is falsy
(empty or absent) or parses to a non-negative number, `+Infinity` included: a value that parses
to a negative number or to no number is rejected, the text `"Infinity"` is accepted. -/
theorem validatePrice_spec (v : JSVal) :
    (validatePrice v = true ↔
        (truthy v = false ∨ parseFloat v = posInf ∨ ∃ q : ℚ, 0 ≤ q ∧ parseFloat v = fin q))
      ∧ validatePrice (str "") = true ∧ validatePrice undefined = true
      ∧ validatePrice (str "-5") = false ∧ validatePrice (str "abc") = false
      ∧ validatePrice (str "250000") = true := by
  refine ⟨?_, by decide, by decide, by decide!, by decide, by decide!⟩
  unfold validatePrice
  cases ht : truthy v
  · simp
  · cases hp : parseFloat v <;> simp [JSNum.le, JSNum.isNaN]

/-- C17, counterexample: the text `"Infinity"` parses to a non-finite number and is accepted,
as is the number `Infinity`. -/
theorem validatePrice_infinity :
    parseFloat (str "Infinity") = posInf ∧ validatePrice (str "Infinity") = true
      ∧ validatePrice (num posInf) = true := by
  decide

theorem parseIntStr_integer (s : String) (q : ℚ) (hs : parseIntStr s = fin q) : q.den = 1 := by
  unfold parseIntStr at hs
  simp only at hs
  split at hs <;> split at hs <;>
    first
    | exact signedDouble_integer _ _ q hs
    | cases hs

/-- C18 (amended). For every input `v`, `validateBedrooms(v)` is true exactly when `v` is falsy
(empty or absent) or its integer parse gives a number between 0 and 20, which for a string is
an integer; values that parse below 0 or above 20 and non-numeric values are rejected. The
integer parse reads the leading digits only, so `"2.5"` (read as 2) and `"20.9"` (read as 20)
are accepted. -/
theorem validateBedrooms_spec (h : Host) (v : JSVal) :
    (validateBedrooms h v = true ↔
        (truthy v = false ∨ ∃ q : ℚ, 0 ≤ q ∧ q ≤ 20 ∧ parseInt h v = fin q))
      ∧ (∀ s : String, ∀ q : ℚ, parseInt h (str s) = fin q → q.den = 1)
      ∧ validateBedrooms h (str "") = true ∧ validateBedrooms h undefined = true
      ∧ validateBedrooms h (str "-1") = false ∧ validateBedrooms h (str "21") = false
      ∧ validateBedrooms h (str "abc") = false ∧ validateBedrooms h (str "20") = true
      ∧ validateBedrooms h (str "0") = true := by
  have ex : validateBedrooms sampleHost (str "") = true
      ∧ validateBedrooms sampleHost undefined = true
      ∧ validateBedrooms sampleHost (str "-1") = false
      ∧ validateBedrooms sampleHost (str "21") = false
      ∧ validateBedrooms sampleHost (str "abc") = false
      ∧ validateBedrooms sampleHost (str "20") = true
      ∧ validateBedrooms sampleHost (str "0") = true := by decide
  refine ⟨?_, fun s q hq => parseIntStr_integer s q hq, ex⟩
  unfold validateBedrooms
  cases ht : truthy v
  · simp
  · simp only [Bool.not_true, Bool.false_eq_true, if_false, Bool.and_eq_true,
      Bool.not_eq_true', false_or]
    cases hp : parseInt h v <;> simp [JSNum.le, JSNum.isNaN]

/-- C18, counterexample: the values `"2.5"` and `"20.9"`, which are not integers, are
accepted. -/
theorem validateBedrooms_fraction :
    validateBedrooms sampleHost (str "2.5") = true
      ∧ validateBedrooms sampleHost (str "20.9") = true
      ∧ parseInt sampleHost (str "2.5") = fin 2 ∧ parseInt sampleHost (str "20.9") = fin 20 := by
  decide

/-! ## C19: `sanitizeInput` -/

theorem stripTags_sublist : ∀ (b : Bool) (l : List Char), (stripTags b l).Sublist l
  | _, [] => by cases ‹Bool› <;> exact List.Sublist.refl _
  | true, c :: r => by
    simp only [stripTags]
    split
    · exact (stripTags_sublist false r).cons c
    · exact (stripTags_sublist true r).cons c
  | false, c :: r => by
    simp only [stripTags]
    split
    · exact (stripTags_sublist true r).cons c
    · exact (stripTags_sublist false r).cons_cons c

theorem hasTag_stripTags : ∀ (b : Bool) (l : List Char), hasTag (stripTags b l) = false
  | _, [] => by cases ‹Bool› <;> rfl
  | true, c :: r => by
    simp only [stripTags]
    split
    · exact hasTag_stripTags false r
    · exact hasTag_stripTags true r
  | false, c :: r => by
    simp only [stripTags]
    split
    · exact hasTag_stripTags true r
    · rename_i hc
      simp only [hasTag, hasTag_stripTags false r, Bool.or_false, Bool.and_eq_false_imp,
        decide_eq_true_eq, decide_eq_false_iff_not]
      intro hlt hmem
      exact hc ⟨hlt, (stripTags_sublist false r).subset hmem⟩

theorem stripTags_of_not_hasTag : ∀ l : List Char, hasTag l = false → stripTags false l = l
  | [], _ => rfl
  | c :: r, hl => by
    simp only [hasTag, Bool.or_eq_false_iff, Bool.and_eq_false_imp, decide_eq_true_eq,
      decide_eq_false_iff_not] at hl
    have hc : ¬ (c = '<' ∧ '>' ∈ r) := fun hh => hl.1 hh.1 hh.2
    simp only [stripTags, hc, if_false, stripTags_of_not_hasTag r hl.2]

theorem hasTag_iff (l : List Char) :
    hasTag l = true ↔ ∃ a b : List Char, l = a ++ '<' :: b ∧ '>' ∈ b := by
  induction l with
  | nil => simp [hasTag]
  | cons c r ih =>
    simp only [hasTag, Bool.or_eq_true, Bool.and_eq_true, decide_eq_true_eq, ih]
    constructor
    · rintro (⟨rfl, hm⟩ | ⟨a, b, rfl, hm⟩)
      · exact ⟨[], r, rfl, hm⟩
      · exact ⟨c :: a, b, rfl, hm⟩
    · rintro ⟨a, b, hab, hm⟩
      cases a with
      | nil =>
        simp only [List.nil_append, List.cons.injEq] at hab
        exact Or.inl ⟨hab.1, hab.2 ▸ hm⟩
      | cons x a =>
        simp only [List.cons_append, List.cons.injEq] at hab
        exact Or.inr ⟨a, b, hab.2, hm⟩

theorem hasTag_of_no_lt (l : List Char) (hl : '<' ∉ l) : hasTag l = false := by
  cases ht : hasTag l
  · rfl
  · obtain ⟨a, b, rfl, _⟩ := (hasTag_iff l).mp ht
    exact absurd (by simp) hl

/-- C19. For every string `s`, `sanitizeInput(s)` contains no `<` that is followed anywhere
later by a `>` (also for nested input such as `"<scr<b>ipt>"`), so sanitising twice is
sanitising once; a string with no `<` is returned unchanged; and for every input that is not a
string the result is the empty string. -/
theorem sanitizeInput_spec :
    (∀ s : String, ∀ a b : List Char,
        (sanitizeInput (str s)).data = a ++ '<' :: b → '>' ∉ b)
      ∧ (∀ s : String, sanitizeInput (str (sanitizeInput (str s))) = sanitizeInput (str s))
      ∧ (∀ s : String, '<' ∉ s.data → sanitizeInput (str s) = s)
      ∧ (∀ v : JSVal, isStr v = false → sanitizeInput v = "")
      ∧ sanitizeInput (str "<scr<b>ipt>") = "ipt>"
      ∧ sanitizeInput (str "a <b>bold</b> move") = "a bold move" := by
  refine ⟨fun s a b hab hm => ?_, fun s => ?_, fun s hs => ?_, fun v hv => ?_, by decide,
    by decide⟩
  · have h1 := hasTag_stripTags false s.data
    have h2 : hasTag (stripTags false s.data) = true :=
      (hasTag_iff _).mpr ⟨a, b, hab, hm⟩
    rw [h1] at h2
    cases h2
  · simp only [sanitizeInput]
    congr 1
    exact stripTags_of_not_hasTag _ (hasTag_stripTags false s.data)
  · simp only [sanitizeInput, stripTags_of_not_hasTag _ (hasTag_of_no_lt _ hs)]
  · cases v <;> first | rfl | simp [isStr] at hv

/-- C19, witness: a string without `<` is returned unchanged, and a non-string gives the empty
string. -/
theorem sanitizeInput_spec_witness :
    sanitizeInput (str "BR1 > NW1") = "BR1 > NW1" ∧ sanitizeInput (num (fin 5)) = "" :=
  ⟨sanitizeInput_spec.2.2.1 "BR1 > NW1" (by decide), sanitizeInput_spec.2.2.2.1 _ rfl⟩

/-! ## C20: `formatPrice` -/

theorem flatMap_group_filter (n : Nat) (l : List (Nat × Char)) :
    (l.flatMap (fun ic =>
        if ic.1 ≠ 0 ∧ (n - ic.1) % 3 = 0 then [',', ic.2] else [ic.2])).filter
        (fun c => decide (c ≠ ','))
      = (l.map Prod.snd).filter (fun c => decide (c ≠ ',')) := by
  induction l with
  | nil => rfl
  | cons x xs ih =>
    simp only [List.flatMap_cons, List.filter_append, ih, List.map_cons]
    split <;> simp [List.filter_cons] <;> split <;> simp

/-- Removing the commas from the grouped digits gives the digits back. -/
theorem groupThousands_filter (ds : List Char) :
    (groupThousands ds).filter (fun c => decide (c ≠ ',')) =
      ds.filter (fun c => decide (c ≠ ',')) := by
  unfold groupThousands
  rw [flatMap_group_filter, List.enum_map_snd]

/-- C20, the code at the inputs of the test file. The source writes the currency sign as the
two characters U+00C2 U+00A3, so `formatPrice(450000)` is not the string `"£450,000"` the test
expects: it has one character more, although its digits are grouped in threes and, for every
price below `2 ^ 53`, are with the commas removed the decimal numeral of the price. -/
theorem formatPrice_prefix (h : Host) :
    formatPrice h 450000 = ⟨Char.ofNat 194 :: "£450,000".data⟩
      ∧ formatPrice h 450000 ≠ "£450,000"
      ∧ formatPrice h 1250000 = ⟨Char.ofNat 194 :: "£1,250,000".data⟩
      ∧ formatPrice h 195000 = ⟨Char.ofNat 194 :: "£195,000".data⟩
      ∧ ∀ n : Nat, n < 2 ^ 53 →
          ((formatPrice h n).data.drop 2).filter (fun c => decide (c ≠ ','))
            = (Nat.repr n).data.filter (fun c => decide (c ≠ ',')) := by
  have ex : formatPrice sampleHost 450000 = ⟨Char.ofNat 194 :: "£450,000".data⟩
      ∧ formatPrice sampleHost 450000 ≠ "£450,000"
      ∧ formatPrice sampleHost 1250000 = ⟨Char.ofNat 194 :: "£1,250,000".data⟩
      ∧ formatPrice sampleHost 195000 = ⟨Char.ofNat 194 :: "£195,000".data⟩ := by decide
  refine ⟨ex.1, ex.2.1, ex.2.2.1, ex.2.2.2, fun n hn => ?_⟩
  have hn2 : n < 9007199254740992 := by
    have e : (2 : Nat) ^ 53 = 9007199254740992 := by norm_num
    omega
  simp only [formatPrice, hn2, if_true, List.drop_succ_cons, List.drop_zero,
    groupThousands_filter]

/-- C20, witness: the digits of `formatPrice(450000)`. -/
theorem formatPrice_prefix_witness :
    ((formatPrice sampleHost 450000).data.drop 2).filter (fun c => decide (c ≠ ','))
      = (Nat.repr 450000).data.filter (fun c => decide (c ≠ ',')) :=
  ( formatPrice_prefix sampleHost).2.2.2.2 450000 (by norm_num)

/-! ## C21: `formatDate` -/

theorem yearFromDay_eq (d : IsoDate) (hd : d.valid = true) :
    yearFromDay (dayFromYear d.year + (dayInYear d : Int)) = d.year := by
  have hlt := dayInYear_lt d hd
  have hsucc := dayFromYear_succ d.year
  unfold yearFromDay
  rw [Nat.findGreatest_eq_iff]
  refine ⟨?_, fun _ => by omega, fun n hn _ hP => ?_⟩
  · have : (d.year : Int) ≤ (dayFromYear d.year + (dayInYear d : Int)) / 365 + 1973 := by
      have h0 : dayFromYear d.year ≤ dayFromYear d.year + (dayInYear d : Int) := by omega
      unfold dayFromYear at h0 ⊢
      omega
    omega
  · have hmono := dayFromYear_mono (d.year + 1) n hn
    push_cast at hmono
    omega

theorem monthFromDayInYear_eq (d : IsoDate) (hd : d.valid = true) :
    monthFromDayInYear (dayInYear d) (leapDay d.year) = d.month := by
  simp only [IsoDate.valid, decide_eq_true_eq] at hd
  obtain ⟨h1, h2, h3, h4⟩ := hd
  have hm := month_facts d.year d.month h1 h2
  have hl := leapDay_le d.year
  unfold monthFromDayInYear dayInYear
  rcases hm with hm | hm | hm | hm | hm | hm | hm | hm | hm | hm | hm | hm <;>
    obtain ⟨e1, e2, e3⟩ := hm <;>
    rw [e1] at e2 e3 h4 ⊢ <;>
    repeat (first
      | rw [if_pos (by omega)]
      | rw [if_neg (by omega)])

/-- The calendar date of the day number of a calendar date is that date. -/
theorem civilFromDay_dayNumber (d : IsoDate) (hd : d.valid = true) :
    civilFromDay (dayFromYear d.year + (dayInYear d : Int)) = d := by
  have hy := yearFromDay_eq d hd
  have hm := monthFromDayInYear_eq d hd
  simp only [IsoDate.valid, decide_eq_true_eq] at hd
  unfold civilFromDay
  simp only [hy, add_sub_cancel_left, hm]
  obtain ⟨y, m, dd⟩ := d
  simp only [dayInYear] at *
  congr 1
  omega

/-- A shift within the day does not change the day number. -/
theorem day_of_shifted (N off : Int) (h0 : 0 ≤ off) (h1 : off < 1440) :
    (N * 86400000 + off * 60000) / 86400000 = N := by
  omega

theorem year_four_digits (y : Nat) (h1 : 1000 ≤ y) (h2 : y < 10000) :
    (toString y).length = 4 := by
  show (Nat.repr y).length = 4
  unfold Nat.repr Nat.toDigits
  obtain ⟨k, hk⟩ : ∃ k, y + 1 = k + 4 := ⟨y - 3, by omega⟩
  rw [hk]
  have a1 : y / 10 ≠ 0 := by omega
  have a2 : y / 10 / 10 ≠ 0 := by omega
  have a3 : y / 10 / 10 / 10 ≠ 0 := by omega
  have a4 : y / 10 / 10 / 10 / 10 = 0 := by omega
  simp [Nat.toDigitsCore, a1, a2, a3, a4, List.asString]

theorem digit_le_nine (c : Char) (hc : c.isDigit = true) : c.toNat - 48 ≤ 9 := by
  simp only [Char.isDigit, Bool.and_eq_true, decide_eq_true_eq] at hc
  have h2 : c.toNat ≤ 57 := hc.2
  omega

theorem parseIsoDate_year_lt (s : String) (d : IsoDate) (hs : parseIsoDate s = some d) :
    d.year < 10000 := by
  unfold parseIsoDate at hs
  split at hs
  · split at hs
    · rename_i y1 y2 y3 y4 m1 m2 d1 d2 _ hall
      simp only at hs
      split at hs
      · cases hs
        simp only [List.all_cons, List.all_nil, Bool.and_true, Bool.and_eq_true] at hall
        obtain ⟨c1, c2, c3, c4, _⟩ := hall
        have b1 := digit_le_nine y1 c1
        have b2 := digit_le_nine y2 c2
        have b3 := digit_le_nine y3 c3
        have b4 := digit_le_nine y4 c4
        simp only [digitsToNat, List.foldl_cons, List.foldl_nil]
        omega
      · cases hs
    · cases hs
  · cases hs

/-- A shift back within a day gives the day number before. -/
theorem day_of_shifted_west (N off : Int) (h0 : -1440 ≤ off) (h1 : off < 0) :
    (N * 86400000 + off * 60000) / 86400000 = N - 1 := by
  omega

/-- The day before a calendar date is a calendar date, and its midnight is 24 hours earlier. -/
theorem previousDay_spec (d : IsoDate) (hd : d.valid = true) (hy : 1 ≤ d.year) :
    (previousDay d).valid = true ∧ (previousDay d).toTime + 86400000 = d.toTime := by
  obtain ⟨y, m, dd⟩ := d
  have hd2 := hd
  simp only [IsoDate.valid, decide_eq_true_eq] at hd2
  obtain ⟨a1, a2, a3, a4⟩ := hd2
  have hm := month_facts y m a1 a2
  have hl := leapDay_le y
  by_cases hday : 1 < dd
  · have hp : previousDay ⟨y, m, dd⟩ = ⟨y, m, dd - 1⟩ := by simp [previousDay, hday]
    have hpv : IsoDate.valid ⟨y, m, dd - 1⟩ = true := by
      simp only [IsoDate.valid, decide_eq_true_eq]
      omega
    rw [hp]
    refine ⟨hpv, ?_⟩
    rw [toTime_eq _ hpv, toTime_eq _ hd]
    simp only [dayInYear]
    omega
  · by_cases hmon : 1 < m
    · have hp : previousDay ⟨y, m, dd⟩ = ⟨y, m - 1, daysInMonth y (m - 1)⟩ := by
        simp [previousDay, hday, hmon]
      have hm2 := month_facts y (m - 1) (by omega) (by omega)
      have hpv : IsoDate.valid ⟨y, m - 1, daysInMonth y (m - 1)⟩ = true := by
        simp only [IsoDate.valid, decide_eq_true_eq]
        omega
      rw [hp]
      refine ⟨hpv, ?_⟩
      rw [toTime_eq _ hpv, toTime_eq _ hd]
      simp only [dayInYear]
      omega
    · obtain ⟨k, rfl⟩ : ∃ k, y = k + 1 := ⟨y - 1, by simp only at hy; omega⟩
      have hp : previousDay ⟨k + 1, m, dd⟩ = ⟨k, 12, 31⟩ := by
        simp [previousDay, hday, hmon]
      have hm2 := month_facts k 12 (by omega) (by omega)
      have hpv : IsoDate.valid ⟨k, 12, 31⟩ = true := by
        simp only [IsoDate.valid, decide_eq_true_eq]
        omega
      have hs := dayFromYear_succ k
      rw [hp]
      refine ⟨hpv, ?_⟩
      rw [toTime_eq _ hpv, toTime_eq _ hd]
      simp only [dayInYear]
      push_cast
      omega

/-- C21 (amended). For every valid ISO date string `YYYY-MM-DD` with a year from 1000 on, in a
host whose local time is at or ahead of UTC (offset from 0 up to, not including, 24 hours),
`formatDate` returns the day of the month without leading zero, a space, the full English
month name, a space and the four-digit year, for the same calendar day as the input;
`formatDate("2024-10-15")` is then `"15 October 2024"`. In a host behind UTC, by up to 24
hours, the text is that of the previous calendar day, the date whose midnight is 24 hours
earlier. -/
theorem formatDate_spec (h : Host) (offsetMinutes : Int) (s : String) (d : IsoDate)
    (hs : parseIsoDate s = some d) (hy : 1000 ≤ d.year) (h0 : 0 ≤ offsetMinutes)
    (h1 : offsetMinutes < 1440) :
    formatDate h offsetMinutes (str s)
        = toString d.day ++ " " ++ monthName d.month ++ " " ++ toString d.year
      ∧ (toString d.year).length = 4
      ∧ formatDate h 0 (str "2024-10-15") = "15 October 2024"
      ∧ (previousDay d).valid = true ∧ (previousDay d).toTime + 86400000 = d.toTime
      ∧ ∀ west : Int, -1440 ≤ west → west < 0 →
          formatDate h west (str s)
            = toString (previousDay d).day ++ " " ++ monthName (previousDay d).month ++ " "
                ++ toString (previousDay d).year := by
  have hprev := previousDay_spec d (parseIsoDate_valid s d hs) (by omega)
  have hwest : ∀ west : Int, -1440 ≤ west → west < 0 →
      formatDate h west (str s) = renderDate (previousDay d) := by
    intro west hw0 hw1
    have hv := parseIsoDate_valid s d hs
    have e1 := toTime_eq d hv
    have e2 := toTime_eq _ hprev.1
    have hN : dayFromYear d.year + (dayInYear d : Int) - 1
        = dayFromYear (previousDay d).year + (dayInYear (previousDay d) : Int) := by
      have e3 := hprev.2
      rw [e1, e2] at e3
      omega
    unfold formatDate
    rw [newDate_iso h (str s) d hs]
    simp only [Int.floor_intCast, e1, day_of_shifted_west _ west hw0 hw1, hN,
      civilFromDay_dayNumber _ hprev.1]
  have key : ∀ (s : String) (d : IsoDate) (off : Int), parseIsoDate s = some d → 0 ≤ off →
      off < 1440 → formatDate h off (str s) = renderDate d := by
    intro s d off hs h0 h1
    have hv := parseIsoDate_valid s d hs
    unfold formatDate
    rw [newDate_iso h (str s) d hs]
    simp only [Int.floor_intCast, toTime_eq d hv,
      day_of_shifted _ off h0 h1, civilFromDay_dayNumber d hv]
  refine ⟨key s d offsetMinutes hs h0 h1,
    year_four_digits d.year hy (parseIsoDate_year_lt s d hs), ?_, hprev.1, hprev.2, hwest⟩
  rw [key "2024-10-15" ⟨2024, 10, 15⟩ 0 (by decide) (le_refl 0) (by decide)]
  decide

/-- C21, witness: the date of the test file in a host one hour ahead of UTC, and the first of
October in a host five hours behind. -/
theorem formatDate_spec_witness :
    formatDate sampleHost 60 (str "2024-10-15")
        = toString 15 ++ " " ++ monthName 10 ++ " " ++ toString 2024
      ∧ formatDate sampleHost (-300) (str "2024-10-01")
        = toString 30 ++ " " ++ monthName 9 ++ " " ++ toString 2024 :=
  ⟨(formatDate_spec sampleHost 60 "2024-10-15" ⟨2024, 10, 15⟩ (by decide) (by decide)
      (by decide) (by decide)).1,
    (formatDate_spec sampleHost 60 "2024-10-01" ⟨2024, 10, 1⟩ (by decide) (by decide)
      (by decide) (by decide)).2.2.2.2.2 (-300) (by decide) (by decide)⟩

/-- C21, counterexample: in a host five hours behind UTC (offset -300 minutes) the date
`2024-10-15`, midnight UTC, falls on the evening before, and `formatDate` names the previous
day. -/
theorem formatDate_west_of_utc :
    formatDate sampleHost (-300) (str "2024-10-15") = "14 October 2024"
      ∧ formatDate sampleHost (-300) (str "2024-10-01") = "30 September 2024" := by
  decide!

/-! ## C22 to C25, C27: favourites -/

theorem strictEq_eq (a b : JSVal) (hab : strictEq a b = true) : a = b := by
  unfold strictEq at hab
  split at hab
  · cases hab
  · cases hab
  · exact of_decide_eq_true hab

theorem idPresent_false_iff (id : JSVal) (F : List Property) :
    idPresent id F = false ↔ ∀ f ∈ F, strictEq f.id id = false := by
  simp [idPresent, List.any_eq_false]

theorem distinctIds_add (p : Property) (F : List Property) (hF : distinctIds F) :
    distinctIds (addToFavourites p F) := by
  unfold addToFavourites
  split
  · exact List.Pairwise.sublist (List.filter_sublist F) hF
  · rename_i hany
    have hnone : ∀ f ∈ F, strictEq f.id p.id = false :=
      (idPresent_false_iff p.id F).mp (by simpa [idPresent] using hany)
    unfold distinctIds
    rw [List.pairwise_append]
    exact ⟨hF, List.pairwise_singleton _ _, fun a ha b hb => by
      rw [List.mem_singleton.mp hb]; exact hnone a ha⟩

theorem addToFavourites_present (F : List Property) (p : Property)
    (hp : idPresent p.id F = true) :
    addToFavourites p F = F.filter (fun fav => !strictEq fav.id p.id) := by
  simp only [addToFavourites, idPresent] at hp ⊢
  rw [if_pos hp]

theorem addToFavourites_absent (F : List Property) (p : Property)
    (hp : idPresent p.id F = false) : addToFavourites p F = F ++ [p] := by
  simp only [addToFavourites, idPresent] at hp ⊢
  rw [if_neg (by simp [hp])]

theorem idPresent_filter_self (i : JSVal) (F : List Property) :
    idPresent i (F.filter (fun fav => !strictEq fav.id i)) = false := by
  rw [idPresent_false_iff]
  intro f hf
  simpa using (List.mem_filter.mp hf).2

/-- C22. The favourites list stays deduplicated by id: from the empty list, or from any list
whose ids are pairwise distinct, no sequence of `addToFavourites`, `removeFavourite` and
`clearFavourites` operations leads to a list with two entries of the same id. -/
theorem favourites_distinct (ops : List FavouritesOp) :
    (∀ F : List Property, distinctIds F → distinctIds (ops.foldl applyOp F))
      ∧ distinctIds (ops.foldl applyOp []) := by
  have key : ∀ (ops : List FavouritesOp) (F : List Property), distinctIds F →
      distinctIds (ops.foldl applyOp F) := by
    intro ops
    induction ops with
    | nil => exact fun F hF => hF
    | cons op ops ih =>
      intro F hF
      refine ih _ ?_
      cases op with
      | add p => exact distinctIds_add p F hF
      | remove i => exact List.Pairwise.sublist (List.filter_sublist F) hF
      | clear c =>
        cases c
        · exact hF
        · exact List.Pairwise.nil
  exact ⟨key ops, key ops [] List.Pairwise.nil⟩

/-- C22, witness: two favourites, then an add, a remove and a declined clear. -/
theorem favourites_distinct_witness :
    distinctIds twoFavourites
      ∧ distinctIds ([FavouritesOp.add favouriteThree, FavouritesOp.remove (num (fin 1)),
          FavouritesOp.clear false].foldl applyOp twoFavourites) :=
  ⟨by unfold distinctIds; decide,
    (favourites_distinct _).1 twoFavourites (by unfold distinctIds; decide)⟩

/-- C23 (amended). `addToFavourites` toggles: when the id of `p` already occurs in the list,
every entry with that id is removed (the list gets shorter and holds no entry with the id);
when it does not occur, the result is the list with `p` appended at the end. -/
theorem addToFavourites_spec (F : List Property) (p : Property) :
    (idPresent p.id F = true →
        addToFavourites p F = F.filter (fun fav => !strictEq fav.id p.id)
          ∧ (addToFavourites p F).length < F.length
          ∧ idPresent p.id (addToFavourites p F) = false)
      ∧ (idPresent p.id F = false → addToFavourites p F = F ++ [p]) := by
  refine ⟨fun hp => ?_, addToFavourites_absent F p⟩
  have e := addToFavourites_present F p hp
  refine ⟨e, ?_, ?_⟩
  · rw [e]
    simp only [idPresent] at hp
    obtain ⟨f, hf, hfp⟩ := List.any_eq_true.mp hp
    exact List.length_filter_lt_length_iff_exists.mpr ⟨f, hf, by simp [hfp]⟩
  · rw [e]
    exact idPresent_filter_self p.id F

/-- C23, witness: adding the property with id 1 to favourites 1 and 2 leaves only 2; adding
one with id 3 appends it. -/
theorem addToFavourites_spec_witness :
    addToFavourites favouriteOne twoFavourites
        = twoFavourites.filter (fun fav => !strictEq fav.id favouriteOne.id)
      ∧ addToFavourites favouriteThree twoFavourites = twoFavourites ++ [favouriteThree] :=
  ⟨((addToFavourites_spec twoFavourites favouriteOne).1 (by decide)).1,
    (addToFavourites_spec twoFavourites favouriteThree).2 (by decide)⟩

/-- C23, counterexample: adding a property whose id is already in the list does not leave the
list as it was: the entry is removed and the length drops from 2 to 1. -/
theorem addToFavourites_duplicate_removes :
    idPresent favouriteOne.id twoFavourites = true
      ∧ addToFavourites favouriteOne twoFavourites = twoFavourites.drop 1
      ∧ (addToFavourites favouriteOne twoFavourites).length = 1 := by
  decide

theorem idPresent_append (x : JSVal) (F G : List Property) :
    idPresent x (F ++ G) = (idPresent x F || idPresent x G) := by
  simp [idPresent, List.any_append]

theorem filter_ne_of_absent (i : JSVal) (F : List Property) (hi : idPresent i F = false) :
    F.filter (fun fav => !strictEq fav.id i) = F := by
  rw [List.filter_eq_self]
  intro f hf
  simp [(idPresent_false_iff i F).mp hi f hf]

theorem idPresent_filter (x i : JSVal) (F : List Property) :
    idPresent x F
      = (idPresent x (F.filter (fun fav => !strictEq fav.id i))
          || (idPresent i F && strictEq i x)) := by
  induction F with
  | nil => simp [idPresent]
  | cons f F ih =>
    simp only [idPresent] at ih
    simp only [idPresent, List.any_cons, List.filter_cons, ih]
    cases hfi : strictEq f.id i
    · simp only [Bool.not_false, if_true, List.any_cons, Bool.false_or]
      cases strictEq f.id x <;> simp [Bool.or_assoc]
    · have := strictEq_eq _ _ hfi
      simp only [Bool.not_true, Bool.false_eq_true, if_false, Bool.true_or, Bool.true_and]
      rw [this]
      cases strictEq i x <;> cases List.any (List.filter (fun fav => !strictEq fav.id i) F)
        (fun fav => strictEq fav.id x) <;> simp

/-- C24. Toggle: for every favourites list and every property `p` whose id equals itself (any
id but `NaN`; the data model has integer ids), `addToFavourites(p)` makes the id of `p` present
if it was absent and absent if it was present; when the id is not in the list, two
applications give back the list exactly; and in every case two applications leave the set of
ids in the list unchanged. -/
theorem addToFavourites_toggle (F : List Property) (p : Property)
    (hp : strictEq p.id p.id = true) :
    idPresent p.id (addToFavourites p F) = !idPresent p.id F
      ∧ (idPresent p.id F = false → addToFavourites p (addToFavourites p F) = F)
      ∧ ∀ x : JSVal, idPresent x (addToFavourites p (addToFavourites p F)) = idPresent x F := by
  have htwice_absent : idPresent p.id F = false →
      addToFavourites p (addToFavourites p F) = F := by
    intro habs
    have e1 := addToFavourites_absent F p habs
    have hpres : idPresent p.id (F ++ [p]) = true := by
      rw [idPresent_append]
      simp [idPresent, hp]
    rw [e1, addToFavourites_present (F ++ [p]) p hpres, List.filter_append,
      filter_ne_of_absent p.id F habs]
    simp [hp]
  refine ⟨?_, htwice_absent, fun x => ?_⟩
  · cases hpr : idPresent p.id F
    · rw [addToFavourites_absent F p hpr, idPresent_append]
      simp [idPresent, hp]
    · rw [addToFavourites_present F p hpr, idPresent_filter_self]
      rfl
  · cases hpr : idPresent p.id F
    · rw [htwice_absent hpr]
    · have e1 := addToFavourites_present F p hpr
      have e3 := idPresent_filter_self p.id F
      rw [e1, addToFavourites_absent _ p e3, idPresent_append, idPresent_filter x p.id F, hpr]
      simp [idPresent]

/-- C24, witness: toggling the property with id 3 twice on favourites 1 and 2. -/
theorem addToFavourites_toggle_witness :
    addToFavourites favouriteThree (addToFavourites favouriteThree twoFavourites)
      = twoFavourites :=
  (addToFavourites_toggle twoFavourites favouriteThree (by decide)).2.1 (by decide)

/-- C25. `removeFavourite(i)` gives exactly the entries whose id differs from `i`, in their
original order: no remaining entry has id `i`, every other entry is kept, removing an id that
is not present (also from the empty list) leaves the list unchanged, and removing twice is
removing once. -/
theorem removeFavourite_spec (F : List Property) (i : JSVal) :
    removeFavourite i F = F.filter (fun fav => !strictEq fav.id i)
      ∧ (removeFavourite i F).Sublist F
      ∧ idPresent i (removeFavourite i F) = false
      ∧ (∀ f ∈ F, strictEq f.id i = false → f ∈ removeFavourite i F)
      ∧ (idPresent i F = false → removeFavourite i F = F)
      ∧ removeFavourite i [] = []
      ∧ removeFavourite i (removeFavourite i F) = removeFavourite i F := by
  refine ⟨rfl, List.filter_sublist F, ?_, fun f hf hfi => ?_, fun habs => ?_, rfl, ?_⟩
  · rw [idPresent_false_iff]
    intro f hf
    simpa [removeFavourite] using (List.mem_filter.mp hf).2
  · exact List.mem_filter.mpr ⟨hf, by simp [hfi]⟩
  · exact filter_ne_of_absent i F habs
  · simp [removeFavourite, List.filter_filter]

/-- C25, witness: removing the id 3, which is not present, from favourites 1 and 2. -/
theorem removeFavourite_spec_witness :
    removeFavourite (num (fin 3)) twoFavourites = twoFavourites :=
  (removeFavourite_spec twoFavourites (num (fin 3))).2.2.2.2.1 (by decide)

/-- C27. A drop on the favourites zone never removes a favourite and never creates a
duplicate: when the id of the dropped property already occurs in the list no event is
dispatched and the list stays as it is; otherwise the property is appended at the end. -/
theorem dropOnFavourites_spec (F : List Property) (p : Property) :
    (idPresent p.id F = true → handleDrop F (some p) = none ∧ dropOnFavourites F p = F)
      ∧ (idPresent p.id F = false → dropOnFavourites F p = F ++ [p])
      ∧ F.Sublist (dropOnFavourites F p)
      ∧ (distinctIds F → distinctIds (dropOnFavourites F p)) := by
  have h1 : idPresent p.id F = true → handleDrop F (some p) = none ∧ dropOnFavourites F p = F := by
    intro hp
    simp only [idPresent] at hp
    simp [dropOnFavourites, handleDrop, handleAddToFavourites, hp]
  have h2 : idPresent p.id F = false → dropOnFavourites F p = F ++ [p] := by
    intro hp
    have e := addToFavourites_absent F p hp
    simp only [idPresent] at hp
    simp [dropOnFavourites, handleDrop, handleAddToFavourites, hp, e]
  refine ⟨h1, h2, ?_, fun hF => ?_⟩
  · cases hp : idPresent p.id F
    · rw [h2 hp]; exact List.sublist_append_left F [p]
    · rw [(h1 hp).2]
  · cases hp : idPresent p.id F
    · rw [h2 hp, ← addToFavourites_absent F p hp]
      exact distinctIds_add p F hF
    · rw [(h1 hp).2]; exact hF

/-- C27, witness: dropping the property with id 1 on favourites 1 and 2, then the one with
id 3. -/
theorem dropOnFavourites_spec_witness :
    dropOnFavourites twoFavourites favouriteOne = twoFavourites
      ∧ dropOnFavourites twoFavourites favouriteThree = twoFavourites ++ [favouriteThree] :=
  ⟨((dropOnFavourites_spec twoFavourites favouriteOne).1 (by decide)).2,
    (dropOnFavourites_spec twoFavourites favouriteThree).2.1 (by decide)⟩

/-! ## C29: the image gallery -/

theorem goToNext_eq (n i : Nat) (hi : i < n) : goToNext n i = (i + 1) % n := by
  unfold goToNext
  split
  · rename_i hh
    have : i + 1 = n := by omega
    rw [this, Nat.mod_self]
  · rw [Nat.mod_eq_of_lt (by omega)]

theorem goToNext_iterate (n i k : Nat) (hi : i < n) :
    (goToNext n)^[k] i = (i + k) % n := by
  induction k with
  | zero => simp [Nat.mod_eq_of_lt hi]
  | succ k ih =>
    rw [Function.iterate_succ_apply', ih, goToNext_eq n _ (Nat.mod_lt _ (by omega))]
    rw [Nat.add_mod, Nat.mod_mod, ← Nat.add_mod, Nat.add_assoc]

/-- C29. Gallery navigation is cyclic and stays in range: for `n >= 1` images and an index
`0 <= i < n`, `goToNext` gives `(i + 1) mod n` and `goToPrevious` gives `(i - 1) mod n`; the
index stays in range after any sequence of steps; each step undoes the other; and `n` steps
forward return to the starting index. -/
theorem gallery_navigation (n i : Nat) (hi : i < n) :
    goToNext n i = (i + 1) % n
      ∧ (goToPrevious n i : Int) = ((i : Int) - 1) % (n : Int)
      ∧ (∀ steps : List GalleryStep, steps.foldl (galleryStep n) i < n)
      ∧ goToPrevious n (goToNext n i) = i ∧ goToNext n (goToPrevious n i) = i
      ∧ (goToNext n)^[n] i = i := by
  have hstep : ∀ (j : Nat) (s : GalleryStep), j < n → galleryStep n j s < n := by
    intro j s hj
    cases s <;> simp only [galleryStep, goToNext, goToPrevious] <;> split <;> omega
  refine ⟨goToNext_eq n i hi, ?_, fun steps => ?_, ?_, ?_, ?_⟩
  · unfold goToPrevious
    split
    · rename_i h0
      rw [h0]
      have : ((0 : Nat) : Int) - 1 = -1 := by norm_num
      have hmod : (-1 : Int) % (n : Int) = (n : Int) - 1 := by
        rw [← Int.add_emod_self, Int.emod_eq_of_lt] <;> omega
      rw [this, hmod]
      omega
    · push_cast [Nat.cast_sub (show 1 ≤ i by omega)]
      rw [Int.emod_eq_of_lt (by omega) (by omega)]
  · induction steps generalizing i with
    | nil => exact hi
    | cons s steps ih => exact ih _ (hstep i s hi)
  · simp only [goToNext, goToPrevious]
    split <;> split <;> omega
  · simp only [goToNext, goToPrevious]
    split <;> split <;> omega
  · rw [goToNext_iterate n i n hi, Nat.add_mod_right, Nat.mod_eq_of_lt hi]

/-- C29, witness: three images, from the last index. -/
theorem gallery_navigation_witness :
    goToNext 3 2 = (2 + 1) % 3 ∧ goToPrevious 3 (goToNext 3 2) = 2 ∧ (goToNext 3)^[3] 2 = 2 :=
  ⟨(gallery_navigation 3 2 (by decide)).1, (gallery_navigation 3 2 (by decide)).2.2.2.1,
    (gallery_navigation 3 2 (by decide)).2.2.2.2.2⟩

/-! ## C26, C28: the search form -/

theorem validateForm_eq (h : Host) (st : FormState) :
    validateForm h st = .ok
      (FormErrors.mk
          (if postcodeFieldOk st then none else some "Invalid postcode format (e.g., BR1, NW1)")
          (if priceFieldOk st then none else some "Invalid price range")
          (if bedroomsFieldOk h st then none else some "Invalid bedroom range"),
        postcodeFieldOk st && priceFieldOk st && bedroomsFieldOk h st) := by
  unfold validateForm postcodeFieldOk priceFieldOk bedroomsFieldOk validatePostcode
  by_cases hs : st.postcode = ""
  · cases validatePrice st.priceRange.1 <;> cases validatePrice st.priceRange.2 <;>
      cases validateBedrooms h st.bedroomRange.1 <;>
      cases validateBedrooms h st.bedroomRange.2 <;>
      simp [hs, truthy, bind, Except.bind, pure, Except.pure]
  · cases hm : matchAnchored postcodeRegex (trim st.postcode).data <;>
      cases validatePrice st.priceRange.1 <;> cases validatePrice st.priceRange.2 <;>
      cases validateBedrooms h st.bedroomRange.1 <;>
      cases validateBedrooms h st.bedroomRange.2 <;>
      simp [hs, hm, truthy, bind, Except.bind, pure, Except.pure]

theorem postcodeFieldOk_iff (st : FormState) :
    postcodeFieldOk st = true
      ↔ (st.postcode = "" ∨ validatePostcode (str st.postcode) = .ok true) := by
  by_cases hs : st.postcode = "" <;> simp [postcodeFieldOk, truthy, hs]

theorem trimmed_of_postcodeFieldOk (st : FormState) (hok : postcodeFieldOk st = true) :
    trim st.postcode = "" ∨ matchAnchored postcodeRegex (trim st.postcode).data = true := by
  rcases (postcodeFieldOk_iff st).mp hok with hs | hv
  · left
    rw [hs]
    rfl
  · by_cases hs : st.postcode = ""
    · left
      rw [hs]
      rfl
    · right
      simpa [validatePostcode, hs] using hv

/-- The two outcomes of `handleSubmit`: the form is invalid and `onSearch` is not called, or
it is valid and `onSearch` receives the criteria built from the form state. -/
theorem handleSubmit_cases (h : Host) (st : FormState) :
    ∃ call, handleSubmit h st = .ok
        (FormErrors.mk
            (if postcodeFieldOk st then none else some "Invalid postcode format (e.g., BR1, NW1)")
            (if priceFieldOk st then none else some "Invalid price range")
            (if bedroomsFieldOk h st then none else some "Invalid bedroom range"),
          call)
      ∧ (((postcodeFieldOk st && priceFieldOk st && bedroomsFieldOk h st) = false ∧ call = none)
        ∨ ((postcodeFieldOk st && priceFieldOk st && bedroomsFieldOk h st) = true
          ∧ ∃ c : Criteria, call = some c ∧ c.postcode = str (trim st.postcode)
            ∧ c.minPrice = st.priceRange.1 ∧ c.maxPrice = st.priceRange.2
            ∧ c.minBedrooms = st.bedroomRange.1 ∧ c.maxBedrooms = st.bedroomRange.2
            ∧ c.type = (match st.propertyType with
                | some value => str value
                | none => undefined))) := by
  unfold handleSubmit
  rw [validateForm_eq]
  cases hv : (postcodeFieldOk st && priceFieldOk st && bedroomsFieldOk h st)
  · exact ⟨none, by simp [bind, Except.bind, pure, Except.pure, hv], Or.inl ⟨rfl, rfl⟩⟩
  · simp only [bind, Except.bind, pure, Except.pure, hv, Bool.not_true, Bool.false_eq_true,
      if_false]
    split
    · exact ⟨_, rfl, Or.inr ⟨trivial, _, rfl, rfl, rfl, rfl, rfl, rfl, rfl⟩⟩
    · split
      · exact ⟨_, rfl, Or.inr ⟨trivial, _, rfl, rfl, rfl, rfl, rfl, rfl, rfl⟩⟩
      · exact ⟨_, rfl, Or.inr ⟨trivial, _, rfl, rfl, rfl, rfl, rfl, rfl, rfl⟩⟩

/-- C26. For every form state, `handleSubmit` returns, and calls `onSearch` if and only if
the postcode is empty or passes `validatePostcode`, both price bounds pass `validatePrice` and
both bedroom bounds pass `validateBedrooms`. Each field that fails has its message recorded
(and no other field has one), so when a validation fails `onSearch` is not called and the
errors are not empty. Whenever `onSearch` is called the postcode of the criteria is the trimmed
text, which is empty or one or two ASCII letters followed by one or two digits, and the bounds
are those of the form. -/
theorem handleSubmit_spec (h : Host) (st : FormState) :
    ∃ errors call, handleSubmit h st = .ok (errors, call)
      ∧ (call.isSome = true ↔
          ((st.postcode = "" ∨ validatePostcode (str st.postcode) = .ok true)
            ∧ (validatePrice st.priceRange.1 = true ∧ validatePrice st.priceRange.2 = true)
            ∧ (validateBedrooms h st.bedroomRange.1 = true
              ∧ validateBedrooms h st.bedroomRange.2 = true)))
      ∧ errors.postcode
          = (if st.postcode = "" ∨ validatePostcode (str st.postcode) = .ok true then none
              else some "Invalid postcode format (e.g., BR1, NW1)")
      ∧ errors.price
          = (if validatePrice st.priceRange.1 = true ∧ validatePrice st.priceRange.2 = true
              then none else some "Invalid price range")
      ∧ errors.bedrooms
          = (if validateBedrooms h st.bedroomRange.1 = true
                ∧ validateBedrooms h st.bedroomRange.2 = true
              then none else some "Invalid bedroom range")
      ∧ (call = none → errors ≠ {})
      ∧ ∀ c, call = some c → c.postcode = str (trim st.postcode)
          ∧ c.minPrice = st.priceRange.1 ∧ c.maxPrice = st.priceRange.2
          ∧ c.minBedrooms = st.bedroomRange.1 ∧ c.maxBedrooms = st.bedroomRange.2
          ∧ (trim st.postcode = ""
            ∨ ∃ ls ds : List Char, (trim st.postcode).data = ls ++ ds
              ∧ (ls.length = 1 ∨ ls.length = 2) ∧ (ds.length = 1 ∨ ds.length = 2)
              ∧ (∀ x ∈ ls, isAsciiLetter x = true) ∧ (∀ x ∈ ds, x.isDigit = true)) := by
  obtain ⟨call, hrun, hcall⟩ := handleSubmit_cases h st
  have hpc := postcodeFieldOk_iff st
  have hpr : priceFieldOk st = true
      ↔ (validatePrice st.priceRange.1 = true ∧ validatePrice st.priceRange.2 = true) := by
    simp [priceFieldOk]
  have hbd : bedroomsFieldOk h st = true
      ↔ (validateBedrooms h st.bedroomRange.1 = true
        ∧ validateBedrooms h st.bedroomRange.2 = true) := by
    simp [bedroomsFieldOk]
  have hall : (postcodeFieldOk st && priceFieldOk st && bedroomsFieldOk h st) = true
      ↔ ((st.postcode = "" ∨ validatePostcode (str st.postcode) = .ok true)
            ∧ (validatePrice st.priceRange.1 = true ∧ validatePrice st.priceRange.2 = true)
            ∧ (validateBedrooms h st.bedroomRange.1 = true
              ∧ validateBedrooms h st.bedroomRange.2 = true)) := by
    rw [Bool.and_eq_true, Bool.and_eq_true, hpc, hpr, hbd, and_assoc]
  refine ⟨_, call, hrun, ?_, ?_, ?_, ?_, ?_, ?_⟩
  · rw [← hall]
    rcases hcall with ⟨hv, hc⟩ | ⟨hv, c, hc, _⟩
    · simp [hv, hc]
    · simp [hv, hc]
  · simp only [← hpc]
  · simp only [← hpr]
  · simp only [← hbd]
  · intro hnone
    rcases hcall with ⟨hv, _⟩ | ⟨_, c, hc, _⟩
    · intro hE
      have h1 := congrArg FormErrors.postcode hE
      have h2 := congrArg FormErrors.price hE
      have h3 := congrArg FormErrors.bedrooms hE
      simp only at h1 h2 h3
      cases h4 : postcodeFieldOk st <;> cases h5 : priceFieldOk st <;>
        cases h6 : bedroomsFieldOk h st <;> simp [h4, h5, h6] at h1 h2 h3 hv
    · rw [hc] at hnone
      cases hnone
  · intro c hc
    rcases hcall with ⟨_, hn⟩ | ⟨hv, c2, hc2, e1, e2, e3, e4, e5, _⟩
    · rw [hn] at hc
      cases hc
    · rw [hc2] at hc
      cases hc
      refine ⟨e1, e2, e3, e4, e5, ?_⟩
      have hok : postcodeFieldOk st = true := by
        rw [Bool.and_eq_true, Bool.and_eq_true] at hv
        exact hv.1.1
      rcases trimmed_of_postcodeFieldOk st hok with ht | ht
      · exact Or.inl ht
      · exact Or.inr ((matchAnchored_postcode _).mp ht)

theorem parseInt_one (h : Host) : parseInt h (num (fin 1)) = fin 1 := by
  have := parseIntFin_nat h 1 (by norm_num) (by norm_num)
  simpa [parseInt] using this

theorem parseInt_five (h : Host) : parseInt h (num (fin 5)) = fin 5 := by
  have := parseIntFin_nat h 5 (by norm_num) (by norm_num)
  simpa [parseInt] using this

theorem handleSubmit_initial (h : Host) :
    handleSubmit h initialForm = .ok ({}, some untouchedCriteria) := by
  have hpc : postcodeFieldOk initialForm = true := by decide
  have hpr : priceFieldOk initialForm = true := by
    simp [priceFieldOk, initialForm, validatePrice, truthy, parseFloat, JSNum.le, JSNum.isNaN]
  have hbd : bedroomsFieldOk h initialForm = true := by
    simp only [bedroomsFieldOk, initialForm, validateBedrooms, parseInt_one, parseInt_five]
    simp [truthy, JSNum.le, JSNum.isNaN]
    norm_num
  unfold handleSubmit
  rw [validateForm_eq, hpc, hpr, hbd]
  rfl

theorem accepts_untouched (h : Host) (p : Property) (hp : isNumeric p.price = true)
    (hb : isNumeric p.bedrooms = true) :
    accepts h untouchedCriteria p = withinDefaults p := by
  have e2 := maxRejects_eq h (num (fin 1000000)) p.price (fin 1000000) hp
  have e3 := minRejects_eq h (num (fin 1)) p.bedrooms (fin 1) hb
  have e4 := maxRejects_eq h (num (fin 5)) p.bedrooms (fin 5) hb
  have t2 : truthy (num (fin 1000000)) = true := by simp [truthy]
  have t3 : truthy (num (fin 1)) = true := by simp [truthy]
  have t4 : truthy (num (fin 5)) = true := by simp [truthy]
  have t1 : truthy (num (fin 0)) = false := by simp [truthy]
  have t5 : truthy (str "") = false := by simp [truthy]
  simp only [t2, t3, t4, JSNum.isNaN, Bool.not_true, Bool.not_false, Bool.true_and,
    Bool.false_or] at e2 e3 e4
  simp [accepts, untouchedCriteria, withinDefaults, typeRejects, minPriceRejects,
    maxPriceRejects, minBedroomsRejects, maxBedroomsRejects, dateAfterRejects,
    dateBetweenRejects, passesPostcode, truthy_undefined, t1, t2, t3, t4, t5, parseFloat,
    parseInt_one, parseInt_five, JSNum.isNaN, e2, e3, e4]

/-- C28. Submitting the untouched form is not Reset: `handleSubmit` on the initial form
state records no error and calls `onSearch` with `{type: undefined, minPrice: 0,
maxPrice: 1000000, minBedrooms: 1, maxBedrooms: 5, postcode: ""}`, while Reset calls it with
`{}`; on a list whose prices and bedroom counts are numbers the search with those criteria
returns exactly the properties with `price <= 1000000` and `1 <= bedrooms <= 5`, properties
priced 0 or more included since the zero minimum is ignored; the search with `{}` returns the
whole list; and the two differ as soon as the list holds a property above 1,000,000, with
fewer than 1 bedroom (such as 0) or with more than 5. -/
theorem submit_untouched_form (h : Host) (P : List Property)
    (hP : ∀ p ∈ P, isNumeric p.price = true ∧ isNumeric p.bedrooms = true) :
    handleSubmit h initialForm = .ok ({}, some untouchedCriteria)
      ∧ untouchedCriteria
          = { type := undefined, minPrice := num (fin 0), maxPrice := num (fin 1000000),
              minBedrooms := num (fin 1), maxBedrooms := num (fin 5), postcode := str "" }
      ∧ handleReset = {}
      ∧ searchProperties h P untouchedCriteria = .ok (P.filter (fun p =>
          (numOf p.price).le (fin 1000000) && (fin 1).le (numOf p.bedrooms)
            && (numOf p.bedrooms).le (fin 5)))
      ∧ searchProperties h P handleReset = .ok P
      ∧ ((∃ p ∈ P, (fin 1000000).lt (numOf p.price) = true
            ∨ (numOf p.bedrooms).lt (fin 1) = true ∨ (fin 5).lt (numOf p.bedrooms) = true)
          → searchProperties h P untouchedCriteria ≠ searchProperties h P handleReset) := by
  have e1 : searchProperties h P untouchedCriteria = .ok (P.filter withinDefaults) := by
    rw [searchProperties_accepts h P _ (fun p _ => by simp [postcodeSafe, untouchedCriteria,
      truthy])]
    congr 1
    exact List.filter_congr (fun p hp => accepts_untouched h p (hP p hp).1 (hP p hp).2)
  have e2 : searchProperties h P handleReset = .ok P := by
    unfold searchProperties handleReset
    rw [filterE_ok _ (fun _ => true) P (fun p _ => searchCallback_empty h p)]
    simp
  refine ⟨handleSubmit_initial h, rfl, rfl, e1, e2, ?_⟩
  rintro ⟨p, hp, hbad⟩ heq
  rw [e1, e2] at heq
  have hall := List.filter_eq_self.mp (Except.ok.inj heq) p hp
  obtain ⟨n1, n2⟩ := hP p hp
  have m1 := (toNumber_numeric h _ n1).2
  have m2 := (toNumber_numeric h _ n2).2
  simp only [withinDefaults, Bool.and_eq_true] at hall
  rcases hbad with hb | hb | hb
  · rw [JSNum.lt_eq_not_le (fin 1000000) _ rfl m1, hall.1.1] at hb
    cases hb
  · rw [JSNum.lt_eq_not_le _ (fin 1) m2 rfl, hall.1.2] at hb
    cases hb
  · rw [JSNum.lt_eq_not_le (fin 5) _ rfl m2, hall.2] at hb
    cases hb

/-- C28, witness: a list holding one property priced 2,000,000 is returned whole by Reset
and empty by the untouched form. -/
theorem submit_untouched_form_witness :
    searchProperties sampleHost [mansion] untouchedCriteria = .ok []
      ∧ searchProperties sampleHost [mansion] handleReset = .ok [mansion]
      ∧ searchProperties sampleHost [mansion] untouchedCriteria
          ≠ searchProperties sampleHost [mansion] handleReset :=
  ⟨(submit_untouched_form sampleHost [mansion] (by decide)).2.2.2.1,
    (submit_untouched_form sampleHost [mansion] (by decide)).2.2.2.2.1,
    (submit_untouched_form sampleHost [mansion] (by decide)).2.2.2.2.2
      ⟨mansion, List.mem_singleton_self _, Or.inl (by decide)⟩⟩

end EstateApp
